import Mathlib

/-!
# illumos-gate: the mpxu `frudr` PICL plugin and the audio DDI glue

A shallow embedding of the functions of
`usr/src/cmd/picl/plugins/sun4u/mpxu/frudr/piclfrudr.c` and
`usr/src/uts/common/io/audio/impl/audio_ddi.c` that the verified properties
are about.

Conventions of the embedding.

* A C string is the list of its characters before the terminating NUL.
* A `char` buffer that receives a string is the list of characters it holds
  afterwards.
* C `int` values are `Int`; handles (`picl_nodehdl_t`, `picl_prophdl_t`) are
  `Nat`, with `0` for `NULL`.
* Constants that come from system headers which are not part of the sources
  (`picl.h`, `sys/envmon.h`, `sys/raidioctl.h`, `sys/sunddi.h`, ...) are never
  given a value here: they are fields of a parameter record and every theorem
  holds for all values of them (under the distinctness a `switch` needs,
  where that matters).
* What the operating system or the PICL daemon answers (open, ioctl,
  tree look-ups that can fail, allocation) is an explicit environment record.
-/

namespace Illumos

/-! ## C strings -/

/-- Contents of a NUL-terminated C string. -/
abbrev cstr := List Char

/-- Modelled from the spec: the libc function `strlcpy` is not among the
sources.  In `strlcpy(dst, src, dstsize)` at most `dstsize - 1` characters of
`src` are copied and the result is NUL-terminated; with `dstsize == 0` the
destination is left as it is.  The value is the string held by `dst`
afterwards. -/
def strlcpy (dst src : cstr) (dstsize : Nat) : cstr :=
  if dstsize = 0 then dst else src.take (dstsize - 1)

/-- Modelled from the spec: the libc function `strncmp` is not among the
sources.  The test `strncmp(s, lit, n) == 0` for C strings without embedded NUL: the
first `n` characters of both agree, a string that ends earlier being shorter
than one that goes on. -/
def strncmp_eq (s lit : cstr) (n : Nat) : Bool :=
  decide (s.take n = lit.take n)

/-- Modelled from the spec: the libc function `strcmp` is not among the
sources.  The test `strcmp(a, b) == 0`. -/
def strcmp_eq (a b : cstr) : Bool :=
  decide (a = b)

/-! ## Constants of the missing headers -/

/-- Values of the constants that the plugin takes from headers outside the
sources.  Nothing is assumed about them. -/
structure hdr where
  PICL_SUCCESS : Int
  PICL_FAILURE : Int
  ENVMON_SENSOR_OK : Int
  ENVMON_FRU_PRESENT : Int
  ENVMON_FRU_DOWNLOAD : Int
  ENVMON_FRU_FAULT : Int
  RAID_DISKSTATUS_MISSING : Int
  RAID_DISKSTATUS_GOOD : Int
  RAID_DISKSTATUS_FAILED : Int
  DEVICE_OFFLINE : Nat
  DEVICE_ONLINE : Nat
  MAXPATHLEN : Nat
  PICLEVENT_DR_AP_STATE_CHANGE : cstr
  PICLEVENT_SYSEVENT_DEVICE_ADDED : cstr
  PICLEVENTARG_DATA_TYPE : cstr
  PICLEVENTARG_PICLEVENT_DATA : cstr
  PICLEVENTARG_AP_ID : cstr
  PICLEVENTARG_HINT : cstr
  PICLEVENTARG_DEVFS_PATH : cstr
  PICLEVENTARG_PARENTHANDLE : cstr
  PICLEVENTARG_FRUHANDLE : cstr
  DR_HINT_REMOVE : cstr
  PICL_FRU_ADDED : cstr
  PICL_FRU_REMOVED : cstr
  PICL_CLASS_FRU : cstr
  PICL_CLASS_SEEPROM : cstr

/-! ## Local defines and static data of piclfrudr.c -/

def PICL_PROPVAL_ON : cstr := ['O', 'N']
def PICL_PROPVAL_OFF : cstr := ['O', 'F', 'F']
def PS_NAME : cstr := ['P', 'S']
def PS_NAME_LEN : Nat := 2
def PS_FRU_NAME : cstr := "power-supply".toList
def PS_PLATFORM_NAME : cstr := "power-supply-fru-prom".toList
def DISK_NAME : cstr := ['H', 'D', 'D']
def DISK_NAME_LEN : Nat := 3
def DISK_FRU_NAME : cstr := ['d', 'i', 's', 'k']
def SCC_NAME : cstr := ['S', 'C', 'C']
def SCC_NAME_LEN : Nat := 3
def SCC_FRU_NAME : cstr := ['s', 'c', 'c']
def RMC_NAME : cstr := ['S', 'C']
def RMC_NAME_LEN : Nat := 2
def RMC_FRU_NAME : cstr := ['s', 'c']
def REMOK_LED : cstr := ['O', 'K', '2', 'R', 'M']
def N_DISKS : Nat := 8
def N_CHALUPA_DISKS : Nat := 4
def N_ENTS_DISKS : Nat := 8
def N_MPXU_DISKS : Nat := 4
def N_EN19_DISKS : Nat := 2

def PLAT_UNKNOWN : Int := -1
def PLAT_ENXS : Int := 0
def PLAT_ENTS : Int := 1
def PLAT_CHALUPA : Int := 2
def PLAT_EN19 : Int := 3
def PLAT_CHALUPA19 : Int := 4
def PLAT_SALSA19 : Int := 5

/-- The boolean_t values, as the `int` entries of `disk_ready` hold them. -/
def B_FALSE : Int := 0
def B_TRUE : Int := 1

def str_opst_present : cstr := ['p', 'r', 'e', 's', 'e', 'n', 't']
def str_opst_ok : cstr := ['o', 'k', 'a', 'y']
def str_opst_faulty : cstr := ['f', 'a', 'u', 'l', 't', 'y']
def str_opst_download : cstr := ['d', 'o', 'w', 'n', 'l', 'o', 'a', 'd']
def str_opst_unknown : cstr := ['u', 'n', 'k', 'n', 'o', 'w', 'n']

/-- The static `max_opst_len = sizeof (str_opst_download)`: the characters of
the array and its NUL. -/
def max_opst_len : Nat := str_opst_download.length + 1

/-! ## The RMC handle table and `read_vol_data` -/

/-- The part of `envmon_handle_t` the plugin reads: the HPU name. -/
structure envmon_handle_t where
  name : cstr
deriving DecidableEq, Repr

/-- The fields of `envmon_hpu_t` the plugin reads. -/
structure envmon_hpu_t where
  id : envmon_handle_t
  next_id : envmon_handle_t
  sensor_status : Int
  fru_status : Int
deriving DecidableEq, Repr

structure id_props_t where
  envhandle : envmon_handle_t
  volprop : Nat
deriving DecidableEq, Repr

/-- The table `idp_lkup_t`; `idp` is the array that follows the header, an
entry beyond the listed ones reading as the zero bytes `calloc` left. -/
structure idp_lkup_t where
  maxnum : Int
  num : Int
  idp : List id_props_t
deriving DecidableEq, Repr

/-- The array entry `idprop->idp[index]`. -/
def idp_at (tbl : idp_lkup_t) (index : Nat) : id_props_t :=
  tbl.idp.getD index { envhandle := { name := [] }, volprop := 0 }

/-- The `for (index = 0; index < idprop->num; index++)` loop of
`find_picl_handle`, with `left` iterations to go. -/
def find_picl_handle_loop (tbl : idp_lkup_t) (proph : Nat) : Nat → Nat → Int
  | 0, _ => -1
  | left + 1, index =>
    if (idp_at tbl index).volprop = proph then (index : Int)
    else find_picl_handle_loop tbl proph left (index + 1)

/-- The function `find_picl_handle`; `idprop` is `none` for the NULL pointer. -/
def find_picl_handle (idprop : Option idp_lkup_t) (proph : Nat) : Int :=
  match idprop with
  | none => -1
  | some tbl => find_picl_handle_loop tbl proph tbl.num.toNat 0

/-- What the system controller device answers to `read_vol_data`: the value
`open(sc_device_name, O_RDONLY)` returns, and for the handle placed in
`data.id` the value the `ENVMONIOCHPU` ioctl returns with the record it
leaves in `data`. -/
structure sc_env where
  open_rv : Int
  ioctl_hpu : envmon_handle_t → Int × envmon_hpu_t

/-- The handle `idprop->idp[index].envhandle` that `read_vol_data` asks for. -/
def hpu_request (idprop : Option idp_lkup_t) (index : Int) : envmon_handle_t :=
  match idprop with
  | none => { name := [] }
  | some tbl => (idp_at tbl index.toNat).envhandle

/-- The function `read_vol_data(r_arg, buf)`: the value returned and the
string `buf` holds afterwards; `proph` is `r_arg->proph`. -/
def read_vol_data (K : hdr) (idprop : Option idp_lkup_t) (E : sc_env)
    (proph : Nat) (buf : cstr) : Int × cstr :=
  let index := find_picl_handle idprop proph
  if index < 0 then
    (K.PICL_SUCCESS, strlcpy buf str_opst_unknown max_opst_len)
  else
    let envmon_fd := E.open_rv
    if envmon_fd < 0 then
      (K.PICL_SUCCESS, strlcpy buf str_opst_unknown max_opst_len)
    else
      let r := E.ioctl_hpu (hpu_request idprop index)
      let err := r.1
      let data := r.2
      if err < 0 then
        (K.PICL_SUCCESS, strlcpy buf str_opst_unknown max_opst_len)
      else if strncmp_eq data.id.name DISK_NAME DISK_NAME_LEN
          && decide (data.fru_status = K.ENVMON_FRU_PRESENT) then
        (K.PICL_SUCCESS, strlcpy buf str_opst_present max_opst_len)
      else if data.sensor_status ≠ K.ENVMON_SENSOR_OK then
        (K.PICL_SUCCESS, strlcpy buf str_opst_unknown max_opst_len)
      else
        (K.PICL_SUCCESS,
          strlcpy buf
            (if data.fru_status = K.ENVMON_FRU_PRESENT then str_opst_ok
             else if data.fru_status = K.ENVMON_FRU_DOWNLOAD then str_opst_download
             else if data.fru_status = K.ENVMON_FRU_FAULT then str_opst_faulty
             else str_opst_unknown)
            max_opst_len)

/-- One assignment of the header constants, used where a concrete input is
evaluated. -/
def hdr_sample : hdr where
  PICL_SUCCESS := 0
  PICL_FAILURE := 1
  ENVMON_SENSOR_OK := 0
  ENVMON_FRU_PRESENT := 1
  ENVMON_FRU_DOWNLOAD := 3
  ENVMON_FRU_FAULT := 2
  RAID_DISKSTATUS_MISSING := 2
  RAID_DISKSTATUS_GOOD := 0
  RAID_DISKSTATUS_FAILED := 1
  DEVICE_OFFLINE := 2
  DEVICE_ONLINE := 1
  MAXPATHLEN := 1024
  PICLEVENT_DR_AP_STATE_CHANGE := "dr-ap-state-change".toList
  PICLEVENT_SYSEVENT_DEVICE_ADDED := "sysevent-device-added".toList
  PICLEVENTARG_DATA_TYPE := "piclevent-data-type".toList
  PICLEVENTARG_PICLEVENT_DATA := "piclevent-data".toList
  PICLEVENTARG_AP_ID := "ap-id".toList
  PICLEVENTARG_HINT := "hint".toList
  PICLEVENTARG_DEVFS_PATH := "devfs-path".toList
  PICLEVENTARG_PARENTHANDLE := "picl-parent-handle".toList
  PICLEVENTARG_FRUHANDLE := "picl-fru-handle".toList
  DR_HINT_REMOVE := "dr_remove".toList
  PICL_FRU_ADDED := "picl-fru-added".toList
  PICL_FRU_REMOVED := "picl-fru-removed".toList
  PICL_CLASS_FRU := "fru".toList
  PICL_CLASS_SEEPROM := "seeprom".toList

/-- A one-entry handle table: the volatile property 7 stands for HPU "HDD0". -/
def idprop_sample : Option idp_lkup_t :=
  some { maxnum := 1, num := 1,
         idp := [{ envhandle := { name := ['H', 'D', 'D', '0'] }, volprop := 7 }] }

/-- A system controller whose device opens and whose ioctl reports the asked
HPU as present with a good sensor. -/
def sc_env_sample : sc_env where
  open_rv := 3
  ioctl_hpu := fun h => (0, { id := h, next_id := { name := [] },
                               sensor_status := 0, fru_status := 1 })

/-! ## The disk LED policies: `raid_ok2rem_policy`, `check_raid` and a pass of
`disk_leds_thread` -/

/-- The static array `disk_name`. -/
def disk_name : List cstr :=
  [['H', 'D', 'D', '0'], ['H', 'D', 'D', '1'], ['H', 'D', 'D', '2'], ['H', 'D', 'D', '3'],
   ['H', 'D', 'D', '4'], ['H', 'D', 'D', '5'], ['H', 'D', 'D', '6'], ['H', 'D', 'D', '7']]

/-- The array read `disk_name[d]` (the empty string stands for a read outside
the array). -/
def disk_name_at (d : Int) : cstr :=
  if 0 ≤ d then disk_name.getD d.toNat [] else []

/-- The fields of `raid_config_t` the plugin reads; the arrays are indexed from 0. -/
structure raid_config_t where
  ndisks : Int
  disk : Nat → Int
  diskstatus : Nat → Int

/-- Ghost record of which OK2RM policy looked at which disk. -/
inductive policy_visit where
  | raid (d : Int)
  | dflt (i : Int)
deriving DecidableEq, Repr

/-- A call `set_led(name, label, value)`. -/
structure led_call where
  name : cstr
  label : cstr
  value : cstr
deriving DecidableEq, Repr

/-- The state the LED thread works on: the static array `disk_ready`, the
variable `statep` of `disk_leds_thread`, and three histories that the C code
does not keep: the `set_led` calls made, the `update_disk_node` calls made
(name and /platform path), and the policy visits. -/
structure led_state where
  disk_ready : Int → Int
  statep : Nat
  led_calls : List led_call
  node_updates : List (cstr × cstr)
  visits : List policy_visit

/-- The environment of the LED thread: the value `set_led` returns (it may
depend on how many calls came before), the state `devctl_device_getstate`
stores for a /devices path (`none` when it stores nothing), the value of
`open(V440_DISK_DEVCTL, O_RDONLY)`, and the value the RAID_GETCONFIG ioctl
returns with the configuration it fills in. -/
structure led_env where
  set_led_rv : Nat → cstr → cstr → cstr → Int
  getstate : cstr → Option Nat
  raid_open_rv : Int
  raid_getconfig : Int × raid_config_t

/-- The statement pattern
`if (set_led(disk_name[d], REMOK_LED, value) == PICL_SUCCESS) disk_ready[d] = ready;`. -/
def set_led_then_ready (K : hdr) (L : led_env) (σ : led_state) (d : Int)
    (value : cstr) (ready : Int) : led_state :=
  let rv := L.set_led_rv σ.led_calls.length (disk_name_at d) REMOK_LED value
  { σ with
    led_calls := σ.led_calls ++ [{ name := disk_name_at d, label := REMOK_LED, value := value }]
    disk_ready := if rv = K.PICL_SUCCESS then Function.update σ.disk_ready d ready
                  else σ.disk_ready }

/-- The body of the loop of `raid_ok2rem_policy` for index `i`; the `switch`
is the chain of its (pairwise different) case labels. -/
def raid_ok2rem_step (K : hdr) (L : led_env) (config : raid_config_t)
    (σ : led_state) (i : Nat) : led_state :=
  let d := config.disk i
  let dstatus := config.diskstatus i
  let σ := { σ with visits := σ.visits ++ [policy_visit.raid d] }
  if dstatus = K.RAID_DISKSTATUS_MISSING then
    if σ.disk_ready d = B_FALSE then
      set_led_then_ready K L σ d PICL_PROPVAL_OFF B_TRUE
    else σ
  else if dstatus = K.RAID_DISKSTATUS_GOOD then
    if σ.disk_ready d ≠ B_TRUE then
      set_led_then_ready K L σ d PICL_PROPVAL_OFF B_TRUE
    else σ
  else if dstatus = K.RAID_DISKSTATUS_FAILED then
    if σ.disk_ready d ≠ B_FALSE then
      set_led_then_ready K L σ d PICL_PROPVAL_ON B_FALSE
    else σ
  else σ

/-- The function `raid_ok2rem_policy(config)`:
`for (i = 0; i < config.ndisks; i++)`. -/
def raid_ok2rem_policy (K : hdr) (L : led_env) (config : raid_config_t)
    (σ : led_state) : led_state :=
  (List.range config.ndisks.toNat).foldl (raid_ok2rem_step K L config) σ

/-- The function `get_raid_config(config)`: the value returned and the
configuration the ioctl left in `*config`. -/
def get_raid_config (sys_platform : Int) (L : led_env) : Int × raid_config_t :=
  let fd := if sys_platform = PLAT_CHALUPA ∨ sys_platform = PLAT_CHALUPA19
            then L.raid_open_rv else -1
  if fd = -1 then (1, L.raid_getconfig.2)
  else if L.raid_getconfig.1 ≠ 0 then (1, L.raid_getconfig.2)
  else (0, L.raid_getconfig.2)

/-- The function `check_raid(d0, d1)`: the values of `*d0`, `*d1` and the state
afterwards. -/
def check_raid (K : hdr) (L : led_env) (sys_platform : Int) (d0 d1 : Int)
    (σ : led_state) : Int × Int × led_state :=
  let r := get_raid_config sys_platform L
  if r.1 = 0 then
    let raid_config := r.2
    let raid_exists := raid_config.ndisks
    if raid_exists ≠ 0 then
      (raid_config.disk 0, raid_config.disk 1, raid_ok2rem_policy K L raid_config σ)
    else (d0, d1, σ)
  else (d0, d1, σ)

def mpxu_devs : List cstr :=
  ["/pci@1c,600000/scsi@2/sd@0,0".toList, "/pci@1c,600000/scsi@2/sd@1,0".toList,
   "/pci@1c,600000/scsi@2/sd@2,0".toList, "/pci@1c,600000/scsi@2/sd@3,0".toList]

def ents_devs : List cstr :=
  ["/pci@1d,700000/scsi@4/sd@0,0".toList, "/pci@1d,700000/scsi@4/sd@1,0".toList,
   "/pci@1d,700000/scsi@4/sd@2,0".toList, "/pci@1d,700000/scsi@4/sd@3,0".toList,
   "/pci@1d,700000/scsi@4/sd@8,0".toList, "/pci@1d,700000/scsi@4/sd@9,0".toList,
   "/pci@1d,700000/scsi@4/sd@a,0".toList, "/pci@1d,700000/scsi@4/sd@b,0".toList]

def v440_devs : List cstr :=
  ["/pci@1f,700000/scsi@2/sd@0,0".toList, "/pci@1f,700000/scsi@2/sd@1,0".toList,
   "/pci@1f,700000/scsi@2/sd@2,0".toList, "/pci@1f,700000/scsi@2/sd@3,0".toList]

def n210_devs : List cstr :=
  ["/pci@1c,600000/LSILogic,sas@1/sd@0,0".toList,
   "/pci@1c,600000/LSILogic,sas@1/sd@1,0".toList]

/-- The first `switch` of `disk_leds_thread`: the device table chosen for the
platform. -/
def thread_disk_dev (sys_platform : Int) : List cstr :=
  if sys_platform = PLAT_ENTS then ents_devs
  else if sys_platform = PLAT_CHALUPA ∨ sys_platform = PLAT_CHALUPA19 then v440_devs
  else if sys_platform = PLAT_SALSA19 then n210_devs
  else mpxu_devs

/-- The first `switch` of `disk_leds_thread`: the value of `n_disks`. -/
def thread_n_disks (sys_platform : Int) : Nat :=
  if sys_platform = PLAT_ENTS then N_ENTS_DISKS
  else if sys_platform = PLAT_CHALUPA ∨ sys_platform = PLAT_CHALUPA19 then N_CHALUPA_DISKS
  else if sys_platform = PLAT_SALSA19 then N_EN19_DISKS
  else if sys_platform = PLAT_EN19 then N_EN19_DISKS else N_MPXU_DISKS

/-- The first `switch` of `disk_leds_thread`: the value of `do_raid`. -/
def thread_do_raid (sys_platform : Int) : Bool :=
  decide (sys_platform = PLAT_CHALUPA ∨ sys_platform = PLAT_CHALUPA19)

/-- The strings `ddev[i]` ("/devices" and the device) and `pdev[i]`
("/platform" and the device). -/
def thread_ddev (sys_platform : Int) (i : Nat) : cstr :=
  "/devices".toList ++ (thread_disk_dev sys_platform).getD i []

def thread_pdev (sys_platform : Int) (i : Nat) : cstr :=
  "/platform".toList ++ (thread_disk_dev sys_platform).getD i []

/-- The body of the inner loop `for (i = 0; i < n_disks; i++)` of
`disk_leds_thread`, with the values `rdsk0`, `rdsk1` of this pass. -/
def disk_leds_step (K : hdr) (L : led_env) (sys_platform : Int) (rdsk0 rdsk1 : Int)
    (σ : led_state) (i : Nat) : led_state :=
  if (i : Int) = rdsk0 ∨ (i : Int) = rdsk1 then σ
  else
    let σ := { σ with visits := σ.visits ++ [policy_visit.dflt i] }
    let σ := match L.getstate (thread_ddev sys_platform i) with
      | some s => { σ with statep := s }
      | none => σ
    if σ.statep &&& K.DEVICE_OFFLINE ≠ 0 then
      if σ.disk_ready i ≠ B_FALSE then
        let σ := { σ with node_updates :=
          σ.node_updates ++ [(disk_name_at i, thread_pdev sys_platform i)] }
        set_led_then_ready K L σ i PICL_PROPVAL_ON B_FALSE
      else σ
    else if σ.statep &&& K.DEVICE_ONLINE ≠ 0 then
      if σ.disk_ready i ≠ B_TRUE then
        let σ := { σ with node_updates :=
          σ.node_updates ++ [(disk_name_at i, thread_pdev sys_platform i)] }
        set_led_then_ready K L σ i PICL_PROPVAL_OFF B_TRUE
      else σ
    else σ

/-- The head of one pass of the `for (;;)` loop of `disk_leds_thread`:
`rdsk0 = rdsk1 = -1` and `if (do_raid) check_raid(&rdsk0, &rdsk1)`; the value
is `rdsk0`, `rdsk1` and the state afterwards. -/
def disk_leds_pass_raid (K : hdr) (L : led_env) (sys_platform : Int)
    (σ : led_state) : Int × Int × led_state :=
  let rdsk0 : Int := -1
  let rdsk1 : Int := -1
  if thread_do_raid sys_platform then check_raid K L sys_platform rdsk0 rdsk1 σ
  else (rdsk0, rdsk1, σ)

/-- One pass of the `for (;;)` loop of `disk_leds_thread`, up to the `poll`:
`check_raid` when `do_raid` is set, then the loop over the disks. -/
def disk_leds_pass (K : hdr) (L : led_env) (sys_platform : Int)
    (σ : led_state) : led_state :=
  let r := disk_leds_pass_raid K L sys_platform σ
  (List.range (thread_n_disks sys_platform)).foldl
    (disk_leds_step K L sys_platform r.1 r.2.1) r.2.2

/-- The state of `disk_leds_init`: every `disk_ready` entry -1, nothing done yet. -/
def led_state_init : led_state where
  disk_ready := fun _ => -1
  statep := 0
  led_calls := []
  node_updates := []
  visits := []

/-- An environment in which `set_led` succeeds, every disk is on line, the
devctl node opens and the driver reports the volume `cfg`. -/
def led_env_sample (cfg : raid_config_t) : led_env where
  set_led_rv := fun _ _ _ _ => 0
  getstate := fun _ => some 1
  raid_open_rv := 4
  raid_getconfig := (0, cfg)

/-- A mirror of disks 0 and 1, disk 1 failed. -/
def raid_mirror_sample : raid_config_t where
  ndisks := 2
  disk := fun i => if i = 0 then 0 else 1
  diskstatus := fun i => if i = 0 then 0 else 1

/-- A volume that lists the single disk 0 with a status that is none of
MISSING, GOOD, FAILED (of `hdr_sample`); entry 1 of `disk` holds 1. -/
def raid_single_sample : raid_config_t where
  ndisks := 1
  disk := fun i => if i = 0 then 0 else 1
  diskstatus := fun _ => 7

/-- A volume that lists the single disk 0, in good state; entry 1 of the
`disk` array holds 1. -/
def raid_one_disk_sample : raid_config_t where
  ndisks := 1
  disk := fun i => if i = 0 then 0 else 1
  diskstatus := fun _ => 0

/-- A volume that lists the three disks 0, 1 and 2, all in good state. -/
def raid_three_disk_sample : raid_config_t where
  ndisks := 3
  disk := fun i => (i : Int)
  diskstatus := fun _ => 0

/-! ## The PICL tree, events, and the DR event handlers -/

/-- A node of the PICL tree, as far as the plugin looks at it: its handle, the
handle of its parent (0 at the root), its name and its class. -/
structure picl_node where
  hdl : Nat
  parent : Nat
  name : cstr
  classname : cstr
deriving DecidableEq, Repr

/-- Modelled from the spec: the object tree of the PICL daemon and the
`ptree_*` tree API of libpicltree are not among the sources.  The tree is the
list of its nodes, siblings in the order of the PEER links; the functions
below give the look-ups the plugin makes their meaning on this list. -/
abbrev ptree := List picl_node

/-- Modelled from the spec: the child list of a node of the PICL tree (not
among the sources), the immediate children of `parh` in sibling order. -/
def ptree_children (T : ptree) (parh : Nat) : List picl_node :=
  T.filter (fun n => n.parent = parh)

/-- Modelled from the spec: `ptree_get_propval_by_name` of libpicltree is not
among the sources.  The call `ptree_get_propval_by_name(parh, PICL_PROP_CHILD, ...)`: the handle
of the first child, `none` when the call does not return PICL_SUCCESS. -/
def ptree_get_child (T : ptree) (parh : Nat) : Option Nat :=
  (ptree_children T parh).head?.map (fun n => n.hdl)

/-- Modelled from the spec: `ptree_get_propval_by_name` of libpicltree is not
among the sources.  The call
`ptree_get_propval_by_name(nodeh, PICL_PROP_PARENT, ...)`. -/
def ptree_get_parent (T : ptree) (nodeh : Nat) : Option Nat :=
  (T.find? (fun n => n.hdl = nodeh)).map (fun n => n.parent)

/-- Modelled from the spec: `ptree_get_propval_by_name` of libpicltree is not
among the sources.  The call
`ptree_get_propval_by_name(nodeh, PICL_PROP_NAME, ...)`. -/
def ptree_get_name (T : ptree) (nodeh : Nat) : Option cstr :=
  (T.find? (fun n => n.hdl = nodeh)).map (fun n => n.name)

/-- Modelled from the spec: the handle allocation of libpicltree is not among
the sources.  A handle no node of the tree has (and not 0). -/
def ptree_fresh (T : ptree) : Nat :=
  (T.map (fun n => n.hdl)).foldl max 0 + 1

/-- Modelled from the spec: the subtree of a node of the PICL tree (not among
the sources).  Whether `n` lies in the subtree of the node `h`: `n` is that node or one
of the `fuel` nearest ancestors of `n` is. -/
def ptree_under (T : ptree) (h : Nat) : Nat → picl_node → Bool
  | 0, n => decide (n.hdl = h)
  | fuel + 1, n =>
    decide (n.hdl = h) ||
      match T.find? (fun m => m.hdl = n.parent) with
      | none => false
      | some p => ptree_under T h fuel p

/-- Modelled from the spec: `ptree_delete_node` of libpicltree is not among
the sources.  The call `ptree_delete_node(h)`: `none` when it does not return
PICL_SUCCESS (no node has the handle), otherwise the tree without the subtree
of that node. -/
def ptree_delete_node (T : ptree) (h : Nat) : Option ptree :=
  if T.any (fun n => n.hdl = h) then
    some (T.filter (fun n => ! ptree_under T h T.length n))
  else none

/-- The fru_name and rmc_flag that `frudr_evhandler` chooses for an attachment
point id (the chain of `strncmp` tests "check ap_id really is a hot-plug
device"); `none` is the final `else`, where the handler returns. -/
def hotplug_fru_name (ap_id : cstr) : Option (cstr × Bool) :=
  if strncmp_eq ap_id PS_NAME PS_NAME_LEN then some (PS_FRU_NAME, false)
  else if strncmp_eq ap_id DISK_NAME DISK_NAME_LEN then some (DISK_FRU_NAME, false)
  else if strncmp_eq ap_id SCC_NAME SCC_NAME_LEN then some (SCC_FRU_NAME, false)
  else if strncmp_eq ap_id RMC_NAME RMC_NAME_LEN then some (RMC_FRU_NAME, true)
  else none

/-- A value of an nvlist pair, for the two types the plugin uses. -/
inductive nvvalue where
  | str (s : cstr)
  | u64 (n : Nat)
deriving DecidableEq, Repr

/-- An nvlist: its name-value pairs. -/
abbrev nvlist_t := List (cstr × nvvalue)

/-- Modelled from the spec: libnvpair is not among the sources.  The call
`nvlist_lookup_string(nvl, name, &val)`; `none` when it returns non-zero. -/
def nvlist_lookup_string (nvl : nvlist_t) (name : cstr) : Option cstr :=
  nvl.findSome? (fun p => match p.2 with
    | nvvalue.str s => if p.1 = name then some s else none
    | nvvalue.u64 _ => none)

/-- Modelled from the spec: libnvpair is not among the sources.  The call
`nvlist_lookup_uint64(nvl, name, &val)`. -/
def nvlist_lookup_uint64 (nvl : nvlist_t) (name : cstr) : Option Nat :=
  nvl.findSome? (fun p => match p.2 with
    | nvvalue.u64 v => if p.1 = name then some v else none
    | nvvalue.str _ => none)

/-- Modelled from the spec: libnvpair is not among the sources.  The effect of
a successful `nvlist_add_uint64(nvl, name, val)` on a list allocated with
NV_UNIQUE_NAME_TYPE. -/
def nvlist_add_uint64 (nvl : nvlist_t) (name : cstr) (val : Nat) : nvlist_t :=
  nvl.filter (fun p => ! (decide (p.1 = name) && (match p.2 with
    | nvvalue.u64 _ => true
    | nvvalue.str _ => false))) ++ [(name, nvvalue.u64 val)]

/-- An event handed to `ptree_post_event`: its name and its nvlist.  The
completion handler given with every event of this plugin is
`frudr_completion_handler`. -/
structure picl_event where
  ename : cstr
  nvl : nvlist_t
deriving DecidableEq, Repr

/-- Calls of the handlers whose effect lies outside the node structure of the
tree (properties, tables, devctl); they are recorded, not interpreted. -/
inductive side_call where
  | add_op_status_to_node (nodeh : Nat) (index : Int)
  | create_i2c_node (ap_id : cstr)
  | delete_i2c_node (name : cstr)
  | add_unit_address (nodeh : Nat) (unit : cstr)
  | remove_fru_parents (fruh : Nat)
  | ptree_destroy_node (nodeh : Nat)
deriving DecidableEq, Repr

/-- The state the event handlers work on: the tree, the events accepted by
`ptree_post_event` (oldest first), the array `disk_ready`, and the recorded
side calls. -/
structure picl_state where
  tree : ptree
  posted : List picl_event
  disk_ready : Int → Int
  calls : List side_call

/-- What the PICL daemon and libc answer to the event handlers:
`ptree_get_node_by_path`, whether `ptree_create_and_add_node(parent, name,
class)` succeeds, whether `strdup`, `nvlist_alloc`, `nvlist_add_uint64` (by
pair name), `ptree_post_event` and `ptree_init_propinfo` succeed, and the
unit address `ptree_get_propval_by_name(h, PICL_PROP_UNIT_ADDRESS, ...)` leaves
in its buffer. -/
structure tree_env where
  node_by_path : cstr → Option Nat
  create_node_ok : Nat → cstr → cstr → Bool
  strdup_ok : Bool
  nvlist_alloc_ok : Bool
  nvlist_add_ok : cstr → Bool
  post_event_ok : Bool
  init_propinfo_ok : Bool
  unit_address : Nat → Option cstr

/-- Modelled from the spec: `ptree_create_and_add_node` of libpicltree is not
among the sources.  The call
`ptree_create_and_add_node(parh, name, class, &childh)`: `none`
when it does not return PICL_SUCCESS, otherwise the tree with the new node as
last child of `parh`, and the handle of the new node. -/
def ptree_create_and_add_node (E : tree_env) (T : ptree) (parh : Nat)
    (name classname : cstr) : Option (ptree × Nat) :=
  if E.create_node_ok parh name classname then
    some (T ++ [{ hdl := ptree_fresh T, parent := parh, name := name,
                  classname := classname }], ptree_fresh T)
  else none

/-- The loop of `find_child_by_name` along the PEER links, from the sibling
list that starts at the current node. -/
def find_child_by_name_loop (name : cstr) : List picl_node → Nat
  | [] => 0
  | n :: peers =>
    if strcmp_eq name n.name then n.hdl
    else find_child_by_name_loop name peers

/-- The function `find_child_by_name(parh, name)`; 0 is NULL. -/
def find_child_by_name (T : ptree) (parh : Nat) (name : cstr) : Nat :=
  find_child_by_name_loop name (ptree_children T parh)

/-- The function `find_vol_prop_by_name`, its loop with `left` iterations to go. -/
def find_vol_prop_by_name_loop (tbl : idp_lkup_t) (name : cstr) : Nat → Nat → Int
  | 0, _ => -1
  | left + 1, index =>
    if strcmp_eq (idp_at tbl index).envhandle.name name then (index : Int)
    else find_vol_prop_by_name_loop tbl name left (index + 1)

def find_vol_prop_by_name (idprop : Option idp_lkup_t) (name : cstr) : Int :=
  match idprop with
  | none => -1
  | some tbl => find_vol_prop_by_name_loop tbl name tbl.num.toNat 0

def PS0_NAME : cstr := ['P', 'S', '0']
def PS1_NAME : cstr := ['P', 'S', '1']
def PS2_NAME : cstr := ['P', 'S', '2']
def PS3_NAME : cstr := ['P', 'S', '3']
def PSU0_NAME : cstr := ['P', 'S', 'U', '0']
def PSU1_NAME : cstr := ['P', 'S', 'U', '1']
def PSU2_NAME : cstr := ['P', 'S', 'U', '2']
def PSU3_NAME : cstr := ['P', 'S', 'U', '3']
def PSU_PLATFORM : cstr := "/platform/pci@1e,600000/isa@7/i2c@0,320".toList
def CHASSIS_LOC_PATH : cstr := "/frutree/chassis/".toList
def SYS_BOARD_PATH : cstr := "/frutree/chassis/MB/system-board/".toList

/-- The function `ps_name_to_unitaddr`; `none` is NULL. -/
def ps_name_to_unitaddr (sys_platform : Int) (name : cstr) : Option cstr :=
  if strcmp_eq name PS0_NAME then
    some (if sys_platform = PLAT_CHALUPA19 then ['0', ',', 'c', '0'] else ['0', ',', 'b', '0'])
  else if strcmp_eq name PS1_NAME then
    some (if sys_platform = PLAT_CHALUPA19 then ['0', ',', 'c', '2'] else ['0', ',', 'a', '4'])
  else if strcmp_eq name PS2_NAME then some ['0', ',', '7', '0']
  else if strcmp_eq name PS3_NAME then some ['0', ',', '7', '2']
  else none

/-- The function `ps_apid_to_nodename`. -/
def ps_apid_to_nodename (sys_platform : Int) (apid : cstr) : cstr :=
  if sys_platform ≠ PLAT_CHALUPA19 then apid
  else if strcmp_eq apid PS0_NAME then PSU0_NAME
  else if strcmp_eq apid PS1_NAME then PSU1_NAME
  else if strcmp_eq apid PS2_NAME then PSU2_NAME
  else if strcmp_eq apid PS3_NAME then PSU3_NAME
  else apid

/-- The macro `sprintf_buf2(path, fmt, a)` into `char path[MAXPATHLEN]`, for a
format that is a literal followed by "%s": `snprintf` keeps at most
`MAXPATHLEN - 1` characters. -/
def sprintf_buf2 (K : hdr) (fmt_literal a : cstr) : cstr :=
  (fmt_literal ++ a).take (K.MAXPATHLEN - 1)

/-- The function `post_frudr_event(ename, parenth, fruh)`.  The event is built
only when `strdup` and `nvlist_alloc` succeed, a handle is added to the list
only when it is not 0, and the event counts as posted only when
`ptree_post_event` returns 0. -/
def post_frudr_event (K : hdr) (E : tree_env) (ename : cstr) (parenth fruh : Nat)
    (σ : picl_state) : picl_state :=
  if E.strdup_ok then
    if E.nvlist_alloc_ok then
      let nvl : nvlist_t := []
      if parenth ≠ 0 ∧ E.nvlist_add_ok K.PICLEVENTARG_PARENTHANDLE = false then σ
      else
        let nvl := if parenth ≠ 0 then
          nvlist_add_uint64 nvl K.PICLEVENTARG_PARENTHANDLE parenth else nvl
        if fruh ≠ 0 ∧ E.nvlist_add_ok K.PICLEVENTARG_FRUHANDLE = false then σ
        else
          let nvl := if fruh ≠ 0 then
            nvlist_add_uint64 nvl K.PICLEVENTARG_FRUHANDLE fruh else nvl
          if E.post_event_ok then
            { σ with posted := σ.posted ++ [{ ename := ename, nvl := nvl }] }
          else σ
    else σ
  else σ

/-- The function `add_ps_to_platform(unit)`.  The result is `none` when the
function is entered with the NULL pointer, which `strlen` dereferences.  The
loop looks at the unit address of every child of the platform node but the
first. -/
def add_ps_to_platform (K : hdr) (E : tree_env) (unit : Option cstr)
    (σ : picl_state) : Option picl_state :=
  match unit with
  | none => none
  | some unit =>
    match E.node_by_path PSU_PLATFORM with
    | none => some σ
    | some parent_hdl =>
      if (ptree_children σ.tree parent_hdl).tail.any
          (fun c => decide (E.unit_address c.hdl = some unit)) then some σ
      else
        match ptree_create_and_add_node E σ.tree parent_hdl PS_PLATFORM_NAME
            K.PICL_CLASS_SEEPROM with
        | none => some σ
        | some (T, child_hdl) =>
          if E.init_propinfo_ok then
            some { σ with tree := T
                          calls := σ.calls ++ [side_call.add_unit_address child_hdl unit] }
          else some { σ with tree := T }

/-- The statements of `frudr_evhandler` for a power supply whose fru node
`childh` has just been created ("power supplies have operational status and
fruid - add OperationalStatus property and create i2c device node before
posting fru_added event"). -/
def frudr_ps_inserted (K : hdr) (E : tree_env) (sys_platform : Int)
    (idprop : Option idp_lkup_t) (ap_id : cstr) (childh : Nat)
    (σ1 : picl_state) : Option picl_state :=
  let index := find_vol_prop_by_name idprop (ps_apid_to_nodename sys_platform ap_id)
  let σa : picl_state := if 0 ≤ index then
      { σ1 with calls := σ1.calls ++ [side_call.add_op_status_to_node childh index] }
    else σ1
  let σb : picl_state := { σa with calls := σa.calls ++ [side_call.create_i2c_node ap_id] }
  add_ps_to_platform K E (ps_name_to_unitaddr sys_platform ap_id) σb

/-- The path of the location node that `frudr_evhandler` builds in `path`
("OK - so this is an EC_DR event - let's handle it"). -/
def frudr_path (K : hdr) (sys_platform : Int) (ap_id : cstr) (rmc_flag : Bool) : cstr :=
  if rmc_flag = true ∧ sys_platform ≠ PLAT_CHALUPA ∧ sys_platform ≠ PLAT_CHALUPA19 then
    sprintf_buf2 K SYS_BOARD_PATH ap_id
  else if sys_platform = PLAT_CHALUPA19 ∧ strncmp_eq ap_id PS_NAME PS_NAME_LEN = true then
    sprintf_buf2 K CHASSIS_LOC_PATH (ps_apid_to_nodename sys_platform ap_id)
  else sprintf_buf2 K CHASSIS_LOC_PATH ap_id

/-- The function `frudr_evhandler(ename, earg, size, cookie)`.  `earg` is the
list `nvlist_unpack` yields, `none` when it fails; the result is `none` when
the handler runs into the NULL dereference of `add_ps_to_platform`. -/
def frudr_evhandler (K : hdr) (E : tree_env) (sys_platform : Int)
    (idprop : Option idp_lkup_t) (ename : cstr) (earg : Option nvlist_t)
    (σ : picl_state) : Option picl_state :=
  if strcmp_eq ename K.PICLEVENT_DR_AP_STATE_CHANGE = false then some σ
  else
    match earg with
    | none => some σ
    | some nvlp =>
      match nvlist_lookup_string nvlp K.PICLEVENTARG_DATA_TYPE with
      | none => some σ
      | some dtype =>
        if strcmp_eq dtype K.PICLEVENTARG_PICLEVENT_DATA = false then some σ
        else
          match nvlist_lookup_string nvlp K.PICLEVENTARG_AP_ID with
          | none => some σ
          | some ap_id =>
            match hotplug_fru_name ap_id with
            | none => some σ
            | some (fru_name, rmc_flag) =>
              match nvlist_lookup_string nvlp K.PICLEVENTARG_HINT with
              | none => some σ
              | some hint =>
                match E.node_by_path (frudr_path K sys_platform ap_id rmc_flag) with
                | none => some σ
                | some locnodeh =>
                  if strcmp_eq hint K.DR_HINT_REMOVE then
                    match ptree_get_child σ.tree locnodeh with
                    | some fruh => some (post_frudr_event K E K.PICL_FRU_REMOVED 0 fruh σ)
                    | none => some σ
                  else if rmc_flag then
                    let fruh := (ptree_get_child σ.tree locnodeh).getD 0
                    some (post_frudr_event K E K.PICL_FRU_ADDED locnodeh fruh σ)
                  else
                    let childh := find_child_by_name σ.tree locnodeh fru_name
                    if childh ≠ 0 then some σ
                    else
                      match ptree_create_and_add_node E σ.tree locnodeh fru_name
                          K.PICL_CLASS_FRU with
                      | none => some σ
                      | some (T, childh) =>
                        let σ1 := { σ with tree := T }
                        let σ2 :=
                          if strncmp_eq ap_id PS_NAME PS_NAME_LEN then
                            frudr_ps_inserted K E sys_platform idprop ap_id childh σ1
                          else some σ1
                        σ2.map (fun s => post_frudr_event K E K.PICL_FRU_ADDED locnodeh 0 s)

/-- The value of the C expression `nodename[i]` as an `int` (0 at and past the
terminating NUL). -/
def char_at (s : cstr) (i : Nat) : Int :=
  ((s.getD i (Char.ofNat 0)).toNat : Int)

/-- The statements of `frudr_completion_handler` from "first find name of
the fru" up to the call of `remove_fru_parents`: the name of the parent of
`fruh` is read, for a power supply the i2c node is deleted, for a disk the
LED thread is told to look at the slot again. -/
def completion_parent_name (σ : picl_state) (fruh : Nat) : picl_state :=
  match (ptree_get_parent σ.tree fruh).bind (fun childh => ptree_get_name σ.tree childh) with
  | some nodename =>
    let σa : picl_state := if strncmp_eq nodename PS_NAME PS_NAME_LEN then
      { σ with calls := σ.calls ++ [side_call.delete_i2c_node nodename] } else σ
    if strncmp_eq nodename DISK_NAME DISK_NAME_LEN then
      let slot : Int := char_at nodename DISK_NAME_LEN - ('0'.toNat : Int)
      { σa with disk_ready := Function.update σa.disk_ready slot (-1) }
    else σa
  | none => σ

/-- The statements of `frudr_completion_handler` under "now we can delete the
node": `ptree_delete_node(fruh)` and, when that succeeds,
`ptree_destroy_node(fruh)`. -/
def completion_delete_node (σ : picl_state) (fruh : Nat) : picl_state :=
  match ptree_delete_node σ.tree fruh with
  | some T => { σ with tree := T, calls := σ.calls ++ [side_call.ptree_destroy_node fruh] }
  | none => σ

/-- The function `frudr_completion_handler(ename, earg, size)`; `earg` is the
nvlist of the completed event. -/
def frudr_completion_handler (K : hdr) (ename : cstr) (earg : nvlist_t)
    (σ : picl_state) : picl_state :=
  if strcmp_eq ename K.PICL_FRU_REMOVED then
    let fruh := (nvlist_lookup_uint64 earg K.PICLEVENTARG_FRUHANDLE).getD 0
    if fruh ≠ 0 then
      let σ1 := completion_parent_name σ fruh
      let σ2 : picl_state :=
        { σ1 with calls := σ1.calls ++ [side_call.remove_fru_parents fruh] }
      completion_delete_node σ2 fruh
    else σ
  else σ

/-- A tree with the location node "HDD0" (handle 1) and its child "disk"
(handle 2). -/
def tree_sample : ptree :=
  [{ hdl := 1, parent := 0, name := ['H', 'D', 'D', '0'], classname := "location".toList },
   { hdl := 2, parent := 1, name := DISK_FRU_NAME, classname := "fru".toList }]

/-- A tree with the location node "HDD0" (handle 1) and no node below it. -/
def tree_empty_slot_sample : ptree :=
  [{ hdl := 1, parent := 0, name := ['H', 'D', 'D', '0'], classname := "location".toList }]

/-- An environment in which every path names node 1 and every call succeeds. -/
def tree_env_sample : tree_env where
  node_by_path := fun _ => some 1
  create_node_ok := fun _ _ _ => true
  strdup_ok := true
  nvlist_alloc_ok := true
  nvlist_add_ok := fun _ => true
  post_event_ok := true
  init_propinfo_ok := true
  unit_address := fun _ => none

/-- The unpacked argument of a DR event for attachment point "HDD0". -/
def dr_event_sample (hint : cstr) : nvlist_t :=
  [(hdr_sample.PICLEVENTARG_DATA_TYPE, nvvalue.str hdr_sample.PICLEVENTARG_PICLEVENT_DATA),
   (hdr_sample.PICLEVENTARG_AP_ID, nvvalue.str ['H', 'D', 'D', '0']),
   (hdr_sample.PICLEVENTARG_HINT, nvvalue.str hint)]

/-- A handler state with the given tree and nothing posted. -/
def picl_state_sample (T : ptree) : picl_state where
  tree := T
  posted := []
  disk_ready := fun _ => -1
  calls := []

/-- The environment `tree_env_sample`, but `ptree_create_and_add_node` fails. -/
def tree_env_no_create_sample : tree_env :=
  { tree_env_sample with create_node_ok := fun _ _ _ => false }

/-- The environment `tree_env_sample`, but `strdup` fails. -/
def tree_env_no_strdup_sample : tree_env :=
  { tree_env_sample with strdup_ok := false }

/-- The hint of an insertion, any string other than the remove hint. -/
def dr_hint_insert_sample : cstr := "dr_insert".toList

/-! ## frutree_evhandler: the FRU name of a devfs path -/

/-- Modelled from the spec: the libc function `strchr` is not among the
sources.  The call `strchr(s, c)` on a C string: the characters before the first
`c` and the characters after it; `none` for the NULL result. -/
def strchr_split (c : Char) : cstr → Option (cstr × cstr)
  | [] => none
  | x :: xs =>
    if x = c then some ([], xs)
    else (strchr_split c xs).map (fun p => (x :: p.1, p.2))

/-- The pointer work of `frutree_evhandler` on the copy `fru_name` of the
devfs path: the string left in `fru_name` when `done` is set, `none` when
`done` stays B_FALSE. -/
def frutree_reduce (dpath : cstr) : Option cstr :=
  match dpath with
  | [] => none
  | c :: p1 =>
    if c = '/' then
      -- ptr++; ptr = strchr(ptr, '/')
      match strchr_split '/' p1 with
      | none => none
      | some (_, p2) =>
        -- ptr++; memmove(fru_name, ptr, strlen(ptr) + 1); ptr = strchr(fru_name, '@')
        match strchr_split '@' p2 with
        | none => none
        | some (name, p3) =>
          -- *ptr = '-'; ptr++; ptr = strchr(ptr, '/')
          match strchr_split '/' p3 with
          | none => none
          | some (addr, p4) =>
            -- *ptr = '-'; ptr++; ptr2 = ptr; ptr = strchr(ptr, '@')
            match strchr_split '@' p4 with
            | none => none
            | some (_, p5) =>
              -- ptr++; memmove(ptr2, ptr, strlen(ptr) + 1); ptr2 = strchr(ptr2, '/')
              match strchr_split '/' p5 with
              | none => some (name ++ '-' :: addr ++ '-' :: p5)
              | some (unit, _) => some (name ++ '-' :: addr ++ '-' :: unit)
    else none

/-- The function `frutree_evhandler(ename, earg, size, cookie)` up to the
look-up of the configuration file: the FRU name it goes on with, `none` when
it returns before.  `earg` is the list `nvlist_unpack` yields (`none` when it
fails), `strdup_ok` tells whether `strdup(dpath)` succeeds. -/
def frutree_evhandler (K : hdr) (strdup_ok : Bool) (ename : cstr)
    (earg : Option nvlist_t) : Option cstr :=
  if strcmp_eq ename K.PICLEVENT_SYSEVENT_DEVICE_ADDED = false then none
  else
    match earg with
    | none => none
    | some nvlp =>
      match nvlist_lookup_string nvlp K.PICLEVENTARG_DATA_TYPE with
      | none => none
      | some dtype =>
        if strcmp_eq dtype K.PICLEVENTARG_PICLEVENT_DATA = false then none
        else
          match nvlist_lookup_string nvlp K.PICLEVENTARG_DEVFS_PATH with
          | none => none
          | some dpath =>
            if strdup_ok then frutree_reduce dpath else none

/-- The unpacked argument of a device-added event for a devfs path. -/
def devfs_event_sample (dpath : cstr) : nvlist_t :=
  [(hdr_sample.PICLEVENTARG_DATA_TYPE, nvvalue.str hdr_sample.PICLEVENTARG_PICLEVENT_DATA),
   (hdr_sample.PICLEVENTARG_DEVFS_PATH, nvvalue.str dpath)]

/-! ## The audio DDI glue: `audio_attach` and `audio_detach` -/

/-- Values of the constants that audio_ddi.c takes from headers outside the
sources (sys/sunddi.h, sys/cmn_err.h, audio_impl.h). -/
structure ddi_hdr where
  DDI_SUCCESS : Int
  DDI_FAILURE : Int
  DDI_ATTACH : Int
  DDI_DETACH : Int
  DEV_SNDSTAT_CAP : Int

/-- The fields of `audio_dev_t` that `audio_attach` sets. -/
structure audio_dev_t where
  d_dip : Nat
  d_instance : Int
  d_flags : Int
  d_description : cstr
  d_version : cstr
deriving DecidableEq, Repr

/-- The kernel state the two entry points work on: the allocated audio
devices by address, the driver-private pointer of every devinfo node (0 is
NULL), the addresses of the registered devices, the nodes reported with
`ddi_report_dev`, and the history of `audio_dev_free` calls. -/
structure ddi_state where
  heap : List (Nat × audio_dev_t)
  driver_private : Nat → Nat
  registered : List Nat
  reported : List Nat
  frees : List Nat

/-- What the kernel answers: the instance number of a devinfo node and the
values `audio_dev_register` and `audio_dev_unregister` return. -/
structure ddi_env where
  get_instance : Nat → Int
  register_rv : Int
  unregister_rv : Int

/-- Modelled from the spec: `audio_dev_alloc` of the audio framework is not
among the sources.  The call `audio_dev_alloc(dip, instance)` ("this can't fail"): the address
of the new device and the state with it. -/
def audio_dev_alloc (dip : Nat) (instance_no : Int) (σ : ddi_state) : Nat × ddi_state :=
  let adev := (σ.heap.map (fun p => p.1)).foldl max 0 + 1
  (adev, { σ with heap := σ.heap ++
    [(adev, { d_dip := dip, d_instance := instance_no, d_flags := 0,
              d_description := [], d_version := [] })] })

/-- An assignment to a field of the device at address `adev`. -/
def audio_dev_update (adev : Nat) (f : audio_dev_t → audio_dev_t) (σ : ddi_state) : ddi_state :=
  { σ with heap := σ.heap.map (fun p => if p.1 = adev then (p.1, f p.2) else p) }

/-- Modelled from the spec: `audio_dev_free` of the audio framework is not
among the sources.  The call `audio_dev_free(adev)`: the device leaves the
heap and the call is recorded. -/
def audio_dev_free (adev : Nat) (σ : ddi_state) : ddi_state :=
  { σ with heap := σ.heap.filter (fun p => p.1 ≠ adev), frees := σ.frees ++ [adev] }

/-- Modelled from the spec: `audio_dev_register` of the audio framework is not
among the sources.  The call `audio_dev_register(adev)`: the value returned, and the device
registered when that value is DDI_SUCCESS. -/
def audio_dev_register (K : ddi_hdr) (E : ddi_env) (adev : Nat) (σ : ddi_state) :
    Int × ddi_state :=
  if E.register_rv = K.DDI_SUCCESS then
    (E.register_rv, { σ with registered := σ.registered ++ [adev] })
  else (E.register_rv, σ)

/-- Modelled from the spec: `audio_dev_unregister` of the audio framework is
not among the sources.  The call `audio_dev_unregister(adev)`: the value returned, and the device
taken off the registered ones when that value is DDI_SUCCESS. -/
def audio_dev_unregister (K : ddi_hdr) (E : ddi_env) (adev : Nat) (σ : ddi_state) :
    Int × ddi_state :=
  if E.unregister_rv = K.DDI_SUCCESS then
    (E.unregister_rv, { σ with registered := σ.registered.filter (fun a => a ≠ adev) })
  else (E.unregister_rv, σ)

/-- The function `audio_attach(dip, cmd)`; `dip` 0 is NULL.  The test of the
value of `audio_dev_register` is the comparison with NULL of the source. -/
def audio_attach (K : ddi_hdr) (E : ddi_env) (dip : Nat) (cmd : Int) (σ : ddi_state) :
    Int × ddi_state :=
  if cmd ≠ K.DDI_ATTACH ∨ dip = 0 then (K.DDI_FAILURE, σ)
  else if E.get_instance dip ≠ 0 then (K.DDI_FAILURE, σ)
  else
    let a := audio_dev_alloc dip 0 σ
    let adev := a.1
    let σ1 := audio_dev_update adev (fun d => { d with d_flags := K.DEV_SNDSTAT_CAP }) a.2
    let σ2 := audio_dev_update adev
      (fun d => { d with d_description := "Audio Common Code".toList }) σ1
    let σ3 := audio_dev_update adev (fun d => { d with d_version := "pseudo".toList }) σ2
    let σ4 : ddi_state := { σ3 with driver_private := Function.update σ3.driver_private dip adev }
    let r := audio_dev_register K E adev σ4
    if r.1 ≠ 0 then (K.DDI_FAILURE, audio_dev_free adev r.2)
    else (K.DDI_SUCCESS, { r.2 with reported := r.2.reported ++ [dip] })

/-- The function `audio_detach(dip, cmd)`. -/
def audio_detach (K : ddi_hdr) (E : ddi_env) (dip : Nat) (cmd : Int) (σ : ddi_state) :
    Int × ddi_state :=
  if cmd ≠ K.DDI_DETACH then (K.DDI_FAILURE, σ)
  else if dip = 0 then (K.DDI_FAILURE, σ)
  else
    let adev := σ.driver_private dip
    if adev = 0 then (K.DDI_FAILURE, σ)
    else
      let r := audio_dev_unregister K E adev σ
      if r.1 ≠ K.DDI_SUCCESS then (K.DDI_FAILURE, r.2)
      else (K.DDI_SUCCESS, audio_dev_free adev r.2)

/-- The header values of sys/sunddi.h, used where a concrete input is evaluated. -/
def ddi_hdr_sample : ddi_hdr where
  DDI_SUCCESS := 0
  DDI_FAILURE := -1
  DDI_ATTACH := 0
  DDI_DETACH := 0
  DEV_SNDSTAT_CAP := 4

/-- A kernel in which node 1 is instance 0 and both calls succeed. -/
def ddi_env_sample : ddi_env where
  get_instance := fun _ => 0
  register_rv := 0
  unregister_rv := 0

/-- The state before the first attach. -/
def ddi_state_init : ddi_state where
  heap := []
  driver_private := fun _ => 0
  registered := []
  reported := []
  frees := []

/-! ## The audio DDI glue: the cb_ops entry points, `audio_getinfo`, `_init`
and `_fini` -/

/-- Values of further constants that audio_ddi.c takes from headers outside
the sources (sys/errno.h, sys/open.h, sys/sunddi.h, audio_impl.h). -/
structure cb_hdr where
  ENXIO : Int
  OTYP_BLK : Int
  AUDIO_MN_CLONE_MASK : Nat
  DDI_INFO_DEVT2DEVINFO : Int
  DDI_INFO_DEVT2INSTANCE : Int

/-- The fields of `audio_client_t` that the entry points read or set.  A
handler field is `none` for the NULL pointer and `some rv` for a handler that
returns `rv` in the call at hand; `c_istream_engine` is
`c_istream.s_engine`, 0 for NULL. -/
structure audio_client_t where
  c_dev : Nat
  c_major : Nat
  c_minor : Nat
  c_omode : Int
  c_pid : Int
  c_cred : Nat
  c_is_open : Bool
  c_istream_engine : Nat
  c_read : Option Int
  c_write : Option Int
  c_ioctl : Option Int
  c_chpoll : Option Int
deriving DecidableEq, Repr

/-- The calls of the entry points into the audio framework and the kernel, in
the order they are made; the argument is the address of the client or of the
device, or the devinfo node. -/
inductive audio_ev where
  | client_create (c : Nat)
  | client_destroy (c : Nat)
  | client_hold (c : Nat)
  | client_release (c : Nat)
  | dev_hold (d : Nat)
  | dev_release (d : Nat)
  | notify_dev (d : Nat)
  | dev_warn
  | c_open (c : Nat)
  | c_close (c : Nat)
  | c_read (c : Nat)
  | c_write (c : Nat)
  | c_ioctl (c : Nat)
  | c_chpoll (c : Nat)
  | engine_produce (e : Nat)
  | client_init
  | dev_init
  | sun_init
  | oss_init
  | mod_install
  | mod_remove
  | dev_fini
  | client_fini
deriving DecidableEq, Repr

/-- The state the entry points work on: the clients that exist, by address,
and the history of calls (oldest first). -/
structure audio_state where
  clients : List (Nat × audio_client_t)
  trace : List audio_ev

/-- What the audio framework and the kernel answer: the client
`auimpl_client_create(dev)` returns (its address and contents, `none` for
NULL), the device `auimpl_dev_hold_by_devt(dev)` returns, the value of the
personality open handler with the client as it leaves it, `ddi_get_pid()`,
the macros `makedevice` and `getminor`, the field `d_dip` of a device (0 for
NULL), `ddi_get_instance`, and the values of `mod_install` and `mod_remove`. -/
structure audio_env where
  client_create : Nat → Option (Nat × audio_client_t)
  dev_hold_by_devt : Nat → Option Nat
  c_open : audio_client_t → Int → Int × audio_client_t
  get_pid : Int
  makedevice : Nat → Nat → Nat
  getminor : Nat → Nat
  d_dip : Nat → Nat
  get_instance : Nat → Int
  mod_install_rv : Int
  mod_remove_rv : Int

/-- Modelled from the spec: `auclnt_hold_by_devt` of the audio framework is not
among the sources.  The client whose device number is `dev`, `none` for NULL. -/
def auclnt_hold_by_devt (E : audio_env) (σ : audio_state) (dev : Nat) :
    Option (Nat × audio_client_t) :=
  σ.clients.find? (fun p => E.makedevice p.2.c_major p.2.c_minor = dev)

/-- An assignment to fields of the client at address `c`. -/
def audio_client_update (c : Nat) (f : audio_client_t → audio_client_t)
    (σ : audio_state) : audio_state :=
  { σ with clients := σ.clients.map (fun p => if p.1 = c then (p.1, f p.2) else p) }

/-- A call is added to the history. -/
def audio_log (e : List audio_ev) (σ : audio_state) : audio_state :=
  { σ with trace := σ.trace ++ e }

/-- Modelled from the spec: `auimpl_client_destroy` of the audio framework is
not among the sources.  The client leaves the clients that exist and the call
is recorded. -/
def auimpl_client_destroy (c : Nat) (σ : audio_state) : audio_state :=
  { clients := σ.clients.filter (fun p => p.1 ≠ c),
    trace := σ.trace ++ [audio_ev.client_destroy c] }

/-- The function `audio_open(devp, oflag, otyp, credp)`: the value returned,
the value of `*devp` afterwards, and the state. -/
def audio_open (H : cb_hdr) (E : audio_env) (devp : Nat) (oflag otyp : Int) (credp : Nat)
    (σ : audio_state) : Int × Nat × audio_state :=
  if otyp = H.OTYP_BLK then (H.ENXIO, devp, σ)
  else
    match E.client_create devp with
    | none => (H.ENXIO, devp, audio_log [audio_ev.dev_warn] σ)
    | some (c, client) =>
      let σ1 : audio_state :=
        { clients := σ.clients ++
            [(c, { client with c_omode := oflag, c_pid := E.get_pid, c_cred := credp })],
          trace := σ.trace ++ [audio_ev.client_create c] }
      let r := E.c_open { client with c_omode := oflag, c_pid := E.get_pid, c_cred := credp }
        oflag
      let σ2 := audio_log [audio_ev.c_open c] (audio_client_update c (fun _ => r.2) σ1)
      if r.1 ≠ 0 then
        (r.1, devp, auimpl_client_destroy c (audio_log [audio_ev.dev_warn] σ2))
      else
        let devp' := E.makedevice r.2.c_major r.2.c_minor
        let σ3 := audio_client_update c (fun cl => { cl with c_is_open := true }) σ2
        (0, devp', audio_log [audio_ev.notify_dev r.2.c_dev] σ3)

/-- The statements of `audio_close` from `auclnt_hold_by_devt(dev)` to
`auclnt_release(c)`: `none` when no client is held, otherwise the client, the
device `d` and the state at the point where `c_close` is about to be called. -/
def audio_close_hold (E : audio_env) (dev : Nat) (σ : audio_state) :
    Option (Nat × Nat × audio_state) :=
  match auclnt_hold_by_devt E σ dev with
  | none => none
  | some (c, client) =>
    let σ1 := audio_log [audio_ev.client_hold c] σ
    let σ2 := audio_client_update c (fun cl => { cl with c_is_open := false }) σ1
    let σ3 := if client.c_istream_engine ≠ 0 then
        audio_log [audio_ev.engine_produce client.c_istream_engine] σ2
      else σ2
    let d := client.c_dev
    let σ4 := audio_log [audio_ev.dev_hold d] σ3
    some (c, d, audio_log [audio_ev.client_release c] σ4)

/-- The function `audio_close(dev, flag, otyp, credp)`. -/
def audio_close (H : cb_hdr) (E : audio_env) (dev : Nat) (σ : audio_state) :
    Int × audio_state :=
  match audio_close_hold E dev σ with
  | none => (H.ENXIO, audio_log [audio_ev.dev_warn] σ)
  | some (c, d, σ5) =>
    let σ6 := audio_log [audio_ev.c_close c] σ5
    let σ7 := auimpl_client_destroy c σ6
    let σ8 := audio_log [audio_ev.notify_dev d] σ7
    let σ9 := audio_log [audio_ev.dev_release d] σ8
    (0, σ9)

/-- The function `audio_write(dev, uio, credp)`. -/
def audio_write (H : cb_hdr) (E : audio_env) (dev : Nat) (σ : audio_state) :
    Int × audio_state :=
  match auclnt_hold_by_devt E σ dev with
  | none => (H.ENXIO, σ)
  | some (c, client) =>
    let σ1 := audio_log [audio_ev.client_hold c] σ
    let r : Int × audio_state := match client.c_write with
      | none => (H.ENXIO, σ1)
      | some rv => (rv, audio_log [audio_ev.c_write c] σ1)
    (r.1, audio_log [audio_ev.client_release c] r.2)

/-- The function `audio_read(dev, uio, credp)`. -/
def audio_read (H : cb_hdr) (E : audio_env) (dev : Nat) (σ : audio_state) :
    Int × audio_state :=
  match auclnt_hold_by_devt E σ dev with
  | none => (H.ENXIO, σ)
  | some (c, client) =>
    let σ1 := audio_log [audio_ev.client_hold c] σ
    let r : Int × audio_state := match client.c_read with
      | none => (H.ENXIO, σ1)
      | some rv => (rv, audio_log [audio_ev.c_read c] σ1)
    (r.1, audio_log [audio_ev.client_release c] r.2)

/-- The function `audio_ioctl(dev, cmd, arg, mode, credp, rvalp)`. -/
def audio_ioctl (H : cb_hdr) (E : audio_env) (dev : Nat) (σ : audio_state) :
    Int × audio_state :=
  match auclnt_hold_by_devt E σ dev with
  | none => (H.ENXIO, σ)
  | some (c, client) =>
    let σ1 := audio_log [audio_ev.client_hold c] σ
    let r : Int × audio_state := match client.c_ioctl with
      | none => (H.ENXIO, σ1)
      | some rv => (rv, audio_log [audio_ev.c_ioctl c] σ1)
    (r.1, audio_log [audio_ev.client_release c] r.2)

/-- The function `audio_chpoll(dev, events, anyyet, reventsp, phpp)`. -/
def audio_chpoll (H : cb_hdr) (E : audio_env) (dev : Nat) (σ : audio_state) :
    Int × audio_state :=
  match auclnt_hold_by_devt E σ dev with
  | none => (H.ENXIO, σ)
  | some (c, client) =>
    let σ1 := audio_log [audio_ev.client_hold c] σ
    let r : Int × audio_state := match client.c_chpoll with
      | none => (H.ENXIO, σ1)
      | some rv => (rv, audio_log [audio_ev.c_chpoll c] σ1)
    (r.1, audio_log [audio_ev.client_release c] r.2)

/-- The value `*resp` of `audio_getinfo`: left as it was, a devinfo node, an
instance number, or NULL. -/
inductive getinfo_resp where
  | untouched
  | devinfo (dip : Nat)
  | instance_no (i : Int)
  | null
deriving DecidableEq, Repr

/-- The first part of `audio_getinfo`: the devinfo node resolved for the
device number `arg` (0 for NULL), and the state. -/
def audio_getinfo_dip (H : cb_hdr) (E : audio_env) (arg : Nat) (σ : audio_state) :
    Nat × audio_state :=
  if E.getminor arg &&& H.AUDIO_MN_CLONE_MASK ≠ 0 then
    match auclnt_hold_by_devt E σ arg with
    | some (c, client) =>
      (E.d_dip client.c_dev,
        audio_log [audio_ev.client_hold c, audio_ev.client_release c] σ)
    | none => (0, σ)
  else
    match E.dev_hold_by_devt arg with
    | some adev =>
      (E.d_dip adev, audio_log [audio_ev.dev_hold adev, audio_ev.dev_release adev] σ)
    | none => (0, σ)

/-- The function `audio_getinfo(dip, cmd, arg, resp)`: the value returned, the
value of `*resp` afterwards, and the state.  The `switch` is the chain of its
case labels. -/
def audio_getinfo (K : ddi_hdr) (H : cb_hdr) (E : audio_env) (cmd : Int) (arg : Nat)
    (σ : audio_state) : Int × getinfo_resp × audio_state :=
  let r := audio_getinfo_dip H E arg σ
  let dip := r.1
  if dip = 0 then (K.DDI_FAILURE, getinfo_resp.untouched, r.2)
  else if cmd = H.DDI_INFO_DEVT2DEVINFO then
    (K.DDI_SUCCESS, getinfo_resp.devinfo dip, r.2)
  else if cmd = H.DDI_INFO_DEVT2INSTANCE then
    (K.DDI_SUCCESS, getinfo_resp.instance_no (E.get_instance dip), r.2)
  else (K.DDI_FAILURE, getinfo_resp.null, r.2)

/-- The function `_init` of the module. -/
def _init (E : audio_env) (σ : audio_state) : Int × audio_state :=
  let σ1 := audio_log [audio_ev.client_init, audio_ev.dev_init, audio_ev.sun_init,
    audio_ev.oss_init] σ
  let rv := E.mod_install_rv
  let σ2 := audio_log [audio_ev.mod_install] σ1
  if rv ≠ 0 then (rv, audio_log [audio_ev.dev_fini, audio_ev.client_fini] σ2)
  else (rv, σ2)

/-- The function `_fini` of the module. -/
def _fini (E : audio_env) (σ : audio_state) : Int × audio_state :=
  let rv := E.mod_remove_rv
  let σ1 := audio_log [audio_ev.mod_remove] σ
  if rv ≠ 0 then (rv, σ1)
  else (rv, audio_log [audio_ev.dev_fini, audio_ev.client_fini] σ1)

/-- The header values used where a concrete input is evaluated. -/
def cb_hdr_sample : cb_hdr where
  ENXIO := 6
  OTYP_BLK := 0
  AUDIO_MN_CLONE_MASK := 1
  DDI_INFO_DEVT2DEVINFO := 0
  DDI_INFO_DEVT2INSTANCE := 1

/-- A client of device 10 with device number (5, 3), opened, with a write
handler that returns 0 and no other handler. -/
def audio_client_sample : audio_client_t where
  c_dev := 10
  c_major := 5
  c_minor := 3
  c_omode := 0
  c_pid := 0
  c_cred := 0
  c_is_open := true
  c_istream_engine := 0
  c_read := none
  c_write := some 0
  c_ioctl := none
  c_chpoll := none

/-- A kernel in which device numbers are `major * 256 + minor`, device 10
belongs to devinfo node 1 of instance 0, and every call succeeds. -/
def audio_env_sample : audio_env where
  client_create := fun _ => some (20, audio_client_sample)
  dev_hold_by_devt := fun _ => some 10
  c_open := fun cl _ => (0, cl)
  get_pid := 100
  makedevice := fun major minor => major * 256 + minor
  getminor := fun dev => dev % 256
  d_dip := fun _ => 1
  get_instance := fun _ => 0
  mod_install_rv := 0
  mod_remove_rv := 0

/-- A state with the one client `audio_client_sample` at address 20. -/
def audio_state_sample : audio_state where
  clients := [(20, audio_client_sample)]
  trace := []

/-! ## The calls of the plugin into the ptree API, as a history -/

/-- Values of the property and class names that the plugin takes from picl.h
and picldefs.h, headers outside the sources. -/
structure picl_hdr where
  PICL_PROP_OPERATIONAL_STATUS : cstr
  PICL_PROP_DEVICES : cstr
  PICL_REFPROP_FRU_PARENT : cstr
  PICL_PROP_CHILD : cstr
  PICL_PROP_PEER : cstr
  PICL_PROP_PARENT : cstr
  PICL_PROP_NAME : cstr
  PICL_PROP_CLASS : cstr
  PICL_PROP_CLASSNAME : cstr
  PICL_PROP_LABEL : cstr
  PICL_PROP_STATE : cstr
  PICL_CLASS_BLOCK : cstr
  PICL_PROPNAMELEN_MAX : Nat

/-- A call of the ptree API of libpicltree, with the arguments that say what
it works on. -/
inductive ptree_call where
  | init_propinfo (name : cstr)
  | get_node_by_path (path : cstr)
  | get_prop_by_name (nodeh : Nat) (name : cstr)
  | get_propval (proph : Nat)
  | get_propval_by_name (nodeh : Nat) (name : cstr)
  | get_next_by_col (h : Nat)
  | get_next_by_row (h : Nat)
  | create_prop (name : cstr)
  | create_table
  | add_row_to_table (tblh : Nat)
  | create_and_add_prop (nodeh : Nat) (name : cstr)
  | delete_prop (proph : Nat)
  | destroy_prop (proph : Nat)
  | delete_node (nodeh : Nat)
  | destroy_node (nodeh : Nat)
deriving DecidableEq, Repr

/-- What a call of the ptree API answers: whether it returned PICL_SUCCESS, and
the handle or the string it delivered. -/
structure ptree_resp where
  ok : Bool
  hdl : Nat
  str : cstr
deriving DecidableEq, Repr

/-- The history of ptree calls with their answers, the latest first. -/
abbrev ptree_history := List (ptree_call × ptree_resp)

/-- The PICL daemon as the plugin sees it: the answer to a call, which may
depend on all the calls made before. -/
abbrev ptree_oracle := ptree_history → ptree_call → ptree_resp

/-- A call is made: its answer, and the history with the call in front. -/
def ptree_do (O : ptree_oracle) (tr : ptree_history) (c : ptree_call) :
    ptree_resp × ptree_history :=
  (O tr c, (c, O tr c) :: tr)

/-- The lifecycle rule for handles on a history: a `ptree_destroy_prop` or
`ptree_destroy_node` call stands right after a `ptree_delete_prop`, or
`ptree_delete_node`, call on the same handle that returned PICL_SUCCESS. -/
def destroy_follows_delete : ptree_history → Bool
  | [] => true
  | (ptree_call.destroy_prop h, _) :: rest =>
    (match rest with
      | (ptree_call.delete_prop h', r) :: _ => decide (h' = h) && r.ok
      | _ => false) && destroy_follows_delete rest
  | (ptree_call.destroy_node h, _) :: rest =>
    (match rest with
      | (ptree_call.delete_node h', r) :: _ => decide (h' = h) && r.ok
      | _ => false) && destroy_follows_delete rest
  | _ :: rest => destroy_follows_delete rest

/-- The function `add_op_status_to_node(nodeh, prophdl_p)`: the history after
it. -/
def add_op_status_to_node (P : picl_hdr) (O : ptree_oracle) (nodeh : Nat)
    (tr : ptree_history) : ptree_history :=
  let r0 := ptree_do O tr (ptree_call.init_propinfo P.PICL_PROP_OPERATIONAL_STATUS)
  let s : Bool × ptree_history :=
    if r0.1.ok then
      let r1 := ptree_do O r0.2
        (ptree_call.get_prop_by_name nodeh P.PICL_PROP_OPERATIONAL_STATUS)
      if r1.1.ok then
        let r2 := ptree_do O r1.2 (ptree_call.delete_prop r1.1.hdl)
        if r2.1.ok then
          let r3 := ptree_do O r2.2 (ptree_call.destroy_prop r1.1.hdl)
          (r3.1.ok, r3.2)
        else (true, r2.2)
      else (true, r1.2)
    else (false, r0.2)
  if s.1 then
    (ptree_do O s.2 (ptree_call.create_and_add_prop nodeh P.PICL_PROP_OPERATIONAL_STATUS)).2
  else s.2

/-- The body of the loop of `remove_fru_parents` for the table entry `tblh`. -/
def remove_fru_parents_body (P : picl_hdr) (O : ptree_oracle) (tblh : Nat)
    (tr : ptree_history) : ptree_history :=
  let r1 := ptree_do O tr (ptree_call.get_propval tblh)
  if r1.1.ok then
    let r2 := ptree_do O r1.2 (ptree_call.get_prop_by_name r1.1.hdl P.PICL_REFPROP_FRU_PARENT)
    if r2.1.ok then
      let r3 := ptree_do O r2.2 (ptree_call.delete_prop r2.1.hdl)
      if r3.1.ok then (ptree_do O r3.2 (ptree_call.destroy_prop r2.1.hdl)).2
      else r3.2
    else r2.2
  else r1.2

/-- The loop of `remove_fru_parents` down the column, from the entry `tblh`,
for at most `fuel` entries. -/
def remove_fru_parents_loop (P : picl_hdr) (O : ptree_oracle) :
    Nat → Nat → ptree_history → ptree_history
  | 0, _, tr => tr
  | fuel + 1, tblh, tr =>
    let tr1 := remove_fru_parents_body P O tblh tr
    let r := ptree_do O tr1 (ptree_call.get_next_by_col tblh)
    if r.1.ok then remove_fru_parents_loop P O fuel r.1.hdl r.2 else r.2

/-- The function `remove_fru_parents(fruh)`, its loop cut after `fuel` table
entries. -/
def remove_fru_parents (P : picl_hdr) (O : ptree_oracle) (fuel : Nat) (fruh : Nat)
    (tr : ptree_history) : ptree_history :=
  let r0 := ptree_do O tr (ptree_call.get_propval_by_name fruh P.PICL_PROP_NAME)
  if r0.1.ok then
    let r1 := ptree_do O r0.2 (ptree_call.get_prop_by_name fruh P.PICL_PROP_DEVICES)
    if r1.1.ok then
      let r2 := ptree_do O r1.2 (ptree_call.get_propval r1.1.hdl)
      if r2.1.ok then
        let r3 := ptree_do O r2.2 (ptree_call.get_next_by_col r2.1.hdl)
        if r3.1.ok then
          let r4 := ptree_do O r3.2 (ptree_call.get_next_by_row r3.1.hdl)
          if r4.1.ok then remove_fru_parents_loop P O fuel r4.1.hdl r4.2 else r4.2
        else r3.2
      else r2.2
    else r1.2
  else r0.2

/-- The first part of `remove_tables(rootnd)`: a Devices property of the node
is deleted and destroyed. -/
def remove_tables_devices (P : picl_hdr) (O : ptree_oracle) (rootnd : Nat)
    (tr : ptree_history) : ptree_history :=
  let r0 := ptree_do O tr (ptree_call.get_prop_by_name rootnd P.PICL_PROP_DEVICES)
  if r0.1.ok then
    let r1 := ptree_do O r0.2 (ptree_call.delete_prop r0.1.hdl)
    if r1.1.ok then (ptree_do O r1.2 (ptree_call.destroy_prop r0.1.hdl)).2 else r1.2
  else r0.2

/-- The function `remove_tables(rootnd)` (`in_loop` false) and its `while`
loop over the children from the node `rootnd` on (`in_loop` true), cut after
`fuel` nested calls and iterations. -/
def remove_tables_fuel (P : picl_hdr) (O : ptree_oracle) :
    Nat → Bool → Nat → ptree_history → ptree_history
  | 0, _, _, tr => tr
  | fuel + 1, false, rootnd, tr =>
    let tr1 := remove_tables_devices P O rootnd tr
    let r := ptree_do O tr1 (ptree_call.get_propval_by_name rootnd P.PICL_PROP_CHILD)
    if r.1.ok then remove_tables_fuel P O fuel true r.1.hdl r.2 else r.2
  | fuel + 1, true, rootnd, tr =>
    let tr1 := remove_tables_fuel P O fuel false rootnd tr
    let r := ptree_do O tr1 (ptree_call.get_propval_by_name rootnd P.PICL_PROP_PEER)
    if r.1.ok then remove_tables_fuel P O fuel true r.1.hdl r.2 else r.2

/-- The function `remove_tables(rootnd)`. -/
def remove_tables (P : picl_hdr) (O : ptree_oracle) (fuel : Nat) (rootnd : Nat)
    (tr : ptree_history) : ptree_history :=
  remove_tables_fuel P O fuel false rootnd tr

/-- The loop of `find_child_by_name` as calls of the ptree API, from the node
`nodeh`, for at most `fuel` siblings: the handle returned (0 for NULL) and the
history. -/
def find_child_by_name_calls_loop (P : picl_hdr) (O : ptree_oracle) (name : cstr) :
    Nat → Nat → ptree_history → Nat × ptree_history
  | 0, _, tr => (0, tr)
  | fuel + 1, nodeh, tr =>
    let r := ptree_do O tr (ptree_call.get_propval_by_name nodeh P.PICL_PROP_NAME)
    if r.1.ok then
      if strcmp_eq name r.1.str then (nodeh, r.2)
      else
        let r1 := ptree_do O r.2 (ptree_call.get_propval_by_name nodeh P.PICL_PROP_PEER)
        if r1.1.ok then find_child_by_name_calls_loop P O name fuel r1.1.hdl r1.2
        else (0, r1.2)
    else (0, r.2)

/-- The function `find_child_by_name(parh, name)` as calls of the ptree API. -/
def find_child_by_name_calls (P : picl_hdr) (O : ptree_oracle) (fuel : Nat) (parh : Nat)
    (name : cstr) (tr : ptree_history) : Nat × ptree_history :=
  let r := ptree_do O tr (ptree_call.get_propval_by_name parh P.PICL_PROP_CHILD)
  if r.1.ok then find_child_by_name_calls_loop P O name fuel r.1.hdl r.2 else (0, r.2)

/-- The function `create_table_entry(tblhdl, refhdl, class)`: whether it
returned PICL_SUCCESS, and the history. The two property names are written
into `prop.piclinfo.name`, an array of `PICL_PROPNAMELEN_MAX` characters. -/
def create_table_entry (P : picl_hdr) (O : ptree_oracle) (tblhdl : Nat) (classname : cstr)
    (tr : ptree_history) : Bool × ptree_history :=
  let r0 := ptree_do O tr (ptree_call.create_prop (P.PICL_PROP_CLASS.take (P.PICL_PROPNAMELEN_MAX - 1)))
  if r0.1.ok then
    let r1 := ptree_do O r0.2 (ptree_call.create_prop
      ((['_'] ++ classname ++ ['_']).take (P.PICL_PROPNAMELEN_MAX - 1)))
    if r1.1.ok then
      let r2 := ptree_do O r1.2 (ptree_call.add_row_to_table tblhdl)
      (r2.1.ok, r2.2)
    else (false, r1.2)
  else (false, r0.2)

/-- The function `add_prop_ref(nodeh, value, name)`. -/
def add_prop_ref (O : ptree_oracle) (nodeh : Nat) (name : cstr)
    (tr : ptree_history) : Bool × ptree_history :=
  let r0 := ptree_do O tr (ptree_call.init_propinfo name)
  if r0.1.ok then
    let r1 := ptree_do O r0.2 (ptree_call.create_and_add_prop nodeh name)
    (r1.1.ok, r1.2)
  else (false, r0.2)

/-- The function `create_table(fruhdl, tblhdlp, tbl_name)`. -/
def create_table (P : picl_hdr) (O : ptree_oracle) (fruhdl : Nat) (tbl_name : cstr)
    (tr : ptree_history) : Bool × ptree_history :=
  let r0 := ptree_do O tr ptree_call.create_table
  if r0.1.ok then
    let r1 := ptree_do O r0.2
      (ptree_call.create_and_add_prop fruhdl (tbl_name.take (P.PICL_PROPNAMELEN_MAX - 1)))
    (r1.1.ok, r1.2)
  else (false, r0.2)

/-- The function `update_disk_node(fruname, devpath)`. -/
def update_disk_node (K : hdr) (P : picl_hdr) (O : ptree_oracle) (fuel : Nat)
    (fruname devpath : cstr) (tr : ptree_history) : ptree_history :=
  let r0 := ptree_do O tr (ptree_call.get_node_by_path (sprintf_buf2 K CHASSIS_LOC_PATH fruname))
  if r0.1.ok then
    let f := find_child_by_name_calls P O fuel r0.1.hdl DISK_FRU_NAME r0.2
    let diskndh := f.1
    if diskndh = 0 then f.2
    else
      let r1 := ptree_do O f.2 (ptree_call.get_node_by_path devpath)
      if r1.1.ok then
        let r2 := ptree_do O r1.2 (ptree_call.get_propval_by_name diskndh P.PICL_PROP_DEVICES)
        if r2.1.ok then
          let r3 := ptree_do O r2.2 (ptree_call.get_next_by_col r2.1.hdl)
          if r3.1.ok then r3.2
          else
            let e := create_table_entry P O r2.1.hdl P.PICL_CLASS_BLOCK r3.2
            if e.1 then (add_prop_ref O r1.1.hdl P.PICL_REFPROP_FRU_PARENT e.2).2
            else e.2
        else r2.2
      else
        let r2 := ptree_do O r1.2 (ptree_call.get_prop_by_name diskndh P.PICL_PROP_DEVICES)
        if r2.1.ok then
          let r3 := ptree_do O r2.2 (ptree_call.delete_prop r2.1.hdl)
          if r3.1.ok then
            let r4 := ptree_do O r3.2 (ptree_call.destroy_prop r2.1.hdl)
            (create_table P O diskndh P.PICL_PROP_DEVICES r4.2).2
          else r3.2
        else r2.2
  else r0.2

/-- The function `frudr_completion_handler(ename, earg, size)` as calls of the
ptree API (the devctl call of `delete_i2c_node` and the store to `disk_ready`
are no such calls). -/
def frudr_completion_handler_calls (K : hdr) (P : picl_hdr) (O : ptree_oracle) (fuel : Nat)
    (ename : cstr) (earg : nvlist_t) (tr : ptree_history) : ptree_history :=
  if strcmp_eq ename K.PICL_FRU_REMOVED then
    let fruh := (nvlist_lookup_uint64 earg K.PICLEVENTARG_FRUHANDLE).getD 0
    if fruh ≠ 0 then
      let r0 := ptree_do O tr (ptree_call.get_propval_by_name fruh P.PICL_PROP_PARENT)
      let tr1 := if r0.1.ok then
          (ptree_do O r0.2 (ptree_call.get_propval_by_name r0.1.hdl P.PICL_PROP_NAME)).2
        else r0.2
      let tr2 := remove_fru_parents P O fuel fruh tr1
      let r1 := ptree_do O tr2 (ptree_call.delete_node fruh)
      if r1.1.ok then (ptree_do O r1.2 (ptree_call.destroy_node fruh)).2 else r1.2
    else tr
  else tr

/-- The names of picl.h, used where a concrete input is evaluated. -/
def picl_hdr_sample : picl_hdr where
  PICL_PROP_OPERATIONAL_STATUS := "OperationalStatus".toList
  PICL_PROP_DEVICES := "Devices".toList
  PICL_REFPROP_FRU_PARENT := "_fru_parent".toList
  PICL_PROP_CHILD := "_child".toList
  PICL_PROP_PEER := "_peer".toList
  PICL_PROP_PARENT := "_parent".toList
  PICL_PROP_NAME := "name".toList
  PICL_PROP_CLASS := "Class".toList
  PICL_PROP_CLASSNAME := "_class".toList
  PICL_PROP_LABEL := "Label".toList
  PICL_PROP_STATE := "State".toList
  PICL_CLASS_BLOCK := "block".toList
  PICL_PROPNAMELEN_MAX := 256

/-- A daemon in which every call returns PICL_SUCCESS and delivers handle 9. -/
def ptree_oracle_sample : ptree_oracle :=
  fun _ _ => { ok := true, hdl := 9, str := [] }

/-! ## find_child_by_name as a walk along the CHILD and PEER links -/

/-- Modelled from the spec: `ptree_get_propval_by_name` of libpicltree is not
among the sources.  The call
`ptree_get_propval_by_name(nodeh, PICL_PROP_PEER, ...)`: the handle of the
next sibling of `nodeh`, the next node of the tree with the same parent;
`none` when there is none and the call does not return PICL_SUCCESS. -/
def ptree_get_peer (T : ptree) (nodeh : Nat) : Option Nat :=
  match T.dropWhile (fun n => decide (n.hdl ≠ nodeh)) with
  | [] => none
  | n :: rest => (rest.find? (fun m => decide (m.parent = n.parent))).map (fun m => m.hdl)

/-- The `for (;;)` loop of `find_child_by_name` with the node handle `nodeh`
in hand, cut after `fuel` rounds (`none`); 0 is NULL. -/
def find_child_by_name_walk_loop (T : ptree) (name : cstr) : Nat → Nat → Option Nat
  | 0, _ => none
  | fuel + 1, nodeh =>
    match ptree_get_name T nodeh with
    | none => some 0
    | some nodename =>
      if strcmp_eq name nodename then some nodeh
      else
        match ptree_get_peer T nodeh with
        | none => some 0
        | some peer => find_child_by_name_walk_loop T name fuel peer

/-- The function `find_child_by_name(parh, name)` call by call: the CHILD
property of the parent, then NAME and PEER of one node after the other. -/
def find_child_by_name_walk (T : ptree) (fuel : Nat) (parh : Nat) (name : cstr) : Option Nat :=
  match ptree_get_child T parh with
  | none => some 0
  | some nodeh => find_child_by_name_walk_loop T name fuel nodeh

/-- A slot with three nodes below it, the second and third named "disk". -/
def tree_three_children_sample : ptree :=
  [{ hdl := 1, parent := 0, name := ['H', 'D', 'D', '0'], classname := "location".toList },
   { hdl := 2, parent := 1, name := ['l', 'e', 'd'], classname := "led".toList },
   { hdl := 3, parent := 1, name := DISK_FRU_NAME, classname := "fru".toList },
   { hdl := 5, parent := 3, name := DISK_FRU_NAME, classname := "fru".toList },
   { hdl := 4, parent := 1, name := DISK_FRU_NAME, classname := "fru".toList }]

/-! ## set_led -/

theorem strncmp_eq_iff_begins (s lit : cstr) :
    strncmp_eq s lit lit.length = true ↔ lit <+: s := by
  unfold strncmp_eq
  rw [decide_eq_true_iff, List.take_length, List.prefix_iff_eq_take]
  exact eq_comm

theorem strlcpy_fits (dst src : cstr) (n : Nat) (h : src.length < n) :
    strlcpy dst src n = src := by
  unfold strlcpy
  have h0 : n ≠ 0 := by omega
  rw [if_neg h0]
  exact List.take_of_length_le (by omega)

/-! ## read_vol_data -/

theorem find_picl_handle_loop_spec (tbl : idp_lkup_t) (proph : Nat) :
    ∀ (left index : Nat),
      (find_picl_handle_loop tbl proph left index < 0 ↔
        ∀ j, j < left → (idp_at tbl (index + j)).volprop ≠ proph) := by
  intro left
  induction left with
  | zero =>
    intro index
    simp [find_picl_handle_loop]
  | succ n ih =>
    intro index
    unfold find_picl_handle_loop
    by_cases h : (idp_at tbl index).volprop = proph
    · rw [if_pos h]
      constructor
      · intro hneg
        exact absurd hneg (by omega)
      · intro hall
        exact absurd h (by simpa using hall 0 (Nat.succ_pos n))
    · rw [if_neg h, ih (index + 1)]
      constructor
      · intro hall j hj
        cases j with
        | zero => simpa using h
        | succ k =>
          have := hall k (by omega)
          have e : index + 1 + k = index + (k + 1) := by omega
          rwa [e] at this
      · intro hall j hj
        have := hall (j + 1) (by omega)
        have e : index + (j + 1) = index + 1 + j := by omega
        rwa [e] at this

/-- C1. `read_vol_data` returns PICL_SUCCESS for every property handle, every
handle table and every answer of the environment; and whenever the handle is
not in the table (which is exactly when no entry in use holds it), the open of
the SC device fails or the ENVMONIOCHPU ioctl fails, the buffer holds
"unknown". -/
theorem read_vol_data_never_fails (K : hdr) (idprop : Option idp_lkup_t) (E : sc_env)
    (proph : Nat) (buf : cstr) :
    (read_vol_data K idprop E proph buf).1 = K.PICL_SUCCESS ∧
    ((find_picl_handle idprop proph < 0 ∨ E.open_rv < 0 ∨
        (E.ioctl_hpu (hpu_request idprop (find_picl_handle idprop proph))).1 < 0) →
      (read_vol_data K idprop E proph buf).2 = ['u', 'n', 'k', 'n', 'o', 'w', 'n']) ∧
    (find_picl_handle idprop proph < 0 ↔
      ∀ tbl, idprop = some tbl →
        ∀ i, i < tbl.num.toNat → (idp_at tbl i).volprop ≠ proph) := by
  have hunk : strlcpy buf str_opst_unknown max_opst_len
      = ['u', 'n', 'k', 'n', 'o', 'w', 'n'] :=
    strlcpy_fits buf str_opst_unknown max_opst_len (by decide)
  refine ⟨?_, ?_, ?_⟩
  · unfold read_vol_data
    simp only
    split_ifs <;> rfl
  · intro h
    unfold read_vol_data
    simp only
    by_cases h1 : find_picl_handle idprop proph < 0
    · rw [if_pos h1]; exact hunk
    · rw [if_neg h1]
      by_cases h2 : E.open_rv < 0
      · rw [if_pos h2]; exact hunk
      · rw [if_neg h2]
        have h3 : (E.ioctl_hpu (hpu_request idprop (find_picl_handle idprop proph))).1 < 0 := by
          rcases h with h | h | h
          · exact absurd h h1
          · exact absurd h h2
          · exact h
        rw [if_pos h3]; exact hunk
  · cases idprop with
    | none => simp [find_picl_handle]
    | some tbl =>
      simp only [find_picl_handle, Option.some.injEq, forall_eq']
      rw [find_picl_handle_loop_spec]
      simp

/-- Witness of C1 at a handle that the sample table does not hold. -/
theorem read_vol_data_never_fails_witness :
    find_picl_handle idprop_sample 9 < 0 ∧
    read_vol_data hdr_sample idprop_sample sc_env_sample 9 []
      = (0, ['u', 'n', 'k', 'n', 'o', 'w', 'n']) :=
  have h : find_picl_handle idprop_sample 9 < 0 := by decide
  ⟨h, Prod.ext (read_vol_data_never_fails hdr_sample idprop_sample sc_env_sample 9 []).1
        ((read_vol_data_never_fails hdr_sample idprop_sample sc_env_sample 9 []).2.1 (Or.inl h))⟩

/-- C2. When the handle is found, the SC device opens and the ioctl delivers a
record, the OperationalStatus delivered is, in this order of priority:
"present" when the HPU name begins with "HDD" and fru_status is
ENVMON_FRU_PRESENT (whatever sensor_status is); otherwise "unknown" when
sensor_status is not ENVMON_SENSOR_OK; otherwise "okay", "download", "faulty"
for the fru_status values PRESENT, DOWNLOAD, FAULT (tested in that order) and
"unknown" for any other; and each of the five strings is copied whole under
the max_opst_len bound. -/
theorem read_vol_data_status (K : hdr) (idprop : Option idp_lkup_t) (E : sc_env)
    (proph : Nat) (buf : cstr)
    (hidx : 0 ≤ find_picl_handle idprop proph)
    (hopen : 0 ≤ E.open_rv)
    (hioctl : 0 ≤ (E.ioctl_hpu (hpu_request idprop (find_picl_handle idprop proph))).1) :
    (∀ data, data = (E.ioctl_hpu (hpu_request idprop (find_picl_handle idprop proph))).2 →
      ∀ out, out = (read_vol_data K idprop E proph buf).2 →
      ((DISK_NAME <+: data.id.name ∧ data.fru_status = K.ENVMON_FRU_PRESENT) →
          out = ['p', 'r', 'e', 's', 'e', 'n', 't']) ∧
      (¬ (DISK_NAME <+: data.id.name ∧ data.fru_status = K.ENVMON_FRU_PRESENT) →
        (data.sensor_status ≠ K.ENVMON_SENSOR_OK →
          out = ['u', 'n', 'k', 'n', 'o', 'w', 'n']) ∧
        (data.sensor_status = K.ENVMON_SENSOR_OK →
          (data.fru_status = K.ENVMON_FRU_PRESENT → out = ['o', 'k', 'a', 'y']) ∧
          (data.fru_status ≠ K.ENVMON_FRU_PRESENT →
            data.fru_status = K.ENVMON_FRU_DOWNLOAD →
            out = ['d', 'o', 'w', 'n', 'l', 'o', 'a', 'd']) ∧
          (data.fru_status ≠ K.ENVMON_FRU_PRESENT →
            data.fru_status ≠ K.ENVMON_FRU_DOWNLOAD →
            data.fru_status = K.ENVMON_FRU_FAULT →
            out = ['f', 'a', 'u', 'l', 't', 'y']) ∧
          (data.fru_status ≠ K.ENVMON_FRU_PRESENT →
            data.fru_status ≠ K.ENVMON_FRU_DOWNLOAD →
            data.fru_status ≠ K.ENVMON_FRU_FAULT →
            out = ['u', 'n', 'k', 'n', 'o', 'w', 'n'])))) ∧
    (∀ s, s ∈ [str_opst_present, str_opst_ok, str_opst_faulty, str_opst_download,
          str_opst_unknown] → strlcpy buf s max_opst_len = s) := by
  have hfit : ∀ s, s ∈ [str_opst_present, str_opst_ok, str_opst_faulty, str_opst_download,
      str_opst_unknown] → strlcpy buf s max_opst_len = s := by
    intro s hs
    apply strlcpy_fits
    simp only [List.mem_cons, List.mem_singleton, List.not_mem_nil, or_false] at hs
    rcases hs with h | h | h | h | h <;> subst h <;> decide
  refine ⟨?_, hfit⟩
  intro data hdata out hout
  have hpre : DISK_NAME <+: data.id.name ↔
      strncmp_eq data.id.name DISK_NAME DISK_NAME_LEN = true :=
    (strncmp_eq_iff_begins data.id.name DISK_NAME).symm
  have e : out =
      if strncmp_eq data.id.name DISK_NAME DISK_NAME_LEN
          && decide (data.fru_status = K.ENVMON_FRU_PRESENT) then
        strlcpy buf str_opst_present max_opst_len
      else if data.sensor_status ≠ K.ENVMON_SENSOR_OK then
        strlcpy buf str_opst_unknown max_opst_len
      else
        strlcpy buf
          (if data.fru_status = K.ENVMON_FRU_PRESENT then str_opst_ok
           else if data.fru_status = K.ENVMON_FRU_DOWNLOAD then str_opst_download
           else if data.fru_status = K.ENVMON_FRU_FAULT then str_opst_faulty
           else str_opst_unknown)
          max_opst_len := by
    rw [hout, hdata]
    unfold read_vol_data
    simp only
    rw [if_neg (not_lt.mpr hidx), if_neg (not_lt.mpr hopen), if_neg (not_lt.mpr hioctl)]
    split_ifs <;> rfl
  have fP := hfit str_opst_present (by simp)
  have fO := hfit str_opst_ok (by simp)
  have fF := hfit str_opst_faulty (by simp)
  have fD := hfit str_opst_download (by simp)
  have fU := hfit str_opst_unknown (by simp)
  refine ⟨?_, ?_⟩
  · rintro ⟨h1, h2⟩
    have hc : (strncmp_eq data.id.name DISK_NAME DISK_NAME_LEN
          && decide (data.fru_status = K.ENVMON_FRU_PRESENT)) = true := by
      simp [hpre.mp h1, h2]
    rw [e, if_pos hc, fP]; rfl
  · intro hn
    have hc : ¬ (strncmp_eq data.id.name DISK_NAME DISK_NAME_LEN
          && decide (data.fru_status = K.ENVMON_FRU_PRESENT)) = true := by
      intro hc
      simp only [Bool.and_eq_true, decide_eq_true_eq] at hc
      exact hn ⟨hpre.mpr hc.1, hc.2⟩
    rw [if_neg hc] at e
    refine ⟨?_, ?_⟩
    · intro hs
      rw [e, if_pos hs, fU]; rfl
    · intro hs
      rw [if_neg (not_not.mpr hs)] at e
      refine ⟨?_, ?_, ?_, ?_⟩
      · intro h1
        rw [e, if_pos h1, fO]; rfl
      · intro h1 h2
        rw [e, if_neg h1, if_pos h2, fD]; rfl
      · intro h1 h2 h3
        rw [e, if_neg h1, if_neg h2, if_pos h3, fF]; rfl
      · intro h1 h2 h3
        rw [e, if_neg h1, if_neg h2, if_neg h3, fU]; rfl

/-- Witness of C2: the sample table holds handle 7 for "HDD0", the device
opens, the ioctl succeeds and reports the disk present. -/
theorem read_vol_data_status_witness :
    0 ≤ find_picl_handle idprop_sample 7 ∧
    (read_vol_data hdr_sample idprop_sample sc_env_sample 7 []).2
      = ['p', 'r', 'e', 's', 'e', 'n', 't'] :=
  have h : 0 ≤ find_picl_handle idprop_sample 7 := by decide
  ⟨h, ((read_vol_data_status hdr_sample idprop_sample sc_env_sample 7 [] h
          (by decide) (by decide)).1 _ rfl _ rfl).1 ⟨by decide, by decide⟩⟩

/-! ## raid_ok2rem_policy -/

theorem disk_name_at_inj (a b : Int) (ha : 0 ≤ a ∧ a < N_DISKS) (hb : 0 ≤ b ∧ b < N_DISKS)
    (h : disk_name_at a = disk_name_at b) : a = b := by
  obtain ⟨ha0, ha1⟩ := ha
  obtain ⟨hb0, hb1⟩ := hb
  simp only [N_DISKS, Nat.cast_ofNat] at ha1 hb1
  interval_cases a <;> interval_cases b <;> first | rfl | (exact absurd h (by decide))

theorem set_led_then_ready_calls (K : hdr) (L : led_env) (σ : led_state) (d : Int)
    (value : cstr) (ready : Int) :
    (set_led_then_ready K L σ d value ready).led_calls =
      σ.led_calls ++ [{ name := disk_name_at d, label := REMOK_LED, value := value }] := rfl

theorem set_led_then_ready_frame (K : hdr) (L : led_env) (σ : led_state) (d : Int)
    (value : cstr) (ready : Int) (x : Int) (hx : x ≠ d) :
    (set_led_then_ready K L σ d value ready).disk_ready x = σ.disk_ready x := by
  unfold set_led_then_ready
  simp only
  split_ifs
  · exact Function.update_noteq hx _ _
  · rfl

theorem set_led_then_ready_ok (K : hdr) (L : led_env) (σ : led_state) (d : Int)
    (value : cstr) (ready : Int)
    (hled : ∀ n a b c, L.set_led_rv n a b c = K.PICL_SUCCESS) :
    (set_led_then_ready K L σ d value ready).disk_ready d = ready := by
  unfold set_led_then_ready
  simp only
  rw [if_pos (hled _ _ _ _)]
  exact Function.update_same _ _ _

/-- The disks other than the one at index `j` keep their `disk_ready` entry. -/
theorem raid_ok2rem_step_frame (K : hdr) (L : led_env) (config : raid_config_t)
    (σ : led_state) (j : Nat) (x : Int) (hx : x ≠ config.disk j) :
    (raid_ok2rem_step K L config σ j).disk_ready x = σ.disk_ready x := by
  unfold raid_ok2rem_step
  simp only
  split_ifs <;> first | rfl | (rw [set_led_then_ready_frame _ _ _ _ _ _ _ hx])

/-- The calls one step makes: at most one, for the disk of that index, with
the value "ON" exactly for the status FAILED. -/
theorem raid_ok2rem_step_calls (K : hdr) (L : led_env) (config : raid_config_t)
    (σ : led_state) (j : Nat)
    (hK : K.RAID_DISKSTATUS_MISSING ≠ K.RAID_DISKSTATUS_FAILED ∧
      K.RAID_DISKSTATUS_GOOD ≠ K.RAID_DISKSTATUS_FAILED) :
    ∃ new, (raid_ok2rem_step K L config σ j).led_calls = σ.led_calls ++ new ∧
      (∀ c, c ∈ new → c.name = disk_name_at (config.disk j) ∧ c.label = REMOK_LED ∧
        (c.value = PICL_PROPVAL_ON ↔ config.diskstatus j = K.RAID_DISKSTATUS_FAILED)) ∧
      (config.diskstatus j = K.RAID_DISKSTATUS_FAILED →
        σ.disk_ready (config.disk j) ≠ B_FALSE →
        ({ name := disk_name_at (config.disk j), label := REMOK_LED,
           value := PICL_PROPVAL_ON } : led_call) ∈ new) := by
  obtain ⟨hMF, hGF⟩ := hK
  unfold raid_ok2rem_step
  simp only
  by_cases h1 : config.diskstatus j = K.RAID_DISKSTATUS_MISSING
  · have hnF : config.diskstatus j ≠ K.RAID_DISKSTATUS_FAILED := by rw [h1]; exact hMF
    rw [if_pos h1]
    split_ifs
    · refine ⟨[_], set_led_then_ready_calls _ _ _ _ _ _, ?_, fun h => absurd h hnF⟩
      intro c hc
      rw [List.mem_singleton] at hc
      subst hc
      exact ⟨rfl, rfl, by simp [hnF, PICL_PROPVAL_ON, PICL_PROPVAL_OFF]⟩
    · exact ⟨[], by simp, by simp, fun h => absurd h hnF⟩
  · rw [if_neg h1]
    by_cases h2 : config.diskstatus j = K.RAID_DISKSTATUS_GOOD
    · have hnF : config.diskstatus j ≠ K.RAID_DISKSTATUS_FAILED := by rw [h2]; exact hGF
      rw [if_pos h2]
      split_ifs
      · refine ⟨[_], set_led_then_ready_calls _ _ _ _ _ _, ?_, fun h => absurd h hnF⟩
        intro c hc
        rw [List.mem_singleton] at hc
        subst hc
        exact ⟨rfl, rfl, by simp [hnF, PICL_PROPVAL_ON, PICL_PROPVAL_OFF]⟩
      · exact ⟨[], by simp, by simp, fun h => absurd h hnF⟩
    · rw [if_neg h2]
      by_cases h3 : config.diskstatus j = K.RAID_DISKSTATUS_FAILED
      · rw [if_pos h3]
        by_cases h4 : σ.disk_ready (config.disk j) = B_FALSE
        · rw [if_neg (not_not.mpr h4)]
          exact ⟨[], by simp, by simp, fun _ h => absurd h4 h⟩
        · rw [if_pos h4]
          refine ⟨[_], set_led_then_ready_calls _ _ _ _ _ _, ?_, fun _ _ => by simp⟩
          intro c hc
          rw [List.mem_singleton] at hc
          subst hc
          exact ⟨rfl, rfl, by simp [h3]⟩
      · rw [if_neg h3]
        exact ⟨[], by simp, by simp, fun h => absurd h h3⟩

/-- The entry of the disk one step looks at, when `set_led` succeeds. -/
theorem raid_ok2rem_step_ready (K : hdr) (L : led_env) (config : raid_config_t)
    (σ : led_state) (j : Nat)
    (hK : K.RAID_DISKSTATUS_MISSING ≠ K.RAID_DISKSTATUS_FAILED ∧
      K.RAID_DISKSTATUS_GOOD ≠ K.RAID_DISKSTATUS_FAILED)
    (hled : ∀ n a b c, L.set_led_rv n a b c = K.PICL_SUCCESS) :
    ((config.diskstatus j = K.RAID_DISKSTATUS_MISSING ∨
        config.diskstatus j = K.RAID_DISKSTATUS_GOOD ∨
        config.diskstatus j = K.RAID_DISKSTATUS_FAILED) →
      ((raid_ok2rem_step K L config σ j).disk_ready (config.disk j) = B_FALSE ↔
        config.diskstatus j = K.RAID_DISKSTATUS_FAILED)) ∧
    (¬ (config.diskstatus j = K.RAID_DISKSTATUS_MISSING ∨
        config.diskstatus j = K.RAID_DISKSTATUS_GOOD ∨
        config.diskstatus j = K.RAID_DISKSTATUS_FAILED) →
      (raid_ok2rem_step K L config σ j).disk_ready (config.disk j)
        = σ.disk_ready (config.disk j)) := by
  obtain ⟨hMF, hGF⟩ := hK
  have hTF : B_TRUE ≠ B_FALSE := by decide
  unfold raid_ok2rem_step
  simp only
  by_cases h1 : config.diskstatus j = K.RAID_DISKSTATUS_MISSING
  · have hnF : config.diskstatus j ≠ K.RAID_DISKSTATUS_FAILED := by rw [h1]; exact hMF
    rw [if_pos h1]
    refine ⟨fun _ => ?_, fun h => absurd (Or.inl h1) h⟩
    by_cases h4 : σ.disk_ready (config.disk j) = B_FALSE
    · rw [if_pos h4, set_led_then_ready_ok K L _ _ _ _ hled]
      simp [hnF, hTF]
    · rw [if_neg h4]
      simp [hnF, h4]
  · rw [if_neg h1]
    by_cases h2 : config.diskstatus j = K.RAID_DISKSTATUS_GOOD
    · have hnF : config.diskstatus j ≠ K.RAID_DISKSTATUS_FAILED := by rw [h2]; exact hGF
      rw [if_pos h2]
      refine ⟨fun _ => ?_, fun h => absurd (Or.inr (Or.inl h2)) h⟩
      by_cases h4 : σ.disk_ready (config.disk j) = B_TRUE
      · rw [if_neg (not_not.mpr h4)]
        simp [hnF, h4, hTF]
      · rw [if_pos h4, set_led_then_ready_ok K L _ _ _ _ hled]
        simp [hnF, hTF]
    · rw [if_neg h2]
      by_cases h3 : config.diskstatus j = K.RAID_DISKSTATUS_FAILED
      · rw [if_pos h3]
        refine ⟨fun _ => ?_, fun h => absurd (Or.inr (Or.inr h3)) h⟩
        by_cases h4 : σ.disk_ready (config.disk j) = B_FALSE
        · rw [if_neg (not_not.mpr h4)]
          simp [h3, h4]
        · rw [if_pos h4, set_led_then_ready_ok K L _ _ _ _ hled]
          simp [h3]
      · rw [if_neg h3]
        refine ⟨fun h => ?_, fun _ => rfl⟩
        rcases h with h | h | h
        · exact absurd h h1
        · exact absurd h h2
        · exact absurd h h3

theorem raid_ok2rem_fold_frame (K : hdr) (L : led_env) (config : raid_config_t) (x : Int) :
    ∀ (js : List Nat) (σ : led_state), (∀ j, j ∈ js → config.disk j ≠ x) →
      (js.foldl (raid_ok2rem_step K L config) σ).disk_ready x = σ.disk_ready x := by
  intro js
  induction js with
  | nil => intro σ _; rfl
  | cons j rest ih =>
    intro σ h
    rw [List.foldl_cons, ih _ (fun k hk => h k (List.mem_cons_of_mem _ hk))]
    exact raid_ok2rem_step_frame K L config σ j x (fun e => h j (List.mem_cons_self _ _) e.symm)

theorem raid_ok2rem_fold_calls (K : hdr) (L : led_env) (config : raid_config_t)
    (hK : K.RAID_DISKSTATUS_MISSING ≠ K.RAID_DISKSTATUS_FAILED ∧
      K.RAID_DISKSTATUS_GOOD ≠ K.RAID_DISKSTATUS_FAILED) :
    ∀ (js : List Nat) (σ : led_state),
      ∃ new, (js.foldl (raid_ok2rem_step K L config) σ).led_calls = σ.led_calls ++ new ∧
        ∀ c, c ∈ new → ∃ j, j ∈ js ∧ c.name = disk_name_at (config.disk j) ∧
          c.label = REMOK_LED ∧
          (c.value = PICL_PROPVAL_ON ↔ config.diskstatus j = K.RAID_DISKSTATUS_FAILED) := by
  intro js
  induction js with
  | nil => intro σ; exact ⟨[], by simp, by simp⟩
  | cons j rest ih =>
    intro σ
    obtain ⟨n1, e1, p1, _⟩ := raid_ok2rem_step_calls K L config σ j hK
    obtain ⟨n2, e2, p2⟩ := ih (raid_ok2rem_step K L config σ j)
    refine ⟨n1 ++ n2, ?_, ?_⟩
    · rw [List.foldl_cons, e2, e1, List.append_assoc]
    · intro c hc
      rcases List.mem_append.mp hc with hc | hc
      · exact ⟨j, List.mem_cons_self _ _, p1 c hc⟩
      · obtain ⟨k, hk, pk⟩ := p2 c hc
        exact ⟨k, List.mem_cons_of_mem _ hk, pk⟩

/-- The loop of `raid_ok2rem_policy` over a list of indices that name
pairwise different disks, seen from one of them. -/
theorem raid_ok2rem_fold_at (K : hdr) (L : led_env) (config : raid_config_t) (i : Nat)
    (hK : K.RAID_DISKSTATUS_MISSING ≠ K.RAID_DISKSTATUS_FAILED ∧
      K.RAID_DISKSTATUS_GOOD ≠ K.RAID_DISKSTATUS_FAILED)
    (hled : ∀ n a b c, L.set_led_rv n a b c = K.PICL_SUCCESS) :
    ∀ (js : List Nat) (σ : led_state), i ∈ js → js.Nodup →
      (∀ j k, j ∈ js → k ∈ js → config.disk j = config.disk k → j = k) →
      ((config.diskstatus i = K.RAID_DISKSTATUS_MISSING ∨
          config.diskstatus i = K.RAID_DISKSTATUS_GOOD ∨
          config.diskstatus i = K.RAID_DISKSTATUS_FAILED) →
        ((js.foldl (raid_ok2rem_step K L config) σ).disk_ready (config.disk i) = B_FALSE ↔
          config.diskstatus i = K.RAID_DISKSTATUS_FAILED)) ∧
      (¬ (config.diskstatus i = K.RAID_DISKSTATUS_MISSING ∨
          config.diskstatus i = K.RAID_DISKSTATUS_GOOD ∨
          config.diskstatus i = K.RAID_DISKSTATUS_FAILED) →
        (js.foldl (raid_ok2rem_step K L config) σ).disk_ready (config.disk i)
          = σ.disk_ready (config.disk i)) ∧
      (config.diskstatus i = K.RAID_DISKSTATUS_FAILED →
        σ.disk_ready (config.disk i) ≠ B_FALSE →
        ∀ new, (js.foldl (raid_ok2rem_step K L config) σ).led_calls = σ.led_calls ++ new →
          ({ name := disk_name_at (config.disk i), label := REMOK_LED,
             value := PICL_PROPVAL_ON } : led_call) ∈ new) := by
  intro js
  induction js with
  | nil => intro σ hi; exact absurd hi (List.not_mem_nil _)
  | cons j rest ih =>
    intro σ hi hnd hinj
    rw [List.nodup_cons] at hnd
    obtain ⟨hj, hnd⟩ := hnd
    have hinj' : ∀ a b, a ∈ rest → b ∈ rest → config.disk a = config.disk b → a = b :=
      fun a b ha hb => hinj a b (List.mem_cons_of_mem _ ha) (List.mem_cons_of_mem _ hb)
    rw [List.foldl_cons]
    rcases List.mem_cons.mp hi with hij | hir
    · subst hij
      have hfr : (rest.foldl (raid_ok2rem_step K L config) (raid_ok2rem_step K L config σ i)).disk_ready
            (config.disk i) = (raid_ok2rem_step K L config σ i).disk_ready (config.disk i) := by
        apply raid_ok2rem_fold_frame
        intro k hk e
        have := hinj k i (List.mem_cons_of_mem _ hk) (List.mem_cons_self _ _) e
        exact hj (this ▸ hk)
      rw [hfr]
      obtain ⟨s1, s2⟩ := raid_ok2rem_step_ready K L config σ i hK hled
      refine ⟨s1, s2, ?_⟩
      intro hF hne new hnew
      obtain ⟨n1, e1, _, q1⟩ := raid_ok2rem_step_calls K L config σ i hK
      obtain ⟨n2, e2, _⟩ := raid_ok2rem_fold_calls K L config hK rest
        (raid_ok2rem_step K L config σ i)
      rw [e2, e1, List.append_assoc] at hnew
      have : new = n1 ++ n2 := (List.append_cancel_left hnew).symm
      rw [this]
      exact List.mem_append_left _ (q1 hF hne)
    · have hne : config.disk i ≠ config.disk j := by
        intro e
        have := hinj i j (List.mem_cons_of_mem _ hir) (List.mem_cons_self _ _) e
        exact hj (this ▸ hir)
      obtain ⟨r1, r2, r3⟩ := ih (raid_ok2rem_step K L config σ j) hir hnd hinj'
      have hfr := raid_ok2rem_step_frame K L config σ j (config.disk i) hne
      refine ⟨r1, ?_, ?_⟩
      · intro h
        rw [r2 h, hfr]
      · intro hF hnb new hnew
        obtain ⟨n1, e1, _, _⟩ := raid_ok2rem_step_calls K L config σ j hK
        obtain ⟨n2, e2, _⟩ := raid_ok2rem_fold_calls K L config hK rest
          (raid_ok2rem_step K L config σ j)
        have hin := r3 hF (by rw [hfr]; exact hnb) n2 e2
        rw [e2, e1, List.append_assoc] at hnew
        have : new = n1 ++ n2 := (List.append_cancel_left hnew).symm
        rw [this]
        exact List.mem_append_right _ hin

/-- The calls one step makes are for the disk of that index, are made only for
a status that is one of MISSING, GOOD and FAILED, and carry "OFF" unless the
status is FAILED. -/
theorem raid_ok2rem_step_calls_status (K : hdr) (L : led_env) (config : raid_config_t)
    (σ : led_state) (j : Nat) :
    ∃ new, (raid_ok2rem_step K L config σ j).led_calls = σ.led_calls ++ new ∧
      ∀ c, c ∈ new → c.name = disk_name_at (config.disk j) ∧
        (config.diskstatus j = K.RAID_DISKSTATUS_MISSING ∨
          config.diskstatus j = K.RAID_DISKSTATUS_GOOD ∨
          config.diskstatus j = K.RAID_DISKSTATUS_FAILED) ∧
        (config.diskstatus j ≠ K.RAID_DISKSTATUS_FAILED → c.value = PICL_PROPVAL_OFF) := by
  unfold raid_ok2rem_step
  simp only
  by_cases h1 : config.diskstatus j = K.RAID_DISKSTATUS_MISSING
  · rw [if_pos h1]
    split_ifs
    · refine ⟨[_], set_led_then_ready_calls _ _ _ _ _ _, ?_⟩
      intro c hc
      rw [List.mem_singleton] at hc
      subst hc
      exact ⟨rfl, Or.inl h1, fun _ => rfl⟩
    · exact ⟨[], by simp, by simp⟩
  · rw [if_neg h1]
    by_cases h2 : config.diskstatus j = K.RAID_DISKSTATUS_GOOD
    · rw [if_pos h2]
      split_ifs
      · refine ⟨[_], set_led_then_ready_calls _ _ _ _ _ _, ?_⟩
        intro c hc
        rw [List.mem_singleton] at hc
        subst hc
        exact ⟨rfl, Or.inr (Or.inl h2), fun _ => rfl⟩
      · exact ⟨[], by simp, by simp⟩
    · rw [if_neg h2]
      by_cases h3 : config.diskstatus j = K.RAID_DISKSTATUS_FAILED
      · rw [if_pos h3]
        split_ifs
        · refine ⟨[_], set_led_then_ready_calls _ _ _ _ _ _, ?_⟩
          intro c hc
          rw [List.mem_singleton] at hc
          subst hc
          exact ⟨rfl, Or.inr (Or.inr h3), fun h => absurd h3 h⟩
        · exact ⟨[], by simp, by simp⟩
      · rw [if_neg h3]
        exact ⟨[], by simp, by simp⟩

/-- The calls the loop of `raid_ok2rem_policy` makes: each is for the disk of
one of the indices, whose status is one of MISSING, GOOD and FAILED, and
carries "OFF" unless that status is FAILED. -/
theorem raid_ok2rem_fold_calls_status (K : hdr) (L : led_env) (config : raid_config_t) :
    ∀ (js : List Nat) (σ : led_state),
      ∃ new, (js.foldl (raid_ok2rem_step K L config) σ).led_calls = σ.led_calls ++ new ∧
        ∀ c, c ∈ new → ∃ j, j ∈ js ∧ c.name = disk_name_at (config.disk j) ∧
          (config.diskstatus j = K.RAID_DISKSTATUS_MISSING ∨
            config.diskstatus j = K.RAID_DISKSTATUS_GOOD ∨
            config.diskstatus j = K.RAID_DISKSTATUS_FAILED) ∧
          (config.diskstatus j ≠ K.RAID_DISKSTATUS_FAILED →
            c.value = PICL_PROPVAL_OFF) := by
  intro js
  induction js with
  | nil => intro σ; exact ⟨[], by simp, by simp⟩
  | cons j rest ih =>
    intro σ
    obtain ⟨n1, e1, p1⟩ := raid_ok2rem_step_calls_status K L config σ j
    obtain ⟨n2, e2, p2⟩ := ih (raid_ok2rem_step K L config σ j)
    refine ⟨n1 ++ n2, ?_, ?_⟩
    · rw [List.foldl_cons, e2, e1, List.append_assoc]
    · intro c hc
      rcases List.mem_append.mp hc with hc | hc
      · exact ⟨j, List.mem_cons_self _ _, p1 c hc⟩
      · obtain ⟨k, hk, pk⟩ := p2 c hc
        exact ⟨k, List.mem_cons_of_mem _ hk, pk⟩

/-- C3, as amended.  For every RAID configuration and every disk listed in it
(indices pairwise different and below N_DISKS, `set_led` succeeding): when
the driver reports the status of the disk as one of RAID_DISKSTATUS_MISSING,
GOOD or FAILED, after `raid_ok2rem_policy` the OK2RM LED of that disk is
recorded as lit (`disk_ready[d] == B_FALSE`) if and only if the status is
FAILED, whatever `disk_ready[d]` was before; every `set_led` call the policy
makes for that disk is for the OK2RM LED and carries "ON" exactly when the
status is FAILED and "OFF" otherwise, and such a call is made when the status
is FAILED and the LED was not yet recorded as lit.  With any other status the
`switch` takes its default case: `disk_ready[d]` is left as it was and no
`set_led` call is made for the disk. -/
theorem raid_ok2rem_policy_lit_iff_failed (K : hdr) (L : led_env) (config : raid_config_t)
    (σ : led_state) (i : Nat)
    (hK : K.RAID_DISKSTATUS_MISSING ≠ K.RAID_DISKSTATUS_FAILED ∧
      K.RAID_DISKSTATUS_GOOD ≠ K.RAID_DISKSTATUS_FAILED)
    (hi : (i : Int) < config.ndisks)
    (hdistinct : ∀ j k : Nat, (j : Int) < config.ndisks → (k : Int) < config.ndisks →
      config.disk j = config.disk k → j = k)
    (hbelow : ∀ j : Nat, (j : Int) < config.ndisks →
      0 ≤ config.disk j ∧ config.disk j < N_DISKS)
    (hled : ∀ n a b c, L.set_led_rv n a b c = K.PICL_SUCCESS) :
    ((config.diskstatus i = K.RAID_DISKSTATUS_MISSING ∨
        config.diskstatus i = K.RAID_DISKSTATUS_GOOD ∨
        config.diskstatus i = K.RAID_DISKSTATUS_FAILED) →
      ((raid_ok2rem_policy K L config σ).disk_ready (config.disk i) = B_FALSE ↔
        config.diskstatus i = K.RAID_DISKSTATUS_FAILED)) ∧
    (¬ (config.diskstatus i = K.RAID_DISKSTATUS_MISSING ∨
        config.diskstatus i = K.RAID_DISKSTATUS_GOOD ∨
        config.diskstatus i = K.RAID_DISKSTATUS_FAILED) →
      (raid_ok2rem_policy K L config σ).disk_ready (config.disk i)
        = σ.disk_ready (config.disk i)) ∧
    (∃ new, (raid_ok2rem_policy K L config σ).led_calls = σ.led_calls ++ new ∧
      (∀ c, c ∈ new → c.name = disk_name_at (config.disk i) →
        c.label = REMOK_LED ∧
        (c.value = PICL_PROPVAL_ON ↔ config.diskstatus i = K.RAID_DISKSTATUS_FAILED)) ∧
      (config.diskstatus i = K.RAID_DISKSTATUS_FAILED →
        σ.disk_ready (config.disk i) ≠ B_FALSE →
        ({ name := disk_name_at (config.disk i), label := REMOK_LED,
           value := PICL_PROPVAL_ON } : led_call) ∈ new) ∧
      (¬ (config.diskstatus i = K.RAID_DISKSTATUS_MISSING ∨
          config.diskstatus i = K.RAID_DISKSTATUS_GOOD ∨
          config.diskstatus i = K.RAID_DISKSTATUS_FAILED) →
        ∀ c, c ∈ new → c.name ≠ disk_name_at (config.disk i)) ∧
      (∀ c, c ∈ new → c.name = disk_name_at (config.disk i) →
        config.diskstatus i ≠ K.RAID_DISKSTATUS_FAILED → c.value = PICL_PROPVAL_OFF)) := by
  have hmem : ∀ j : Nat, j ∈ List.range config.ndisks.toNat ↔ (j : Int) < config.ndisks := by
    intro j
    rw [List.mem_range]
    omega
  have hinj : ∀ j k, j ∈ List.range config.ndisks.toNat → k ∈ List.range config.ndisks.toNat →
      config.disk j = config.disk k → j = k :=
    fun j k hj hk => hdistinct j k ((hmem j).mp hj) ((hmem k).mp hk)
  obtain ⟨r1, r2, r3⟩ := raid_ok2rem_fold_at K L config i hK hled
    (List.range config.ndisks.toNat) σ ((hmem i).mpr hi) (List.nodup_range _) hinj
  obtain ⟨new, enew, pnew⟩ := raid_ok2rem_fold_calls K L config hK
    (List.range config.ndisks.toNat) σ
  obtain ⟨new2, enew2, pnew2⟩ := raid_ok2rem_fold_calls_status K L config
    (List.range config.ndisks.toNat) σ
  have hsame : new2 = new := List.append_cancel_left (enew2.symm.trans enew)
  subst hsame
  have hidx : ∀ j : Nat, j ∈ List.range config.ndisks.toNat →
      disk_name_at (config.disk j) = disk_name_at (config.disk i) → j = i := by
    intro j hj hname
    apply hdistinct j i ((hmem j).mp hj) hi
    exact disk_name_at_inj _ _ (hbelow j ((hmem j).mp hj)) (hbelow i hi) hname
  refine ⟨r1, r2, new2, enew, ?_, fun hF hne => r3 hF hne new2 enew, ?_, ?_⟩
  · intro c hc hname
    obtain ⟨j, hj, pn, pl, pv⟩ := pnew c hc
    have hji : j = i := hidx j hj (by rw [← pn, hname])
    subst hji
    exact ⟨pl, pv⟩
  · intro hother c hc hname
    obtain ⟨j, hj, pn, pthree, _⟩ := pnew2 c hc
    have hji : j = i := hidx j hj (by rw [← pn, hname])
    subst hji
    exact hother pthree
  · intro c hc hname hnF
    obtain ⟨j, hj, pn, _, poff⟩ := pnew2 c hc
    have hji : j = i := hidx j hj (by rw [← pn, hname])
    subst hji
    exact poff hnF

/-- Witness of C3: the mirror of disks 0 and 1 with disk 1 failed, from the
state `disk_leds_init` leaves; disk 1 ends recorded as lit. -/
theorem raid_ok2rem_policy_lit_iff_failed_witness :
    (raid_ok2rem_policy hdr_sample (led_env_sample raid_mirror_sample) raid_mirror_sample
        led_state_init).disk_ready 1 = B_FALSE :=
  ((raid_ok2rem_policy_lit_iff_failed hdr_sample (led_env_sample raid_mirror_sample)
      raid_mirror_sample led_state_init 1 (by decide) (by decide)
      (by
        intro j k hj hk
        have hj2 : j < 2 := by simpa [raid_mirror_sample] using hj
        have hk2 : k < 2 := by simpa [raid_mirror_sample] using hk
        interval_cases j <;> interval_cases k <;> simp [raid_mirror_sample])
      (by
        intro j hj
        have hj2 : j < 2 := by simpa [raid_mirror_sample] using hj
        interval_cases j <;> simp [raid_mirror_sample, N_DISKS])
      (fun _ _ _ _ => rfl)).1 (Or.inr (Or.inr rfl))).mpr rfl

/-- Counterexample to C3 as stated: the single listed disk 0 has a status that
is none of MISSING, GOOD, FAILED and `disk_ready[0]` was B_FALSE before the
call; `set_led` succeeds, the index is below N_DISKS, and afterwards the LED
is still recorded as lit although the status is not FAILED. -/
theorem raid_ok2rem_policy_other_status_stays_lit :
    ((0 : Int) < raid_single_sample.ndisks ∧
      (0 ≤ raid_single_sample.disk 0 ∧ raid_single_sample.disk 0 < N_DISKS) ∧
      (led_env_sample raid_single_sample).set_led_rv 0 [] [] [] = hdr_sample.PICL_SUCCESS) ∧
    ¬ ((raid_ok2rem_policy hdr_sample (led_env_sample raid_single_sample) raid_single_sample
          { led_state_init with disk_ready := fun _ => B_FALSE }).disk_ready
            (raid_single_sample.disk 0) = B_FALSE ↔
        raid_single_sample.diskstatus 0 = hdr_sample.RAID_DISKSTATUS_FAILED) := by
  decide

/-! ## One pass of disk_leds_thread -/

theorem raid_ok2rem_step_visits (K : hdr) (L : led_env) (config : raid_config_t)
    (σ : led_state) (j : Nat) :
    (raid_ok2rem_step K L config σ j).visits
      = σ.visits ++ [policy_visit.raid (config.disk j)] := by
  unfold raid_ok2rem_step
  simp only
  split_ifs <;> rfl

theorem raid_ok2rem_fold_visits (K : hdr) (L : led_env) (config : raid_config_t) :
    ∀ (js : List Nat) (σ : led_state),
      (js.foldl (raid_ok2rem_step K L config) σ).visits
        = σ.visits ++ js.map (fun j : Nat => policy_visit.raid (config.disk j)) := by
  intro js
  induction js with
  | nil => intro σ; simp
  | cons j rest ih =>
    intro σ
    rw [List.foldl_cons, ih, raid_ok2rem_step_visits, List.map_cons, List.append_assoc]
    rfl

theorem disk_leds_step_visits (K : hdr) (L : led_env) (plat : Int) (rdsk0 rdsk1 : Int)
    (σ : led_state) (i : Nat) :
    (disk_leds_step K L plat rdsk0 rdsk1 σ i).visits
      = σ.visits ++ (if (i : Int) = rdsk0 ∨ (i : Int) = rdsk1 then []
          else [policy_visit.dflt i]) := by
  unfold disk_leds_step
  by_cases h : (i : Int) = rdsk0 ∨ (i : Int) = rdsk1
  · rw [if_pos h, if_pos h, List.append_nil]
  · rw [if_neg h, if_neg h]
    simp only
    cases L.getstate (thread_ddev plat i) <;> simp only <;> split_ifs <;> rfl

theorem disk_leds_fold_visits (K : hdr) (L : led_env) (plat : Int) (rdsk0 rdsk1 : Int) :
    ∀ (js : List Nat) (σ : led_state),
      (js.foldl (disk_leds_step K L plat rdsk0 rdsk1) σ).visits
        = σ.visits ++ (js.filter (fun i : Nat => ¬ ((i : Int) = rdsk0 ∨ (i : Int) = rdsk1))).map
            (fun i : Nat => policy_visit.dflt i) := by
  intro js
  induction js with
  | nil => intro σ; simp
  | cons j rest ih =>
    intro σ
    rw [List.foldl_cons, ih, disk_leds_step_visits, List.append_assoc]
    congr 1
    by_cases h : (j : Int) = rdsk0 ∨ (j : Int) = rdsk1
    · rw [if_pos h, List.filter_cons_of_neg (by simp only [decide_not, Bool.not_eq_true', decide_eq_false_iff_not, not_not]; exact h)]
      rfl
    · rw [if_neg h, List.filter_cons_of_pos (by simpa using h)]
      rfl

/-- The head of a pass, by cases: a volume is recorded exactly when RAID is
handled on the platform, `get_raid_config` returns 0 and `ndisks` is not 0. -/
theorem disk_leds_pass_raid_eq (K : hdr) (L : led_env) (plat : Int) (σ : led_state) :
    disk_leds_pass_raid K L plat σ =
      if thread_do_raid plat = true ∧ (get_raid_config plat L).1 = 0 ∧
          (get_raid_config plat L).2.ndisks ≠ 0 then
        ((get_raid_config plat L).2.disk 0, (get_raid_config plat L).2.disk 1,
          raid_ok2rem_policy K L (get_raid_config plat L).2 σ)
      else (-1, -1, σ) := by
  unfold disk_leds_pass_raid
  simp only
  by_cases h1 : thread_do_raid plat = true
  · rw [if_pos h1]
    unfold check_raid
    simp only
    by_cases h2 : (get_raid_config plat L).1 = 0
    · rw [if_pos h2]
      by_cases h3 : (get_raid_config plat L).2.ndisks ≠ 0
      · rw [if_pos h3, if_pos ⟨h1, h2, h3⟩]
      · rw [if_neg h3, if_neg (fun h => h3 h.2.2)]
    · rw [if_neg h2, if_neg (fun h => h2 h.2.1)]
  · rw [if_neg h1, if_neg (fun h => h1 h.1)]

/-- The visits of one pass: the RAID policy visits the disks listed in an
existing volume, then the default policy visits every index below `n_disks`
that is neither `rdsk0` nor `rdsk1`. -/
theorem disk_leds_pass_visits (K : hdr) (L : led_env) (plat : Int) (σ : led_state) :
    (disk_leds_pass K L plat σ).visits =
      σ.visits ++
      (if thread_do_raid plat = true ∧ (get_raid_config plat L).1 = 0 ∧
            (get_raid_config plat L).2.ndisks ≠ 0 then
          (List.range (get_raid_config plat L).2.ndisks.toNat).map
              (fun j : Nat => policy_visit.raid ((get_raid_config plat L).2.disk j)) ++
          ((List.range (thread_n_disks plat)).filter
              (fun i : Nat => ¬ ((i : Int) = (get_raid_config plat L).2.disk 0 ∨
                           (i : Int) = (get_raid_config plat L).2.disk 1))).map
              (fun i : Nat => policy_visit.dflt i)
        else
          (List.range (thread_n_disks plat)).map (fun i : Nat => policy_visit.dflt i)) := by
  have hall : ∀ js : List Nat,
      js.filter (fun i : Nat => ¬ ((i : Int) = -1 ∨ (i : Int) = -1)) = js := by
    intro js
    apply List.filter_eq_self.mpr
    intro i _
    have : ¬ ((i : Int) = -1) := by omega
    simp [this]
  unfold disk_leds_pass
  simp only
  rw [disk_leds_pass_raid_eq]
  split_ifs with h
  · rw [disk_leds_fold_visits]
    unfold raid_ok2rem_policy
    rw [raid_ok2rem_fold_visits, List.append_assoc]
  · rw [disk_leds_fold_visits, hall]

theorem disk_leds_step_frame (K : hdr) (L : led_env) (plat : Int) (rdsk0 rdsk1 : Int)
    (σ : led_state) (j : Nat) (x : Int) (hx : x ≠ (j : Int)) :
    (disk_leds_step K L plat rdsk0 rdsk1 σ j).disk_ready x = σ.disk_ready x := by
  unfold disk_leds_step
  split_ifs with h
  · rfl
  · simp only
    cases L.getstate (thread_ddev plat j) <;> simp only <;> split_ifs <;>
      first | rfl | (rw [set_led_then_ready_frame _ _ _ _ _ _ _ hx])

theorem disk_leds_fold_frame (K : hdr) (L : led_env) (plat : Int) (rdsk0 rdsk1 : Int)
    (x : Int) :
    ∀ (js : List Nat) (σ : led_state), (∀ j, j ∈ js → x ≠ (j : Int)) →
      (js.foldl (disk_leds_step K L plat rdsk0 rdsk1) σ).disk_ready x = σ.disk_ready x := by
  intro js
  induction js with
  | nil => intro σ _; rfl
  | cons j rest ih =>
    intro σ h
    rw [List.foldl_cons, ih _ (fun k hk => h k (List.mem_cons_of_mem _ hk))]
    exact disk_leds_step_frame K L plat rdsk0 rdsk1 σ j x (h j (List.mem_cons_self _ _))

/-- The default policy at an index it does not skip, when `set_led` succeeds
and the device state `s` is delivered: off line gives B_FALSE, otherwise on
line gives B_TRUE. -/
theorem disk_leds_step_ready (K : hdr) (L : led_env) (plat : Int) (rdsk0 rdsk1 : Int)
    (σ : led_state) (i : Nat) (s : Nat)
    (hskip : ¬ ((i : Int) = rdsk0 ∨ (i : Int) = rdsk1))
    (hled : ∀ n a b c, L.set_led_rv n a b c = K.PICL_SUCCESS)
    (hs : L.getstate (thread_ddev plat i) = some s) :
    (s &&& K.DEVICE_OFFLINE ≠ 0 →
      (disk_leds_step K L plat rdsk0 rdsk1 σ i).disk_ready i = B_FALSE) ∧
    (s &&& K.DEVICE_OFFLINE = 0 → s &&& K.DEVICE_ONLINE ≠ 0 →
      (disk_leds_step K L plat rdsk0 rdsk1 σ i).disk_ready i = B_TRUE) := by
  unfold disk_leds_step
  rw [if_neg hskip, hs]
  simp only
  refine ⟨?_, ?_⟩
  · intro hoff
    rw [if_pos hoff]
    by_cases h4 : σ.disk_ready i = B_FALSE
    · rw [if_neg (not_not.mpr h4)]; exact h4
    · rw [if_pos h4, set_led_then_ready_ok K L _ _ _ _ hled]
  · intro hoff hon
    rw [if_neg (not_not.mpr hoff), if_pos hon]
    by_cases h4 : σ.disk_ready i = B_TRUE
    · rw [if_neg (not_not.mpr h4)]; exact h4
    · rw [if_pos h4, set_led_then_ready_ok K L _ _ _ _ hled]

theorem disk_leds_fold_ready (K : hdr) (L : led_env) (plat : Int) (rdsk0 rdsk1 : Int)
    (i : Nat) (s : Nat)
    (hskip : ¬ ((i : Int) = rdsk0 ∨ (i : Int) = rdsk1))
    (hled : ∀ n a b c, L.set_led_rv n a b c = K.PICL_SUCCESS)
    (hs : L.getstate (thread_ddev plat i) = some s) :
    ∀ (js : List Nat) (σ : led_state), i ∈ js → js.Nodup →
      (s &&& K.DEVICE_OFFLINE ≠ 0 →
        (js.foldl (disk_leds_step K L plat rdsk0 rdsk1) σ).disk_ready i = B_FALSE) ∧
      (s &&& K.DEVICE_OFFLINE = 0 → s &&& K.DEVICE_ONLINE ≠ 0 →
        (js.foldl (disk_leds_step K L plat rdsk0 rdsk1) σ).disk_ready i = B_TRUE) := by
  intro js
  induction js with
  | nil => intro σ hi; exact absurd hi (List.not_mem_nil _)
  | cons j rest ih =>
    intro σ hi hnd
    rw [List.nodup_cons] at hnd
    obtain ⟨hj, hnd⟩ := hnd
    rw [List.foldl_cons]
    rcases List.mem_cons.mp hi with hij | hir
    · subst hij
      have hfr := disk_leds_fold_frame K L plat rdsk0 rdsk1 (i : Int) rest
        (disk_leds_step K L plat rdsk0 rdsk1 σ i)
        (fun k hk e => hj ((Int.ofNat_inj.mp e) ▸ hk))
      rw [hfr]
      exact disk_leds_step_ready K L plat rdsk0 rdsk1 σ i s hskip hled hs
    · exact ih _ hir hnd

/-- The two policies on the passes that the code handles the way its comment
says.  In a pass of `disk_leds_thread` in which `check_raid` records no volume
(RAID is not handled on the platform, `get_raid_config` fails, or `ndisks` is
0) or records a volume of exactly two member disks, a disk index
`i < n_disks` is handled by the default OK2RM policy if and only if the RAID
policy was not applied to that disk in the same pass; when no volume is
recorded every index is handled by the default policy and none by the RAID
policy.  The default policy skips the indices equal to `disk[0]` or `disk[1]`
of a recorded volume, and where it handles a disk whose state is delivered
and `set_led` succeeds, OFFLINE leaves `disk_ready` B_FALSE and otherwise
ONLINE leaves it B_TRUE. -/
theorem disk_leds_pass_policies (K : hdr) (L : led_env) (plat : Int) (σ : led_state)
    (hshape : thread_do_raid plat = false ∨ (get_raid_config plat L).1 ≠ 0 ∨
      (get_raid_config plat L).2.ndisks = 0 ∨ (get_raid_config plat L).2.ndisks = 2) :
    ∃ new, (disk_leds_pass K L plat σ).visits = σ.visits ++ new ∧
      (∀ i : Nat, i < thread_n_disks plat →
        (policy_visit.dflt i ∈ new ↔ policy_visit.raid i ∉ new)) ∧
      ((thread_do_raid plat = false ∨ (get_raid_config plat L).1 ≠ 0 ∨
          (get_raid_config plat L).2.ndisks = 0) →
        ∀ i : Nat, i < thread_n_disks plat →
          policy_visit.dflt i ∈ new ∧ ∀ d, policy_visit.raid d ∉ new) ∧
      (∀ i : Nat, i < thread_n_disks plat →
        (policy_visit.dflt i ∈ new ↔
          ¬ ((thread_do_raid plat = true ∧ (get_raid_config plat L).1 = 0 ∧
                (get_raid_config plat L).2.ndisks ≠ 0) ∧
              ((i : Int) = (get_raid_config plat L).2.disk 0 ∨
               (i : Int) = (get_raid_config plat L).2.disk 1)))) ∧
      (∀ i : Nat, i < thread_n_disks plat → policy_visit.dflt i ∈ new →
        (∀ n a b c, L.set_led_rv n a b c = K.PICL_SUCCESS) →
        ∀ s, L.getstate (thread_ddev plat i) = some s →
          (s &&& K.DEVICE_OFFLINE ≠ 0 →
            (disk_leds_pass K L plat σ).disk_ready i = B_FALSE) ∧
          (s &&& K.DEVICE_OFFLINE = 0 → s &&& K.DEVICE_ONLINE ≠ 0 →
            (disk_leds_pass K L plat σ).disk_ready i = B_TRUE)) := by
  refine ⟨_, disk_leds_pass_visits K L plat σ, ?_⟩
  have hskipped : ∀ i : Nat, i < thread_n_disks plat → ∀ new',
      new' = (if thread_do_raid plat = true ∧ (get_raid_config plat L).1 = 0 ∧
            (get_raid_config plat L).2.ndisks ≠ 0 then
          (List.range (get_raid_config plat L).2.ndisks.toNat).map
              (fun j : Nat => policy_visit.raid ((get_raid_config plat L).2.disk j)) ++
          ((List.range (thread_n_disks plat)).filter
              (fun i : Nat => ¬ ((i : Int) = (get_raid_config plat L).2.disk 0 ∨
                           (i : Int) = (get_raid_config plat L).2.disk 1))).map
              (fun i : Nat => policy_visit.dflt i)
        else
          (List.range (thread_n_disks plat)).map (fun i : Nat => policy_visit.dflt i)) →
      (policy_visit.dflt i ∈ new' ↔
        ¬ ((thread_do_raid plat = true ∧ (get_raid_config plat L).1 = 0 ∧
              (get_raid_config plat L).2.ndisks ≠ 0) ∧
            ((i : Int) = (get_raid_config plat L).2.disk 0 ∨
             (i : Int) = (get_raid_config plat L).2.disk 1))) := by
    intro i hi new' hnew'
    subst hnew'
    split_ifs with h
    · simp only [List.mem_append, List.mem_map, List.mem_filter, List.mem_range,
        reduceCtorEq, and_false, exists_false, false_or, policy_visit.dflt.injEq,
        Nat.cast_inj, decide_not, Bool.not_eq_true', decide_eq_false_iff_not]
      constructor
      · rintro ⟨a, ⟨_, ha⟩, rfl⟩ ⟨_, hh⟩
        exact ha hh
      · intro hh
        exact ⟨i, ⟨hi, fun e => hh ⟨h, e⟩⟩, rfl⟩
    · simp only [List.mem_map, List.mem_range, policy_visit.dflt.injEq, Nat.cast_inj]
      constructor
      · rintro _ ⟨hh, _⟩
        exact h hh
      · intro _
        exact ⟨i, hi, rfl⟩
  refine ⟨?_, ?_, fun i hi => hskipped i hi _ rfl, ?_⟩
  · intro i hi
    rw [hskipped i hi _ rfl]
    by_cases h : thread_do_raid plat = true ∧ (get_raid_config plat L).1 = 0 ∧
        (get_raid_config plat L).2.ndisks ≠ 0
    · have h2 : (get_raid_config plat L).2.ndisks = 2 := by
        rcases hshape with h' | h' | h' | h'
        · rw [h.1] at h'; exact absurd h' (by decide)
        · exact absurd h.2.1 h'
        · exact absurd h' h.2.2
        · exact h'
      rw [if_pos h, h2]
      simp only [h, true_and, List.mem_append, List.mem_map, List.mem_filter, List.mem_range,
        reduceCtorEq, and_false, exists_false, or_false, policy_visit.raid.injEq]
      constructor
      · rintro hn ⟨a, ha, e⟩
        have ha2 : a < 2 := ha
        interval_cases a
        · exact hn ⟨by decide, Or.inl e.symm⟩
        · exact hn ⟨by decide, Or.inr e.symm⟩
      · rintro hn ⟨_, e | e⟩
        · exact hn ⟨0, by decide, e.symm⟩
        · exact hn ⟨1, by decide, e.symm⟩
    · rw [if_neg h]
      simp [h]
  · intro hno i hi
    have h : ¬ (thread_do_raid plat = true ∧ (get_raid_config plat L).1 = 0 ∧
        (get_raid_config plat L).2.ndisks ≠ 0) := by
      rintro ⟨h1, h2, h3⟩
      rcases hno with h' | h' | h'
      · rw [h1] at h'; exact absurd h' (by decide)
      · exact h' h2
      · exact h3 h'
    rw [if_neg h]
    simp only [List.mem_map, List.mem_range, policy_visit.dflt.injEq, Nat.cast_inj,
      reduceCtorEq, and_false, exists_false, not_false_eq_true, implies_true, and_true]
    exact ⟨i, hi, rfl⟩
  · intro i hi hin hled s hs
    have hskip := (hskipped i hi _ rfl).mp hin
    unfold disk_leds_pass
    simp only
    apply disk_leds_fold_ready K L plat _ _ i s _ hled hs _ _
      (List.mem_range.mpr hi) (List.nodup_range _)
    rw [disk_leds_pass_raid_eq]
    split_ifs with h
    · exact fun hh => hskip ⟨h, hh⟩
    · simp only
      omega

/-- The passes of a V440 whose driver reports the mirror of disks 0 and 1 are
among those of `disk_leds_pass_policies`. -/
theorem disk_leds_pass_policies_witness :
    (get_raid_config PLAT_CHALUPA (led_env_sample raid_mirror_sample)).2.ndisks = 2 ∧
    ∃ new, (disk_leds_pass hdr_sample (led_env_sample raid_mirror_sample) PLAT_CHALUPA
        led_state_init).visits = led_state_init.visits ++ new ∧
      ∀ i : Nat, i < thread_n_disks PLAT_CHALUPA →
        (policy_visit.dflt i ∈ new ↔ policy_visit.raid i ∉ new) :=
  ⟨by decide,
    (disk_leds_pass_policies hdr_sample (led_env_sample raid_mirror_sample) PLAT_CHALUPA
      led_state_init (Or.inr (Or.inr (Or.inr (by decide))))).imp
      (fun _ h => ⟨h.1, h.2.1⟩)⟩

/-- C4 at a failing input.  On a V440 (four disks) on which every disk is on
line and `set_led` succeeds, the driver reports a volume with `ndisks == 1`
whose `disk` array holds 0 and 1.  `check_raid` hands back `disk[0]` and
`disk[1]`, and `raid_ok2rem_policy` looks at `disk[0]` only: in the pass the
RAID policy is applied to disk 0, the default policy to disks 2 and 3, and
disk 1 is handled by neither policy, so that no `set_led` call is made for
"HDD1" and `disk_ready[1]` keeps the -1 of `disk_leds_init`.  With a volume of
the three disks 0, 1 and 2 the RAID policy is applied to all three and the
default policy skips 0 and 1 only, so that disk 2 receives both policies. -/
theorem disk_leds_pass_one_disk_volume_skips_unlisted :
    1 < thread_n_disks PLAT_CHALUPA ∧
    (disk_leds_pass hdr_sample (led_env_sample raid_one_disk_sample) PLAT_CHALUPA
        led_state_init).visits
      = [policy_visit.raid 0, policy_visit.dflt 2, policy_visit.dflt 3] ∧
    ¬ (policy_visit.dflt 1 ∈ (disk_leds_pass hdr_sample (led_env_sample raid_one_disk_sample)
          PLAT_CHALUPA led_state_init).visits ↔
        policy_visit.raid 1 ∉ (disk_leds_pass hdr_sample (led_env_sample raid_one_disk_sample)
          PLAT_CHALUPA led_state_init).visits) ∧
    (disk_leds_pass hdr_sample (led_env_sample raid_one_disk_sample) PLAT_CHALUPA
        led_state_init).led_calls
      = [{ name := ['H', 'D', 'D', '0'], label := REMOK_LED, value := PICL_PROPVAL_OFF },
         { name := ['H', 'D', 'D', '2'], label := REMOK_LED, value := PICL_PROPVAL_OFF },
         { name := ['H', 'D', 'D', '3'], label := REMOK_LED, value := PICL_PROPVAL_OFF }] ∧
    (disk_leds_pass hdr_sample (led_env_sample raid_one_disk_sample) PLAT_CHALUPA
        led_state_init).disk_ready 1 = -1 ∧
    (disk_leds_pass hdr_sample (led_env_sample raid_three_disk_sample) PLAT_CHALUPA
        led_state_init).visits
      = [policy_visit.raid 0, policy_visit.raid 1, policy_visit.raid 2,
         policy_visit.dflt 2, policy_visit.dflt 3] := by
  decide

/-! ## frudr_evhandler: which attachment points are hot-plug devices -/

theorem strncmp_PS (ap : cstr) :
    strncmp_eq ap PS_NAME PS_NAME_LEN = true ↔ PS_NAME <+: ap :=
  strncmp_eq_iff_begins ap PS_NAME

theorem find_child_by_name_loop_zero (name : cstr) :
    ∀ l : List picl_node, (∀ n, n ∈ l → n.hdl ≠ 0) →
      (find_child_by_name_loop name l = 0 ↔ ∀ n, n ∈ l → n.name ≠ name) := by
  intro l
  induction l with
  | nil => intro _; simp [find_child_by_name_loop]
  | cons a rest ih =>
    intro hwf
    unfold find_child_by_name_loop
    have ih' := ih (fun n hn => hwf n (List.mem_cons_of_mem _ hn))
    by_cases h : name = a.name
    · have hs : strcmp_eq name a.name = true := by simp [strcmp_eq, h]
      rw [if_pos hs]
      constructor
      · intro h0
        exact absurd h0 (hwf a (List.mem_cons_self _ _))
      · intro hall
        exact absurd h.symm (hall a (List.mem_cons_self _ _))
    · have hs : ¬ strcmp_eq name a.name = true := by simp [strcmp_eq, h]
      rw [if_neg hs, ih']
      constructor
      · intro hall n hn
        rcases List.mem_cons.mp hn with e | hn
        · subst e; exact fun e => h e.symm
        · exact hall n hn
      · intro hall n hn
        exact hall n (List.mem_cons_of_mem _ hn)

theorem post_frudr_event_tree (K : hdr) (E : tree_env) (ename : cstr) (parenth fruh : Nat)
    (σ : picl_state) :
    (post_frudr_event K E ename parenth fruh σ).tree = σ.tree ∧
    (post_frudr_event K E ename parenth fruh σ).calls = σ.calls ∧
    (post_frudr_event K E ename parenth fruh σ).disk_ready = σ.disk_ready := by
  unfold post_frudr_event
  simp only
  split_ifs <;> exact ⟨rfl, rfl, rfl⟩

/-- The events `post_frudr_event` can leave: none, or the one event with the
handles that are not 0. -/
theorem post_frudr_event_posted (K : hdr) (E : tree_env) (ename : cstr) (parenth fruh : Nat)
    (σ : picl_state) :
    ((post_frudr_event K E ename parenth fruh σ).posted = σ.posted ∨
      (post_frudr_event K E ename parenth fruh σ).posted = σ.posted ++
        [{ ename := ename,
           nvl := (if fruh ≠ 0 then
                nvlist_add_uint64
                  (if parenth ≠ 0 then nvlist_add_uint64 [] K.PICLEVENTARG_PARENTHANDLE parenth
                   else []) K.PICLEVENTARG_FRUHANDLE fruh
              else (if parenth ≠ 0 then
                nvlist_add_uint64 [] K.PICLEVENTARG_PARENTHANDLE parenth else [])) }]) ∧
    ((E.strdup_ok = true ∧ E.nvlist_alloc_ok = true ∧
        (parenth ≠ 0 → E.nvlist_add_ok K.PICLEVENTARG_PARENTHANDLE = true) ∧
        (fruh ≠ 0 → E.nvlist_add_ok K.PICLEVENTARG_FRUHANDLE = true) ∧
        E.post_event_ok = true) →
      (post_frudr_event K E ename parenth fruh σ).posted = σ.posted ++
        [{ ename := ename,
           nvl := (if fruh ≠ 0 then
                nvlist_add_uint64
                  (if parenth ≠ 0 then nvlist_add_uint64 [] K.PICLEVENTARG_PARENTHANDLE parenth
                   else []) K.PICLEVENTARG_FRUHANDLE fruh
              else (if parenth ≠ 0 then
                nvlist_add_uint64 [] K.PICLEVENTARG_PARENTHANDLE parenth else [])) }]) ∧
    (¬ (E.strdup_ok = true ∧ E.nvlist_alloc_ok = true ∧
        (parenth ≠ 0 → E.nvlist_add_ok K.PICLEVENTARG_PARENTHANDLE = true) ∧
        (fruh ≠ 0 → E.nvlist_add_ok K.PICLEVENTARG_FRUHANDLE = true) ∧
        E.post_event_ok = true) →
      (post_frudr_event K E ename parenth fruh σ).posted = σ.posted) := by
  unfold post_frudr_event
  simp only
  refine ⟨?_, ?_, ?_⟩
  · split_ifs <;> first | exact Or.inl rfl | exact Or.inr rfl
  · rintro ⟨h1, h2, h3, h4, h5⟩
    rw [if_pos h1, if_pos h2, if_neg, if_neg, if_pos h5]
    · rintro ⟨a, b⟩
      rw [h4 a] at b
      exact absurd b (by decide)
    · rintro ⟨a, b⟩
      rw [h3 a] at b
      exact absurd b (by decide)
  · intro hn
    by_cases h1 : E.strdup_ok = true
    · rw [if_pos h1]
      by_cases h2 : E.nvlist_alloc_ok = true
      · rw [if_pos h2]
        by_cases h3 : parenth ≠ 0 ∧ E.nvlist_add_ok K.PICLEVENTARG_PARENTHANDLE = false
        · rw [if_pos h3]
        · rw [if_neg h3]
          by_cases h4 : fruh ≠ 0 ∧ E.nvlist_add_ok K.PICLEVENTARG_FRUHANDLE = false
          · rw [if_pos h4]
          · rw [if_neg h4]
            by_cases h5 : E.post_event_ok = true
            · exfalso
              apply hn
              refine ⟨h1, h2, ?_, ?_, h5⟩
              · intro a
                by_contra b
                exact h3 ⟨a, by simpa using b⟩
              · intro a
                by_contra b
                exact h4 ⟨a, by simpa using b⟩
            · rw [if_neg h5]
      · rw [if_neg h2]
    · rw [if_neg h1]

/-- The insert branch of `frudr_evhandler`, reached by a DR event for a
hot-plug id that is not the RMC, with a hint other than the remove hint and a
location node that exists. -/
theorem frudr_evhandler_insert_eq (K : hdr) (E : tree_env) (plat : Int)
    (idprop : Option idp_lkup_t) (nvlp : nvlist_t) (ap_id fru_name hint : cstr)
    (locnodeh : Nat) (s : picl_state)
    (hdt : nvlist_lookup_string nvlp K.PICLEVENTARG_DATA_TYPE
      = some K.PICLEVENTARG_PICLEVENT_DATA)
    (hap : nvlist_lookup_string nvlp K.PICLEVENTARG_AP_ID = some ap_id)
    (hfru : hotplug_fru_name ap_id = some (fru_name, false))
    (hhint : nvlist_lookup_string nvlp K.PICLEVENTARG_HINT = some hint)
    (hins : hint ≠ K.DR_HINT_REMOVE)
    (hloc : E.node_by_path (frudr_path K plat ap_id false) = some locnodeh) :
    frudr_evhandler K E plat idprop K.PICLEVENT_DR_AP_STATE_CHANGE (some nvlp) s =
      if find_child_by_name s.tree locnodeh fru_name ≠ 0 then some s
      else
        match ptree_create_and_add_node E s.tree locnodeh fru_name K.PICL_CLASS_FRU with
        | none => some s
        | some (T, childh) =>
          (if strncmp_eq ap_id PS_NAME PS_NAME_LEN then
              frudr_ps_inserted K E plat idprop ap_id childh { s with tree := T }
            else some { s with tree := T }).map
            (fun s' => post_frudr_event K E K.PICL_FRU_ADDED locnodeh 0 s') := by
  unfold frudr_evhandler
  have h1 : ¬ (strcmp_eq K.PICLEVENT_DR_AP_STATE_CHANGE K.PICLEVENT_DR_AP_STATE_CHANGE = false) := by
    simp [strcmp_eq]
  have h2 : ¬ (strcmp_eq K.PICLEVENTARG_PICLEVENT_DATA K.PICLEVENTARG_PICLEVENT_DATA = false) := by
    simp [strcmp_eq]
  have h3 : ¬ (strcmp_eq hint K.DR_HINT_REMOVE = true) := by
    simp [strcmp_eq, hins]
  rw [if_neg h1]
  simp only [hdt, if_neg h2, hap, hfru, hhint, hloc, if_neg h3]
  rfl

theorem ptree_fresh_ne_zero (T : ptree) : ptree_fresh T ≠ 0 := by
  unfold ptree_fresh
  omega

/-- What `add_ps_to_platform` does when it is given a unit address: nothing is
posted, and at most one node, a seeprom node below the platform node, is
added to the tree. -/
theorem add_ps_to_platform_some (K : hdr) (E : tree_env) (unit : cstr) (s : picl_state) :
    ∃ s', add_ps_to_platform K E (some unit) s = some s' ∧ s'.posted = s.posted ∧
      ∃ extra, s'.tree = s.tree ++ extra ∧ extra.length ≤ 1 ∧
        ∀ m, m ∈ extra → m.classname = K.PICL_CLASS_SEEPROM ∧ m.name = PS_PLATFORM_NAME ∧
          E.node_by_path PSU_PLATFORM = some m.parent ∧ m.hdl ≠ 0 := by
  unfold add_ps_to_platform
  simp only
  cases hp : E.node_by_path PSU_PLATFORM with
  | none => exact ⟨s, rfl, rfl, [], by simp, by simp, by simp⟩
  | some parent_hdl =>
    simp only
    by_cases ha : ((ptree_children s.tree parent_hdl).tail.any
        (fun c => decide (E.unit_address c.hdl = some unit))) = true
    · rw [if_pos ha]
      exact ⟨s, rfl, rfl, [], by simp, by simp, by simp⟩
    · rw [if_neg ha]
      unfold ptree_create_and_add_node
      by_cases hc : E.create_node_ok parent_hdl PS_PLATFORM_NAME K.PICL_CLASS_SEEPROM = true
      · rw [if_pos hc]
        simp only
        by_cases hi : E.init_propinfo_ok = true
        · rw [if_pos hi]
          refine ⟨_, rfl, rfl, [_], rfl, by simp, ?_⟩
          intro m hm
          rw [List.mem_singleton] at hm
          subst hm
          exact ⟨rfl, rfl, rfl, ptree_fresh_ne_zero _⟩
        · rw [if_neg hi]
          refine ⟨_, rfl, rfl, [_], rfl, by simp, ?_⟩
          intro m hm
          rw [List.mem_singleton] at hm
          subst hm
          exact ⟨rfl, rfl, rfl, ptree_fresh_ne_zero _⟩
      · rw [if_neg hc]
        exact ⟨s, rfl, rfl, [], by simp, by simp, by simp⟩

/-- The power-supply statements of the insert branch post nothing and add at
most the seeprom node of `add_ps_to_platform`. -/
theorem frudr_ps_inserted_some (K : hdr) (E : tree_env) (plat : Int)
    (idprop : Option idp_lkup_t) (ap_id : cstr) (childh : Nat) (s : picl_state)
    (hunit : (ps_name_to_unitaddr plat ap_id).isSome = true) :
    ∃ s', frudr_ps_inserted K E plat idprop ap_id childh s = some s' ∧
      s'.posted = s.posted ∧
      ∃ extra, s'.tree = s.tree ++ extra ∧ extra.length ≤ 1 ∧
        ∀ m, m ∈ extra → m.classname = K.PICL_CLASS_SEEPROM ∧ m.name = PS_PLATFORM_NAME ∧
          E.node_by_path PSU_PLATFORM = some m.parent ∧ m.hdl ≠ 0 := by
  obtain ⟨unit, hu⟩ := Option.isSome_iff_exists.mp hunit
  unfold frudr_ps_inserted
  simp only
  rw [hu]
  by_cases hx : 0 ≤ find_vol_prop_by_name idprop (ps_apid_to_nodename plat ap_id)
  · rw [if_pos hx]
    exact add_ps_to_platform_some K E unit _
  · rw [if_neg hx]
    exact add_ps_to_platform_some K E unit _

/-- C6, as amended.  For a hot-plug attachment point that is not the RMC and
whose location node exists, `frudr_evhandler` treats every hint other than
DR_HINT_REMOVE as an insert.  If the location already has an immediate child
named with the FRU name, no node is created and no event is posted.
Otherwise, when `ptree_create_and_add_node` fails nothing is created or
posted; when it succeeds (and, for a power supply, the id is one of those
with a unit address) exactly one node of class fru with that name is created
under the location (for a power supply at most one further node, a seeprom
node "power-supply-fru-prom" under the platform i2c node), and exactly one
PICL_FRU_ADDED event carrying the location as parent handle and no FRU handle
is posted provided `strdup`, `nvlist_alloc`, `nvlist_add_uint64` and
`ptree_post_event` succeed, none otherwise.  The insert is idempotent: the
same event handled again changes nothing. -/
theorem frudr_evhandler_insert (K : hdr) (E : tree_env) (plat : Int)
    (idprop : Option idp_lkup_t) (nvlp : nvlist_t) (ap_id fru_name hint : cstr)
    (locnodeh : Nat) (σ : picl_state)
    (hdt : nvlist_lookup_string nvlp K.PICLEVENTARG_DATA_TYPE
      = some K.PICLEVENTARG_PICLEVENT_DATA)
    (hap : nvlist_lookup_string nvlp K.PICLEVENTARG_AP_ID = some ap_id)
    (hfru : hotplug_fru_name ap_id = some (fru_name, false))
    (hhint : nvlist_lookup_string nvlp K.PICLEVENTARG_HINT = some hint)
    (hins : hint ≠ K.DR_HINT_REMOVE)
    (hloc : E.node_by_path (frudr_path K plat ap_id false) = some locnodeh)
    (hloc0 : locnodeh ≠ 0)
    (hwf : ∀ n, n ∈ σ.tree → n.hdl ≠ 0) :
    ((∃ n, n ∈ ptree_children σ.tree locnodeh ∧ n.name = fru_name) →
      frudr_evhandler K E plat idprop K.PICLEVENT_DR_AP_STATE_CHANGE (some nvlp) σ = some σ) ∧
    ((∀ n, n ∈ ptree_children σ.tree locnodeh → n.name ≠ fru_name) →
      (E.create_node_ok locnodeh fru_name K.PICL_CLASS_FRU = false →
        frudr_evhandler K E plat idprop K.PICLEVENT_DR_AP_STATE_CHANGE (some nvlp) σ
          = some σ) ∧
      (E.create_node_ok locnodeh fru_name K.PICL_CLASS_FRU = true →
        (PS_NAME <+: ap_id → (ps_name_to_unitaddr plat ap_id).isSome = true) →
        ∃ σ', frudr_evhandler K E plat idprop K.PICLEVENT_DR_AP_STATE_CHANGE (some nvlp) σ
            = some σ' ∧
          (∃ extra, σ'.tree = σ.tree ++
              { hdl := ptree_fresh σ.tree, parent := locnodeh, name := fru_name,
                classname := K.PICL_CLASS_FRU } :: extra ∧
            extra.length ≤ 1 ∧ (¬ PS_NAME <+: ap_id → extra = []) ∧
            ∀ m, m ∈ extra → m.classname = K.PICL_CLASS_SEEPROM ∧
              m.name = PS_PLATFORM_NAME ∧ E.node_by_path PSU_PLATFORM = some m.parent) ∧
          ((E.strdup_ok = true ∧ E.nvlist_alloc_ok = true ∧
              E.nvlist_add_ok K.PICLEVENTARG_PARENTHANDLE = true ∧ E.post_event_ok = true) →
            σ'.posted = σ.posted ++
              [{ ename := K.PICL_FRU_ADDED,
                 nvl := [(K.PICLEVENTARG_PARENTHANDLE, nvvalue.u64 locnodeh)] }]) ∧
          (¬ (E.strdup_ok = true ∧ E.nvlist_alloc_ok = true ∧
              E.nvlist_add_ok K.PICLEVENTARG_PARENTHANDLE = true ∧ E.post_event_ok = true) →
            σ'.posted = σ.posted) ∧
          frudr_evhandler K E plat idprop K.PICLEVENT_DR_AP_STATE_CHANGE (some nvlp) σ'
            = some σ')) := by
  have hthere : ∀ s : picl_state, (∀ n, n ∈ s.tree → n.hdl ≠ 0) →
      (∃ n, n ∈ ptree_children s.tree locnodeh ∧ n.name = fru_name) →
      frudr_evhandler K E plat idprop K.PICLEVENT_DR_AP_STATE_CHANGE (some nvlp) s = some s := by
    intro s hs ⟨n, hn, hname⟩
    rw [frudr_evhandler_insert_eq K E plat idprop nvlp ap_id fru_name hint locnodeh s
      hdt hap hfru hhint hins hloc]
    have hz := find_child_by_name_loop_zero fru_name (ptree_children s.tree locnodeh)
      (fun m hm => hs m (List.mem_of_mem_filter hm))
    have : find_child_by_name s.tree locnodeh fru_name ≠ 0 := by
      intro h0
      exact (hz.mp h0) n hn hname
    rw [if_pos this]
  refine ⟨hthere σ hwf, ?_⟩
  intro hnone
  have hz := find_child_by_name_loop_zero fru_name (ptree_children σ.tree locnodeh)
    (fun m hm => hwf m (List.mem_of_mem_filter hm))
  have h0 : ¬ find_child_by_name σ.tree locnodeh fru_name ≠ 0 :=
    not_not.mpr (hz.mpr hnone)
  rw [frudr_evhandler_insert_eq K E plat idprop nvlp ap_id fru_name hint locnodeh σ
    hdt hap hfru hhint hins hloc, if_neg h0]
  unfold ptree_create_and_add_node
  refine ⟨?_, ?_⟩
  · intro hc
    rw [if_neg (by rw [hc]; decide)]
  · intro hc hunit
    rw [if_pos hc]
    simp only
    -- the state handed to `post_frudr_event`
    have hmid : ∃ s', (if strncmp_eq ap_id PS_NAME PS_NAME_LEN = true then
          frudr_ps_inserted K E plat idprop ap_id (ptree_fresh σ.tree)
            { σ with tree := σ.tree ++
                [{ hdl := ptree_fresh σ.tree, parent := locnodeh, name := fru_name,
                   classname := K.PICL_CLASS_FRU }] }
        else some ({ σ with tree := σ.tree ++
                [{ hdl := ptree_fresh σ.tree, parent := locnodeh, name := fru_name,
                   classname := K.PICL_CLASS_FRU }] } : picl_state)) = some s' ∧
        s'.posted = σ.posted ∧
        ∃ extra, s'.tree = σ.tree ++
              { hdl := ptree_fresh σ.tree, parent := locnodeh, name := fru_name,
                classname := K.PICL_CLASS_FRU } :: extra ∧
            extra.length ≤ 1 ∧ (¬ PS_NAME <+: ap_id → extra = []) ∧
            ∀ m, m ∈ extra → m.classname = K.PICL_CLASS_SEEPROM ∧
              m.name = PS_PLATFORM_NAME ∧ E.node_by_path PSU_PLATFORM = some m.parent ∧
              m.hdl ≠ 0 := by
      by_cases hps : strncmp_eq ap_id PS_NAME PS_NAME_LEN = true
      · rw [if_pos hps]
        obtain ⟨s', e1, e2, extra, e3, e4, e5⟩ := frudr_ps_inserted_some K E plat idprop ap_id
          (ptree_fresh σ.tree)
          { σ with tree := σ.tree ++
                [{ hdl := ptree_fresh σ.tree, parent := locnodeh, name := fru_name,
                   classname := K.PICL_CLASS_FRU }] }
          (hunit ((strncmp_PS ap_id).mp hps))
        refine ⟨s', e1, e2, extra, ?_, e4, ?_, e5⟩
        · rw [e3]; simp
        · intro hn
          exact absurd ((strncmp_PS ap_id).mp hps) hn
      · rw [if_neg hps]
        exact ⟨_, rfl, rfl, [], rfl, by simp, fun _ => rfl, by simp⟩
    obtain ⟨s', hs', hposted, extra, htree, hlen, hnops, hextra⟩ := hmid
    rw [hs']
    obtain ⟨pt, _, _⟩ := post_frudr_event_tree K E K.PICL_FRU_ADDED locnodeh 0 s'
    obtain ⟨_, pok, pfail⟩ := post_frudr_event_posted K E K.PICL_FRU_ADDED locnodeh 0 s'
    refine ⟨post_frudr_event K E K.PICL_FRU_ADDED locnodeh 0 s', rfl, ?_, ?_, ?_, ?_⟩
    · exact ⟨extra, by rw [pt, htree], hlen, hnops,
        fun m hm => ⟨(hextra m hm).1, (hextra m hm).2.1, (hextra m hm).2.2.1⟩⟩
    · rintro ⟨o1, o2, o3, o4⟩
      rw [pok ⟨o1, o2, fun _ => o3, fun h => absurd rfl h, o4⟩, hposted]
      simp [hloc0, nvlist_add_uint64]
    · intro hn
      rw [pfail (fun h => hn ⟨h.1, h.2.1, h.2.2.1 hloc0, h.2.2.2.2⟩), hposted]
    · apply hthere
      · intro n hn
        rw [pt, htree] at hn
        rcases List.mem_append.mp hn with h | h
        · exact hwf n h
        · rcases List.mem_cons.mp h with h | h
          · subst h; exact ptree_fresh_ne_zero _
          · exact (hextra n h).2.2.2
      · refine ⟨{ hdl := ptree_fresh σ.tree, parent := locnodeh, name := fru_name,
                  classname := K.PICL_CLASS_FRU }, ?_, rfl⟩
        unfold ptree_children
        rw [pt, htree]
        simp

/-- Witness of C6: a DR insert event for "HDD0" on an empty slot, every call
succeeding; the handler posts the one PICL_FRU_ADDED event with the location
(handle 1) as parent handle. -/
theorem frudr_evhandler_insert_witness :
    ∃ σ', frudr_evhandler hdr_sample tree_env_sample PLAT_ENXS none
        hdr_sample.PICLEVENT_DR_AP_STATE_CHANGE (some (dr_event_sample dr_hint_insert_sample))
        (picl_state_sample tree_empty_slot_sample) = some σ' ∧
      σ'.posted = (picl_state_sample tree_empty_slot_sample).posted ++
        [{ ename := hdr_sample.PICL_FRU_ADDED,
           nvl := [(hdr_sample.PICLEVENTARG_PARENTHANDLE, nvvalue.u64 1)] }] :=
  (((frudr_evhandler_insert hdr_sample tree_env_sample PLAT_ENXS none
      (dr_event_sample dr_hint_insert_sample) ['H', 'D', 'D', '0'] DISK_FRU_NAME
      dr_hint_insert_sample 1 (picl_state_sample tree_empty_slot_sample)
      (by decide) (by decide) (by decide) (by decide) (by decide) rfl (by decide)
      (by decide)).2 (by decide)).2 rfl (fun h => absurd h (by decide))).imp
    (fun _ h => ⟨h.1, h.2.2.1 ⟨rfl, rfl, rfl, rfl⟩⟩)

/-- Counterexample to C6 as stated: a DR insert event for "HDD0" whose
location (handle 1) exists and has no child named "disk", in an environment
where `ptree_create_and_add_node` fails.  No node is created and no event is
posted. -/
theorem frudr_evhandler_insert_create_fails :
    (∀ n, n ∈ ptree_children tree_empty_slot_sample 1 → n.name ≠ DISK_FRU_NAME) ∧
    hotplug_fru_name ['H', 'D', 'D', '0'] = some (DISK_FRU_NAME, false) ∧
    dr_hint_insert_sample ≠ hdr_sample.DR_HINT_REMOVE ∧
    (frudr_evhandler hdr_sample tree_env_no_create_sample PLAT_ENXS none
        hdr_sample.PICLEVENT_DR_AP_STATE_CHANGE (some (dr_event_sample dr_hint_insert_sample))
        (picl_state_sample tree_empty_slot_sample)).map (fun s => (s.tree, s.posted))
      = some (tree_empty_slot_sample, []) ∧
    ¬ ((frudr_evhandler hdr_sample tree_env_no_create_sample PLAT_ENXS none
        hdr_sample.PICLEVENT_DR_AP_STATE_CHANGE (some (dr_event_sample dr_hint_insert_sample))
        (picl_state_sample tree_empty_slot_sample)).map
          (fun s => (s.tree.length, s.posted.length))
      = some (tree_empty_slot_sample.length + 1, 1)) := by
  decide

/-- The remove branch of `frudr_evhandler`, reached by a DR event for a
hot-plug id with the remove hint and a location node that exists. -/
theorem frudr_evhandler_remove_eq (K : hdr) (E : tree_env) (plat : Int)
    (idprop : Option idp_lkup_t) (nvlp : nvlist_t) (ap_id fru_name : cstr) (rmc_flag : Bool)
    (locnodeh : Nat) (s : picl_state)
    (hdt : nvlist_lookup_string nvlp K.PICLEVENTARG_DATA_TYPE
      = some K.PICLEVENTARG_PICLEVENT_DATA)
    (hap : nvlist_lookup_string nvlp K.PICLEVENTARG_AP_ID = some ap_id)
    (hfru : hotplug_fru_name ap_id = some (fru_name, rmc_flag))
    (hhint : nvlist_lookup_string nvlp K.PICLEVENTARG_HINT = some K.DR_HINT_REMOVE)
    (hloc : E.node_by_path (frudr_path K plat ap_id rmc_flag) = some locnodeh) :
    frudr_evhandler K E plat idprop K.PICLEVENT_DR_AP_STATE_CHANGE (some nvlp) s =
      match ptree_get_child s.tree locnodeh with
      | some fruh => some (post_frudr_event K E K.PICL_FRU_REMOVED 0 fruh s)
      | none => some s := by
  unfold frudr_evhandler
  have h1 : ¬ (strcmp_eq K.PICLEVENT_DR_AP_STATE_CHANGE K.PICLEVENT_DR_AP_STATE_CHANGE = false) := by
    simp [strcmp_eq]
  have h2 : ¬ (strcmp_eq K.PICLEVENTARG_PICLEVENT_DATA K.PICLEVENTARG_PICLEVENT_DATA = false) := by
    simp [strcmp_eq]
  have h3 : strcmp_eq K.DR_HINT_REMOVE K.DR_HINT_REMOVE = true := by
    simp [strcmp_eq]
  rw [if_neg h1]
  simp only [hdt, if_neg h2, hap, hfru, hhint, hloc, if_pos h3]

theorem completion_parent_name_tree (σ : picl_state) (fruh : Nat) :
    (completion_parent_name σ fruh).tree = σ.tree := by
  unfold completion_parent_name
  cases (ptree_get_parent σ.tree fruh).bind (fun childh => ptree_get_name σ.tree childh) with
  | none => rfl
  | some nodename =>
    simp only
    split_ifs <;> rfl

theorem completion_delete_node_tree (σ : picl_state) (fruh : Nat) :
    (completion_delete_node σ fruh).tree = (ptree_delete_node σ.tree fruh).getD σ.tree := by
  unfold completion_delete_node
  cases ptree_delete_node σ.tree fruh with
  | none => rfl
  | some T => rfl

/-- The tree after `frudr_completion_handler`: the subtree of the FRU handle
of a PICL_FRU_REMOVED event is gone when `ptree_delete_node` succeeds;
otherwise the tree is as it was. -/
theorem frudr_completion_handler_tree (K : hdr) (ename : cstr) (earg : nvlist_t)
    (τ : picl_state) :
    (frudr_completion_handler K ename earg τ).tree =
      if strcmp_eq ename K.PICL_FRU_REMOVED = true ∧
          (nvlist_lookup_uint64 earg K.PICLEVENTARG_FRUHANDLE).getD 0 ≠ 0 then
        (ptree_delete_node τ.tree
          ((nvlist_lookup_uint64 earg K.PICLEVENTARG_FRUHANDLE).getD 0)).getD τ.tree
      else τ.tree := by
  unfold frudr_completion_handler
  by_cases h1 : strcmp_eq ename K.PICL_FRU_REMOVED = true
  · rw [if_pos h1]
    simp only
    by_cases h2 : (nvlist_lookup_uint64 earg K.PICLEVENTARG_FRUHANDLE).getD 0 ≠ 0
    · rw [if_pos h2, if_pos ⟨h1, h2⟩, completion_delete_node_tree]
      show (ptree_delete_node (completion_parent_name τ _).tree _).getD
        (completion_parent_name τ _).tree = _
      rw [completion_parent_name_tree]
    · rw [if_neg h2, if_neg (fun h => h2 h.2)]
  · rw [if_neg h1, if_neg (fun h => h1 h.1)]

theorem ptree_under_self (T : ptree) (fuel : Nat) (c : picl_node) :
    ptree_under T c.hdl fuel c = true := by
  cases fuel with
  | zero => simp [ptree_under]
  | succ k => simp [ptree_under]

theorem nvlist_lookup_uint64_single (name : cstr) (v : Nat) :
    nvlist_lookup_uint64 [(name, nvvalue.u64 v)] name = some v := by
  simp [nvlist_lookup_uint64, List.findSome?]

/-- C7, as amended.  On a DR_HINT_REMOVE event for a hot-plug attachment point
whose location node exists, `frudr_evhandler` does not change the tree.  When
the location has no child it posts nothing; when it has one, it posts exactly
the PICL_FRU_REMOVED event that carries the handle of the first child as FRU
handle and no parent handle, provided `strdup`, `nvlist_alloc`,
`nvlist_add_uint64` and `ptree_post_event` succeed, and nothing when one of
them fails.  The FRU node is deleted only in `frudr_completion_handler`: run
on that event it removes the subtree of the FRU node from the tree, and the
completion of an event of any other name (PICL_FRU_ADDED, when the two names
differ) leaves the state as it was. -/
theorem frudr_evhandler_remove (K : hdr) (E : tree_env) (plat : Int)
    (idprop : Option idp_lkup_t) (nvlp : nvlist_t) (ap_id fru_name : cstr) (rmc_flag : Bool)
    (locnodeh : Nat) (σ : picl_state)
    (hdt : nvlist_lookup_string nvlp K.PICLEVENTARG_DATA_TYPE
      = some K.PICLEVENTARG_PICLEVENT_DATA)
    (hap : nvlist_lookup_string nvlp K.PICLEVENTARG_AP_ID = some ap_id)
    (hfru : hotplug_fru_name ap_id = some (fru_name, rmc_flag))
    (hhint : nvlist_lookup_string nvlp K.PICLEVENTARG_HINT = some K.DR_HINT_REMOVE)
    (hloc : E.node_by_path (frudr_path K plat ap_id rmc_flag) = some locnodeh)
    (hwf : ∀ n, n ∈ σ.tree → n.hdl ≠ 0) :
    ∃ σ', frudr_evhandler K E plat idprop K.PICLEVENT_DR_AP_STATE_CHANGE (some nvlp) σ
        = some σ' ∧
      σ'.tree = σ.tree ∧
      (ptree_children σ.tree locnodeh = [] → σ'.posted = σ.posted) ∧
      ((E.strdup_ok = true ∧ E.nvlist_alloc_ok = true ∧
          E.nvlist_add_ok K.PICLEVENTARG_FRUHANDLE = true ∧ E.post_event_ok = true) →
        ((∃ ev, σ'.posted = σ.posted ++ [ev] ∧ ev.ename = K.PICL_FRU_REMOVED) ↔
          ptree_children σ.tree locnodeh ≠ [])) ∧
      (∀ c rest, ptree_children σ.tree locnodeh = c :: rest →
        ((E.strdup_ok = true ∧ E.nvlist_alloc_ok = true ∧
            E.nvlist_add_ok K.PICLEVENTARG_FRUHANDLE = true ∧ E.post_event_ok = true) →
          σ'.posted = σ.posted ++
            [{ ename := K.PICL_FRU_REMOVED,
               nvl := [(K.PICLEVENTARG_FRUHANDLE, nvvalue.u64 c.hdl)] }]) ∧
        (¬ (E.strdup_ok = true ∧ E.nvlist_alloc_ok = true ∧
            E.nvlist_add_ok K.PICLEVENTARG_FRUHANDLE = true ∧ E.post_event_ok = true) →
          σ'.posted = σ.posted) ∧
        (frudr_completion_handler K K.PICL_FRU_REMOVED
            [(K.PICLEVENTARG_FRUHANDLE, nvvalue.u64 c.hdl)] σ').tree
          = σ.tree.filter (fun n => ! ptree_under σ.tree c.hdl σ.tree.length n) ∧
        c ∉ (frudr_completion_handler K K.PICL_FRU_REMOVED
            [(K.PICLEVENTARG_FRUHANDLE, nvvalue.u64 c.hdl)] σ').tree) ∧
      (∀ ename earg τ, ename ≠ K.PICL_FRU_REMOVED →
        frudr_completion_handler K ename earg τ = τ) := by
  have hother : ∀ ename earg τ, ename ≠ K.PICL_FRU_REMOVED →
      frudr_completion_handler K ename earg τ = τ := by
    intro ename earg τ hne
    unfold frudr_completion_handler
    rw [if_neg (by simp [strcmp_eq, hne])]
  rw [frudr_evhandler_remove_eq K E plat idprop nvlp ap_id fru_name rmc_flag locnodeh σ
    hdt hap hfru hhint hloc]
  unfold ptree_get_child
  cases hch : ptree_children σ.tree locnodeh with
  | nil =>
    refine ⟨σ, rfl, rfl, fun _ => rfl, ?_, ?_, hother⟩
    · intro _
      constructor
      · rintro ⟨ev, hev, _⟩
        have := congrArg List.length hev
        simp at this
      · intro h
        exact absurd rfl h
    · intro c rest h
      exact absurd h (by simp)
  | cons c rest =>
    have hc : c ∈ σ.tree := List.mem_of_mem_filter (hch ▸ List.mem_cons_self c rest)
    have hc0 : c.hdl ≠ 0 := hwf c hc
    obtain ⟨pt, _, _⟩ := post_frudr_event_tree K E K.PICL_FRU_REMOVED 0 c.hdl σ
    obtain ⟨_, pok, pfail⟩ := post_frudr_event_posted K E K.PICL_FRU_REMOVED 0 c.hdl σ
    have hev : (E.strdup_ok = true ∧ E.nvlist_alloc_ok = true ∧
          E.nvlist_add_ok K.PICLEVENTARG_FRUHANDLE = true ∧ E.post_event_ok = true) →
        (post_frudr_event K E K.PICL_FRU_REMOVED 0 c.hdl σ).posted = σ.posted ++
            [{ ename := K.PICL_FRU_REMOVED,
               nvl := [(K.PICLEVENTARG_FRUHANDLE, nvvalue.u64 c.hdl)] }] := by
      rintro ⟨o1, o2, o3, o4⟩
      rw [pok ⟨o1, o2, fun h => absurd rfl h, fun _ => o3, o4⟩]
      simp [hc0, nvlist_add_uint64]
    have htree : (frudr_completion_handler K K.PICL_FRU_REMOVED
            [(K.PICLEVENTARG_FRUHANDLE, nvvalue.u64 c.hdl)]
            (post_frudr_event K E K.PICL_FRU_REMOVED 0 c.hdl σ)).tree
          = σ.tree.filter (fun n => ! ptree_under σ.tree c.hdl σ.tree.length n) := by
      rw [frudr_completion_handler_tree, nvlist_lookup_uint64_single, pt]
      have hs : strcmp_eq K.PICL_FRU_REMOVED K.PICL_FRU_REMOVED = true := by simp [strcmp_eq]
      rw [if_pos ⟨hs, by simpa using hc0⟩]
      unfold ptree_delete_node
      have hany : (σ.tree.any (fun n => decide (n.hdl = (some c.hdl).getD 0))) = true := by
        rw [List.any_eq_true]
        exact ⟨c, hc, by simp⟩
      rw [if_pos hany]
      rfl
    refine ⟨post_frudr_event K E K.PICL_FRU_REMOVED 0 c.hdl σ, rfl, pt, ?_, ?_, ?_, hother⟩
    · intro h
      exact absurd h (by simp)
    · intro hok
      constructor
      · intro _
        simp
      · intro _
        exact ⟨_, hev hok, rfl⟩
    · intro c' rest' h
      have hcc : c' = c := by
        exact (List.head_eq_of_cons_eq h).symm
      subst hcc
      refine ⟨hev, ?_, htree, ?_⟩
      · intro hn
        exact pfail (fun h => hn ⟨h.1, h.2.1, h.2.2.2.1 hc0, h.2.2.2.2⟩)
      · rw [htree]
        intro hmem
        have := (List.mem_filter.mp hmem).2
        rw [ptree_under_self] at this
        exact absurd this (by decide)

/-- Witness of C7: a DR remove event for "HDD0" whose slot holds the disk node
2, every call succeeding: the event is posted with FRU handle 2 and its
completion leaves the tree without that node. -/
theorem frudr_evhandler_remove_witness :
    ∃ σ', frudr_evhandler hdr_sample tree_env_sample PLAT_ENXS none
        hdr_sample.PICLEVENT_DR_AP_STATE_CHANGE
        (some (dr_event_sample hdr_sample.DR_HINT_REMOVE))
        (picl_state_sample tree_sample) = some σ' ∧
      σ'.tree = tree_sample ∧
      σ'.posted = [{ ename := hdr_sample.PICL_FRU_REMOVED,
                     nvl := [(hdr_sample.PICLEVENTARG_FRUHANDLE, nvvalue.u64 2)] }] ∧
      (frudr_completion_handler hdr_sample hdr_sample.PICL_FRU_REMOVED
          [(hdr_sample.PICLEVENTARG_FRUHANDLE, nvvalue.u64 2)] σ').tree
        = tree_empty_slot_sample :=
  (frudr_evhandler_remove hdr_sample tree_env_sample PLAT_ENXS none
      (dr_event_sample hdr_sample.DR_HINT_REMOVE) ['H', 'D', 'D', '0'] DISK_FRU_NAME false 1
      (picl_state_sample tree_sample)
      (by decide) (by decide) (by decide) (by decide) rfl (by decide)).imp
    (fun _ h => ⟨h.1, h.2.1,
      ((h.2.2.2.2.1 { hdl := 2, parent := 1, name := DISK_FRU_NAME, classname := "fru".toList }
        [] (by decide)).1 ⟨rfl, rfl, rfl, rfl⟩),
      ((h.2.2.2.2.1 { hdl := 2, parent := 1, name := DISK_FRU_NAME, classname := "fru".toList }
        [] (by decide)).2.2.1).trans (by decide)⟩)

/-- Counterexample to C7 as stated: a DR remove event for "HDD0" whose
location (handle 1) has the child 2, in an environment where `strdup` fails.
The location node has a child and yet no event is posted. -/
theorem frudr_evhandler_remove_strdup_fails :
    ptree_children tree_sample 1 ≠ [] ∧
    hotplug_fru_name ['H', 'D', 'D', '0'] = some (DISK_FRU_NAME, false) ∧
    (frudr_evhandler hdr_sample tree_env_no_strdup_sample PLAT_ENXS none
        hdr_sample.PICLEVENT_DR_AP_STATE_CHANGE
        (some (dr_event_sample hdr_sample.DR_HINT_REMOVE))
        (picl_state_sample tree_sample)).map (fun s => s.posted) = some [] ∧
    ¬ ((frudr_evhandler hdr_sample tree_env_no_strdup_sample PLAT_ENXS none
          hdr_sample.PICLEVENT_DR_AP_STATE_CHANGE
          (some (dr_event_sample hdr_sample.DR_HINT_REMOVE))
          (picl_state_sample tree_sample)).map (fun s => s.posted.length) = some 1 ↔
        ptree_children tree_sample 1 ≠ []) := by
  decide

/-! ## frutree_evhandler -/

theorem strchr_split_found (c : Char) :
    ∀ (a b : cstr), c ∉ a → strchr_split c (a ++ c :: b) = some (a, b) := by
  intro a
  induction a with
  | nil => intro b _; simp [strchr_split]
  | cons x xs ih =>
    intro b h
    have hx : x ≠ c := fun e => h (e ▸ List.mem_cons_self _ _)
    have hxs : c ∉ xs := fun hm => h (List.mem_cons_of_mem _ hm)
    simp [strchr_split, hx, ih b hxs]

theorem strchr_split_none (c : Char) :
    ∀ (a : cstr), c ∉ a → strchr_split c a = none := by
  intro a
  induction a with
  | nil => intro _; rfl
  | cons x xs ih =>
    intro h
    have hx : x ≠ c := fun e => h (e ▸ List.mem_cons_self _ _)
    have hxs : c ∉ xs := fun hm => h (List.mem_cons_of_mem _ hm)
    simp [strchr_split, hx, ih hxs]

/-- C8, as amended.  `frutree_evhandler` reduces every devfs path of the form
"/<bus>/<name>@<addr>/<...>@<unit>[/<rest>]" (bus without '/', name without
'@', addr without '/', <...> without '@', unit without '/') to the FRU name
"<name>-<addr>-<unit>", and goes on with that name when the event is a
device-added event that carries the path and `strdup` succeeds; in particular
both "/pci@1e,600000/usb@a/mouse@2" and
"/pci@1e,600000/usb@a/device@2/mouse@0" reduce to "usb-a-2". -/
theorem frutree_evhandler_reduces (K : hdr) (bus name addr dots unit : cstr)
    (hbus : '/' ∉ bus) (hname : '@' ∉ name) (haddr : '/' ∉ addr)
    (hdots : '@' ∉ dots) (hunit : '/' ∉ unit) :
    frutree_reduce ('/' :: bus ++ '/' :: name ++ '@' :: addr ++ '/' :: dots ++ '@' :: unit)
      = some (name ++ '-' :: addr ++ '-' :: unit) ∧
    (∀ rest, frutree_reduce
        ('/' :: bus ++ '/' :: name ++ '@' :: addr ++ '/' :: dots ++ '@' :: unit ++ '/' :: rest)
      = some (name ++ '-' :: addr ++ '-' :: unit)) ∧
    (∀ nvlp dpath,
      nvlist_lookup_string nvlp K.PICLEVENTARG_DATA_TYPE = some K.PICLEVENTARG_PICLEVENT_DATA →
      nvlist_lookup_string nvlp K.PICLEVENTARG_DEVFS_PATH = some dpath →
      frutree_evhandler K true K.PICLEVENT_SYSEVENT_DEVICE_ADDED (some nvlp)
        = frutree_reduce dpath) ∧
    frutree_reduce "/pci@1e,600000/usb@a/mouse@2".toList = some "usb-a-2".toList ∧
    frutree_reduce "/pci@1e,600000/usb@a/device@2/mouse@0".toList = some "usb-a-2".toList := by
  have key : ∀ tail : cstr, (strchr_split '/' (unit ++ tail) = none ∧ tail = [] ∨
        ∃ r, tail = '/' :: r) →
      frutree_reduce ('/' :: bus ++ '/' :: name ++ '@' :: addr ++ '/' :: dots ++ '@' :: unit
          ++ tail)
        = some (name ++ '-' :: addr ++ '-' :: unit) := by
    intro tail htail
    have e1 : '/' :: bus ++ '/' :: name ++ '@' :: addr ++ '/' :: dots ++ '@' :: unit ++ tail
        = '/' :: (bus ++ '/' :: (name ++ '@' :: (addr ++ '/' :: (dots ++ '@' :: (unit ++ tail))))) := by
      simp
    rw [e1]
    unfold frutree_reduce
    simp only [if_true]
    rw [strchr_split_found '/' bus _ hbus]
    simp only
    rw [strchr_split_found '@' name _ hname]
    simp only
    rw [strchr_split_found '/' addr _ haddr]
    simp only
    rw [strchr_split_found '@' dots _ hdots]
    simp only
    rcases htail with ⟨h, rfl⟩ | ⟨r, rfl⟩
    · rw [h]
      simp
    · rw [strchr_split_found '/' unit _ hunit]
  refine ⟨?_, ?_, ?_, by decide, by decide⟩
  · have := key [] (Or.inl ⟨by rw [List.append_nil]; exact strchr_split_none '/' unit hunit, rfl⟩)
    simpa using this
  · intro rest
    exact key ('/' :: rest) (Or.inr ⟨rest, rfl⟩)
  · intro nvlp dpath hdt hp
    unfold frutree_evhandler
    have h1 : ¬ (strcmp_eq K.PICLEVENT_SYSEVENT_DEVICE_ADDED K.PICLEVENT_SYSEVENT_DEVICE_ADDED
        = false) := by simp [strcmp_eq]
    have h2 : ¬ (strcmp_eq K.PICLEVENTARG_PICLEVENT_DATA K.PICLEVENTARG_PICLEVENT_DATA
        = false) := by simp [strcmp_eq]
    rw [if_neg h1]
    simp only [hdt, if_neg h2, hp, if_true]

/-- Witness of C8: the first path of the comment in the source, split into
its parts. -/
theorem frutree_evhandler_reduces_witness :
    frutree_reduce ('/' :: "pci@1e,600000".toList ++ '/' :: "usb".toList ++ '@' :: "a".toList
        ++ '/' :: "mouse".toList ++ '@' :: "2".toList)
      = some ("usb".toList ++ '-' :: "a".toList ++ '-' :: "2".toList) :=
  (frutree_evhandler_reduces hdr_sample "pci@1e,600000".toList "usb".toList "a".toList
    "mouse".toList "2".toList (by decide) (by decide) (by decide) (by decide) (by decide)).1

/-- Counterexample to C8 as stated.  The path "/pci@1f,700000/pci@0/usb@a/mouse@2"
has the form "/<bus>/<name>@<addr>/<...>@<unit>" with bus "pci@1f,700000/pci@0",
name "usb" (no '@', no '/'), addr "a" (no '/') and unit "2" (no '/'), and is
reduced to "pci-0-a", not to "usb-a-2"; and "/pci@1e,600000/usb@a/hub@1,mouse@2"
with <...> "hub@1,mouse" is reduced to "usb-a-1,mouse@2". -/
theorem frutree_reduce_nested_bus :
    ('/' :: "pci@1f,700000/pci@0".toList ++ '/' :: "usb".toList ++ '@' :: "a".toList
        ++ '/' :: "mouse".toList ++ '@' :: "2".toList
      = "/pci@1f,700000/pci@0/usb@a/mouse@2".toList) ∧
    ('@' ∉ "usb".toList ∧ '/' ∉ "usb".toList ∧ '/' ∉ "a".toList ∧ '/' ∉ "2".toList) ∧
    frutree_reduce "/pci@1f,700000/pci@0/usb@a/mouse@2".toList = some "pci-0-a".toList ∧
    frutree_reduce "/pci@1f,700000/pci@0/usb@a/mouse@2".toList ≠ some "usb-a-2".toList ∧
    ('/' :: "pci@1e,600000".toList ++ '/' :: "usb".toList ++ '@' :: "a".toList
        ++ '/' :: "hub@1,mouse".toList ++ '@' :: "2".toList
      = "/pci@1e,600000/usb@a/hub@1,mouse@2".toList) ∧
    frutree_reduce "/pci@1e,600000/usb@a/hub@1,mouse@2".toList
      = some "usb-a-1,mouse@2".toList := by
  decide

/-! ## audio_attach and audio_detach -/

theorem foldl_max_bounds : ∀ (l : List Nat) (init : Nat),
    init ≤ l.foldl max init ∧ ∀ x, x ∈ l → x ≤ l.foldl max init := by
  intro l
  induction l with
  | nil => intro init; simp
  | cons a rest ih =>
    intro init
    obtain ⟨h1, h2⟩ := ih (max init a)
    rw [List.foldl_cons]
    refine ⟨le_trans (le_max_left _ _) h1, ?_⟩
    intro x hx
    rcases List.mem_cons.mp hx with e | hx
    · subst e; exact le_trans (le_max_right _ _) h1
    · exact h2 x hx

theorem audio_dev_alloc_fresh (dip : Nat) (i : Int) (σ : ddi_state) :
    (audio_dev_alloc dip i σ).1 ≠ 0 ∧
    ∀ p, p ∈ σ.heap → p.1 ≠ (audio_dev_alloc dip i σ).1 := by
  unfold audio_dev_alloc
  simp only
  refine ⟨by omega, ?_⟩
  intro p hp
  have := (foldl_max_bounds (σ.heap.map (fun p => p.1)) 0).2 p.1
    (List.mem_map.mpr ⟨p, hp, rfl⟩)
  omega

/-- The heap after the allocation and the three assignments of
`audio_attach`: the old devices and the new one with its fields set. -/
theorem audio_attach_heap (K : ddi_hdr) (dip : Nat) (σ : ddi_state) :
    (audio_dev_update (audio_dev_alloc dip 0 σ).1
      (fun d => { d with d_version := "pseudo".toList })
      (audio_dev_update (audio_dev_alloc dip 0 σ).1
        (fun d => { d with d_description := "Audio Common Code".toList })
        (audio_dev_update (audio_dev_alloc dip 0 σ).1
          (fun d => { d with d_flags := K.DEV_SNDSTAT_CAP }) (audio_dev_alloc dip 0 σ).2))).heap
    = σ.heap ++ [((audio_dev_alloc dip 0 σ).1,
        { d_dip := dip, d_instance := 0, d_flags := K.DEV_SNDSTAT_CAP,
          d_description := "Audio Common Code".toList, d_version := "pseudo".toList })] := by
  have hfresh := (audio_dev_alloc_fresh dip 0 σ).2
  have hheap : (audio_dev_alloc dip 0 σ).2.heap = σ.heap ++ [((audio_dev_alloc dip 0 σ).1,
      { d_dip := dip, d_instance := 0, d_flags := 0, d_description := [], d_version := [] })] :=
    rfl
  unfold audio_dev_update
  simp only [hheap, List.map_append, List.map_map, List.map_cons, List.map_nil, if_true]
  congr 1
  have h3 : ((fun p : Nat × audio_dev_t => if p.1 = (audio_dev_alloc dip 0 σ).1 then
        (p.1, ({ p.2 with d_version := "pseudo".toList } : audio_dev_t)) else p) ∘
      (fun p : Nat × audio_dev_t => if p.1 = (audio_dev_alloc dip 0 σ).1 then
        (p.1, ({ p.2 with d_description := "Audio Common Code".toList } : audio_dev_t)) else p) ∘
      (fun p : Nat × audio_dev_t => if p.1 = (audio_dev_alloc dip 0 σ).1 then
        (p.1, ({ p.2 with d_flags := K.DEV_SNDSTAT_CAP } : audio_dev_t)) else p))
      = (fun p : Nat × audio_dev_t => if p.1 = (audio_dev_alloc dip 0 σ).1 then
        (p.1, ({ p.2 with d_flags := K.DEV_SNDSTAT_CAP,
                          d_description := "Audio Common Code".toList,
                          d_version := "pseudo".toList } : audio_dev_t)) else p) := by
    funext p
    simp only [Function.comp]
    split_ifs <;> rfl
  rw [h3]
  conv_rhs => rw [← List.map_id σ.heap]
  apply List.map_congr_left
  intro p hp
  rw [if_neg (hfresh p hp)]
  rfl

/-- C9.  `audio_attach` returns DDI_FAILURE and leaves the state as it was (no
device allocated or registered) whenever cmd is not DDI_ATTACH, dip is NULL or
the instance number is not 0; when `audio_dev_register` fails it frees the
device it allocated (the heap is as before, the device is not registered) and
returns DDI_FAILURE; and when it returns DDI_SUCCESS, a device with
`d_flags == DEV_SNDSTAT_CAP` is stored as driver-private data of the node and
is registered.  DDI_SUCCESS is 0, as the comparison of the source with NULL
takes for granted, and differs from DDI_FAILURE. -/
theorem audio_attach_contract (K : ddi_hdr) (E : ddi_env) (dip : Nat) (cmd : Int)
    (σ : ddi_state) (hS : K.DDI_SUCCESS = 0) (hSF : K.DDI_FAILURE ≠ K.DDI_SUCCESS) :
    ((cmd ≠ K.DDI_ATTACH ∨ dip = 0 ∨ E.get_instance dip ≠ 0) →
      audio_attach K E dip cmd σ = (K.DDI_FAILURE, σ)) ∧
    (cmd = K.DDI_ATTACH → dip ≠ 0 → E.get_instance dip = 0 →
      E.register_rv ≠ K.DDI_SUCCESS →
      (audio_attach K E dip cmd σ).1 = K.DDI_FAILURE ∧
      (audio_attach K E dip cmd σ).2.heap = σ.heap ∧
      (audio_attach K E dip cmd σ).2.registered = σ.registered ∧
      (audio_attach K E dip cmd σ).2.frees = σ.frees ++ [(audio_dev_alloc dip 0 σ).1]) ∧
    ((audio_attach K E dip cmd σ).1 = K.DDI_SUCCESS →
      ∃ adev dev, (audio_attach K E dip cmd σ).2.driver_private dip = adev ∧ adev ≠ 0 ∧
        (adev, dev) ∈ (audio_attach K E dip cmd σ).2.heap ∧
        dev.d_flags = K.DEV_SNDSTAT_CAP ∧
        adev ∈ (audio_attach K E dip cmd σ).2.registered ∧
        (∀ p, p ∈ σ.heap → p.1 ≠ adev)) := by
  have hfresh := audio_dev_alloc_fresh dip 0 σ
  have hheap := audio_attach_heap K dip σ
  refine ⟨?_, ?_, ?_⟩
  · intro h
    unfold audio_attach
    by_cases h1 : cmd ≠ K.DDI_ATTACH ∨ dip = 0
    · rw [if_pos h1]
    · rw [if_neg h1]
      have h2 : E.get_instance dip ≠ 0 := by
        rcases h with h | h | h
        · exact absurd (Or.inl h) h1
        · exact absurd (Or.inr h) h1
        · exact h
      rw [if_pos h2]
  · intro hc hd hi hr
    have h1 : ¬ (cmd ≠ K.DDI_ATTACH ∨ dip = 0) := by
      rintro (h | h)
      · exact h hc
      · exact hd h
    have hr0 : E.register_rv ≠ 0 := by rw [← hS]; exact hr
    unfold audio_attach
    rw [if_neg h1, if_neg (not_not.mpr hi)]
    simp only
    unfold audio_dev_register
    rw [if_neg hr]
    simp only
    rw [if_pos hr0]
    refine ⟨rfl, ?_, rfl, rfl⟩
    show (List.filter _ _) = σ.heap
    rw [hheap, List.filter_append]
    simp only [List.filter_cons, ne_eq, not_true_eq_false, decide_False, List.filter_nil,
      List.append_nil, Bool.false_eq_true, if_false]
    apply List.filter_eq_self.mpr
    intro p hp
    simpa using hfresh.2 p hp
  · intro hret
    unfold audio_attach at hret ⊢
    by_cases h1 : cmd ≠ K.DDI_ATTACH ∨ dip = 0
    · rw [if_pos h1] at hret
      exact absurd hret hSF
    · rw [if_neg h1] at hret ⊢
      by_cases h2 : E.get_instance dip ≠ 0
      · rw [if_pos h2] at hret
        exact absurd hret hSF
      · rw [if_neg h2] at hret ⊢
        simp only at hret ⊢
        unfold audio_dev_register at hret ⊢
        by_cases hr : E.register_rv = K.DDI_SUCCESS
        · have hr0 : ¬ E.register_rv ≠ 0 := by rw [hr, hS]; simp
          rw [if_pos hr] at hret ⊢
          simp only at hret ⊢
          rw [if_neg hr0]
          refine ⟨(audio_dev_alloc dip 0 σ).1,
            { d_dip := dip, d_instance := 0, d_flags := K.DEV_SNDSTAT_CAP,
              d_description := "Audio Common Code".toList, d_version := "pseudo".toList },
            ?_, hfresh.1, ?_, ?_, ?_, hfresh.2⟩
          · show Function.update _ dip _ dip = _
            exact Function.update_same _ _ _
          · dsimp only
            rw [hheap]
            exact List.mem_append_right _ (List.mem_singleton_self _)
          · rfl
          · show _ ∈ _ ++ [_]
            exact List.mem_append_right _ (List.mem_singleton_self _)
        · have hr0 : E.register_rv ≠ 0 := by rw [← hS]; exact hr
          rw [if_neg hr] at hret
          simp only at hret
          rw [if_pos hr0] at hret
          exact absurd hret hSF

/-- Witness of C9: the first attach of node 1 in a kernel where every call
succeeds. -/
theorem audio_attach_contract_witness :
    (audio_attach ddi_hdr_sample ddi_env_sample 1 ddi_hdr_sample.DDI_ATTACH ddi_state_init).1
      = ddi_hdr_sample.DDI_SUCCESS ∧
    ∃ adev dev,
      (audio_attach ddi_hdr_sample ddi_env_sample 1 ddi_hdr_sample.DDI_ATTACH
        ddi_state_init).2.driver_private 1 = adev ∧ adev ≠ 0 ∧
      (adev, dev) ∈ (audio_attach ddi_hdr_sample ddi_env_sample 1 ddi_hdr_sample.DDI_ATTACH
        ddi_state_init).2.heap ∧
      dev.d_flags = ddi_hdr_sample.DEV_SNDSTAT_CAP ∧
      adev ∈ (audio_attach ddi_hdr_sample ddi_env_sample 1 ddi_hdr_sample.DDI_ATTACH
        ddi_state_init).2.registered ∧
      (∀ p, p ∈ ddi_state_init.heap → p.1 ≠ adev) :=
  have h : (audio_attach ddi_hdr_sample ddi_env_sample 1 ddi_hdr_sample.DDI_ATTACH
      ddi_state_init).1 = ddi_hdr_sample.DDI_SUCCESS := by decide
  ⟨h, (audio_attach_contract ddi_hdr_sample ddi_env_sample 1 ddi_hdr_sample.DDI_ATTACH
        ddi_state_init rfl (by decide)).2.2 h⟩

/-- C10.  `audio_detach` returns DDI_FAILURE and frees nothing whenever cmd is
not DDI_DETACH, dip is NULL, the driver-private device is NULL, or
`audio_dev_unregister` does not return DDI_SUCCESS; in the remaining case it
frees the driver-private device exactly once and returns DDI_SUCCESS. -/
theorem audio_detach_contract (K : ddi_hdr) (E : ddi_env) (dip : Nat) (cmd : Int)
    (σ : ddi_state) :
    ((cmd ≠ K.DDI_DETACH ∨ dip = 0 ∨ σ.driver_private dip = 0 ∨
        E.unregister_rv ≠ K.DDI_SUCCESS) →
      (audio_detach K E dip cmd σ).1 = K.DDI_FAILURE ∧
      (audio_detach K E dip cmd σ).2 = σ) ∧
    (¬ (cmd ≠ K.DDI_DETACH ∨ dip = 0 ∨ σ.driver_private dip = 0 ∨
        E.unregister_rv ≠ K.DDI_SUCCESS) →
      (audio_detach K E dip cmd σ).1 = K.DDI_SUCCESS ∧
      (audio_detach K E dip cmd σ).2.frees = σ.frees ++ [σ.driver_private dip] ∧
      (audio_detach K E dip cmd σ).2.heap
        = σ.heap.filter (fun p => p.1 ≠ σ.driver_private dip) ∧
      (audio_detach K E dip cmd σ).2.registered
        = σ.registered.filter (fun a => a ≠ σ.driver_private dip)) := by
  unfold audio_detach
  refine ⟨?_, ?_⟩
  · intro h
    by_cases h1 : cmd ≠ K.DDI_DETACH
    · rw [if_pos h1]; exact ⟨rfl, rfl⟩
    · rw [if_neg h1]
      by_cases h2 : dip = 0
      · rw [if_pos h2]; exact ⟨rfl, rfl⟩
      · rw [if_neg h2]
        simp only
        by_cases h3 : σ.driver_private dip = 0
        · rw [if_pos h3]; exact ⟨rfl, rfl⟩
        · rw [if_neg h3]
          have h4 : E.unregister_rv ≠ K.DDI_SUCCESS := by
            rcases h with h | h | h | h
            · exact absurd h h1
            · exact absurd h h2
            · exact absurd h h3
            · exact h
          unfold audio_dev_unregister
          rw [if_neg h4]
          simp only
          rw [if_pos h4]
          exact ⟨rfl, rfl⟩
  · intro h
    have h1 : ¬ cmd ≠ K.DDI_DETACH := fun h' => h (Or.inl h')
    have h2 : ¬ dip = 0 := fun h' => h (Or.inr (Or.inl h'))
    have h3 : ¬ σ.driver_private dip = 0 := fun h' => h (Or.inr (Or.inr (Or.inl h')))
    have h4 : E.unregister_rv = K.DDI_SUCCESS := by
      by_contra h'
      exact h (Or.inr (Or.inr (Or.inr h')))
    rw [if_neg h1, if_neg h2]
    simp only
    rw [if_neg h3]
    unfold audio_dev_unregister
    rw [if_pos h4]
    simp only
    rw [if_neg (not_not.mpr h4)]
    exact ⟨rfl, rfl, rfl, rfl⟩

/-! ## The cb_ops entry points of the audio glue -/

/-- C11.  `audio_open` returns ENXIO without creating a client when otyp is
OTYP_BLK, and ENXIO (no client added) when the client creation fails.  When the
personality open handler returns a non-zero rv, the client that was created
is destroyed (the last call made, no client of that address is left),
`*devp` is unchanged and exactly rv is returned.  On success 0 is returned,
`*devp` is `makedevice(c_major, c_minor)` of the new client, and the client is
among the clients with `c_is_open` true. -/
theorem audio_open_contract (H : cb_hdr) (E : audio_env) (devp : Nat) (oflag otyp : Int)
    (credp : Nat) (σ : audio_state) :
    (otyp = H.OTYP_BLK → audio_open H E devp oflag otyp credp σ = (H.ENXIO, devp, σ)) ∧
    (otyp ≠ H.OTYP_BLK → E.client_create devp = none →
      (audio_open H E devp oflag otyp credp σ).1 = H.ENXIO ∧
      (audio_open H E devp oflag otyp credp σ).2.1 = devp ∧
      (audio_open H E devp oflag otyp credp σ).2.2.clients = σ.clients ∧
      (audio_open H E devp oflag otyp credp σ).2.2.trace = σ.trace ++ [audio_ev.dev_warn]) ∧
    (otyp ≠ H.OTYP_BLK → ∀ c client, E.client_create devp = some (c, client) →
      ∀ rv opened,
        E.c_open { client with c_omode := oflag, c_pid := E.get_pid, c_cred := credp } oflag
          = (rv, opened) →
      (rv ≠ 0 →
        (audio_open H E devp oflag otyp credp σ).1 = rv ∧
        (audio_open H E devp oflag otyp credp σ).2.1 = devp ∧
        (audio_open H E devp oflag otyp credp σ).2.2.trace = σ.trace ++
          [audio_ev.client_create c, audio_ev.c_open c, audio_ev.dev_warn,
           audio_ev.client_destroy c] ∧
        (∀ p, p ∈ (audio_open H E devp oflag otyp credp σ).2.2.clients → p.1 ≠ c)) ∧
      (rv = 0 →
        (audio_open H E devp oflag otyp credp σ).1 = 0 ∧
        (audio_open H E devp oflag otyp credp σ).2.1
          = E.makedevice opened.c_major opened.c_minor ∧
        (c, { opened with c_is_open := true })
          ∈ (audio_open H E devp oflag otyp credp σ).2.2.clients ∧
        (audio_open H E devp oflag otyp credp σ).2.2.trace = σ.trace ++
          [audio_ev.client_create c, audio_ev.c_open c,
           audio_ev.notify_dev opened.c_dev])) := by
  refine ⟨?_, ?_, ?_⟩
  · intro h
    unfold audio_open
    rw [if_pos h]
  · intro h hc
    unfold audio_open
    rw [if_neg h, hc]
    exact ⟨rfl, rfl, rfl, rfl⟩
  · intro h c client hc rv opened hopen
    unfold audio_open
    rw [if_neg h, hc]
    simp only [hopen]
    refine ⟨?_, ?_⟩
    · intro hrv
      rw [if_pos hrv]
      refine ⟨rfl, rfl, ?_, ?_⟩
      · simp [auimpl_client_destroy, audio_log, audio_client_update]
      · intro p hp
        simp only [auimpl_client_destroy] at hp
        have := (List.mem_filter.mp hp).2
        simpa using this
    · intro hrv
      rw [if_neg (not_not.mpr hrv)]
      refine ⟨rfl, rfl, ?_, ?_⟩
      · simp [audio_log, audio_client_update]
      · simp [audio_log, audio_client_update]

/-- C12.  Each of `audio_read`, `audio_write`, `audio_ioctl` and `audio_chpoll`
returns ENXIO and does nothing when no client is held for the dev_t; with a
client held it returns ENXIO when the handler of the client (`c_read`,
`c_write`, `c_ioctl`, `c_chpoll`) is NULL and exactly the result of the handler
otherwise, and the calls it makes are the hold, the handler if there is one,
and one release of the client. -/
theorem audio_rw_contract (H : cb_hdr) (E : audio_env) (dev : Nat) (σ : audio_state) :
    (auclnt_hold_by_devt E σ dev = none →
      audio_read H E dev σ = (H.ENXIO, σ) ∧ audio_write H E dev σ = (H.ENXIO, σ) ∧
      audio_ioctl H E dev σ = (H.ENXIO, σ) ∧ audio_chpoll H E dev σ = (H.ENXIO, σ)) ∧
    (∀ c client, auclnt_hold_by_devt E σ dev = some (c, client) →
      ((client.c_read = none →
          audio_read H E dev σ = (H.ENXIO, { σ with trace := σ.trace ++
            [audio_ev.client_hold c, audio_ev.client_release c] })) ∧
        (∀ rv, client.c_read = some rv →
          audio_read H E dev σ = (rv, { σ with trace := σ.trace ++
            [audio_ev.client_hold c, audio_ev.c_read c, audio_ev.client_release c] }))) ∧
      ((client.c_write = none →
          audio_write H E dev σ = (H.ENXIO, { σ with trace := σ.trace ++
            [audio_ev.client_hold c, audio_ev.client_release c] })) ∧
        (∀ rv, client.c_write = some rv →
          audio_write H E dev σ = (rv, { σ with trace := σ.trace ++
            [audio_ev.client_hold c, audio_ev.c_write c, audio_ev.client_release c] }))) ∧
      ((client.c_ioctl = none →
          audio_ioctl H E dev σ = (H.ENXIO, { σ with trace := σ.trace ++
            [audio_ev.client_hold c, audio_ev.client_release c] })) ∧
        (∀ rv, client.c_ioctl = some rv →
          audio_ioctl H E dev σ = (rv, { σ with trace := σ.trace ++
            [audio_ev.client_hold c, audio_ev.c_ioctl c, audio_ev.client_release c] }))) ∧
      ((client.c_chpoll = none →
          audio_chpoll H E dev σ = (H.ENXIO, { σ with trace := σ.trace ++
            [audio_ev.client_hold c, audio_ev.client_release c] })) ∧
        (∀ rv, client.c_chpoll = some rv →
          audio_chpoll H E dev σ = (rv, { σ with trace := σ.trace ++
            [audio_ev.client_hold c, audio_ev.c_chpoll c, audio_ev.client_release c] })))) := by
  refine ⟨?_, ?_⟩
  · intro h
    unfold audio_read audio_write audio_ioctl audio_chpoll
    simp only [h, and_self]
  · intro c client h
    unfold audio_read audio_write audio_ioctl audio_chpoll
    simp only [h]
    refine ⟨⟨?_, ?_⟩, ⟨?_, ?_⟩, ⟨?_, ?_⟩, ⟨?_, ?_⟩⟩
    · intro hn; rw [hn]; simp [audio_log]
    · intro rv hn; rw [hn]; simp [audio_log]
    · intro hn; rw [hn]; simp [audio_log]
    · intro rv hn; rw [hn]; simp [audio_log]
    · intro hn; rw [hn]; simp [audio_log]
    · intro rv hn; rw [hn]; simp [audio_log]
    · intro hn; rw [hn]; simp [audio_log]
    · intro rv hn; rw [hn]; simp [audio_log]

/-- The state at the point where `audio_close` calls `c_close`: the client is
among the clients with `c_is_open` false, and the calls so far are the hold of
the client, the engine call if there is an input engine, the hold of the
device and the release of the client. -/
theorem audio_close_hold_some (E : audio_env) (dev : Nat) (σ : audio_state)
    (c : Nat) (client : audio_client_t)
    (h : auclnt_hold_by_devt E σ dev = some (c, client)) :
    ∃ σ5, audio_close_hold E dev σ = some (c, client.c_dev, σ5) ∧
      (c, { client with c_is_open := false }) ∈ σ5.clients ∧
      σ5.clients = σ.clients.map
        (fun p => if p.1 = c then (p.1, { p.2 with c_is_open := false }) else p) ∧
      σ5.trace = σ.trace ++ [audio_ev.client_hold c] ++
        (if client.c_istream_engine ≠ 0 then
          [audio_ev.engine_produce client.c_istream_engine] else []) ++
        [audio_ev.dev_hold client.c_dev, audio_ev.client_release c] := by
  have hmem : (c, client) ∈ σ.clients := by
    unfold auclnt_hold_by_devt at h
    exact List.mem_of_find?_eq_some h
  unfold audio_close_hold
  rw [h]
  simp only
  refine ⟨_, rfl, ?_, ?_, ?_⟩
  · have : (c, ({ client with c_is_open := false } : audio_client_t)) ∈
        σ.clients.map
          (fun p => if p.1 = c then (p.1, ({ p.2 with c_is_open := false } : audio_client_t))
            else p) := by
      apply List.mem_map.mpr
      exact ⟨(c, client), hmem, by simp⟩
    by_cases he : client.c_istream_engine ≠ 0
    · rw [if_pos he]; exact this
    · rw [if_neg he]; exact this
  · by_cases he : client.c_istream_engine ≠ 0
    · rw [if_pos he]; rfl
    · rw [if_neg he]; rfl
  · by_cases he : client.c_istream_engine ≠ 0
    · rw [if_pos he, if_pos he]; simp [audio_log, audio_client_update]
    · rw [if_neg he, if_neg he]; simp [audio_log, audio_client_update]

/-- C13.  `audio_close` returns ENXIO and leaves the clients as they were when
no client exists for the dev_t.  Otherwise it returns 0; at the point where it
calls the personality close handler `c_close` the client has `c_is_open`
false and the hold on the client has been released, after a hold on the
device was taken; after `c_close` the client is destroyed, the peers are
notified, and only then the hold on the device is released. -/
theorem audio_close_contract (H : cb_hdr) (E : audio_env) (dev : Nat) (σ : audio_state) :
    (auclnt_hold_by_devt E σ dev = none →
      (audio_close H E dev σ).1 = H.ENXIO ∧
      (audio_close H E dev σ).2.clients = σ.clients) ∧
    (∀ c client, auclnt_hold_by_devt E σ dev = some (c, client) →
      (audio_close H E dev σ).1 = 0 ∧
      (∃ σ5, audio_close_hold E dev σ = some (c, client.c_dev, σ5) ∧
        (c, { client with c_is_open := false }) ∈ σ5.clients ∧
        σ5.trace = σ.trace ++ [audio_ev.client_hold c] ++
          (if client.c_istream_engine ≠ 0 then
            [audio_ev.engine_produce client.c_istream_engine] else []) ++
          [audio_ev.dev_hold client.c_dev, audio_ev.client_release c] ∧
        (audio_close H E dev σ).2.trace = σ5.trace ++
          [audio_ev.c_close c, audio_ev.client_destroy c,
           audio_ev.notify_dev client.c_dev, audio_ev.dev_release client.c_dev]) ∧
      (∀ p, p ∈ (audio_close H E dev σ).2.clients → p.1 ≠ c)) := by
  refine ⟨?_, ?_⟩
  · intro h
    have : audio_close_hold E dev σ = none := by
      unfold audio_close_hold
      rw [h]
    unfold audio_close
    rw [this]
    exact ⟨rfl, rfl⟩
  · intro c client h
    obtain ⟨σ5, e5, m5, _, t5⟩ := audio_close_hold_some E dev σ c client h
    unfold audio_close
    rw [e5]
    simp only
    refine ⟨trivial, ⟨σ5, rfl, m5, t5, ?_⟩, ?_⟩
    · simp [auimpl_client_destroy, audio_log]
    · intro p hp
      simp only [audio_log, auimpl_client_destroy] at hp
      have := (List.mem_filter.mp hp).2
      simpa using this

/-- C14.  `audio_getinfo` resolves the dev_t through the client table when its
minor has a bit of AUDIO_MN_CLONE_MASK set and through the device table
otherwise; it returns DDI_FAILURE (and leaves `*resp`) when no devinfo node is
resolved; otherwise DDI_INFO_DEVT2DEVINFO yields that node and
DDI_INFO_DEVT2INSTANCE its instance number, with DDI_SUCCESS, and any other
command sets `*resp` to NULL and returns DDI_FAILURE.  The calls it makes are
none, or a hold and the release of the same client, or a hold and the release
of the same device.  The two command values differ, as the case labels of a
`switch` do. -/
theorem audio_getinfo_contract (K : ddi_hdr) (H : cb_hdr) (E : audio_env) (cmd : Int)
    (arg : Nat) (σ : audio_state)
    (hlabels : H.DDI_INFO_DEVT2DEVINFO ≠ H.DDI_INFO_DEVT2INSTANCE) :
    (E.getminor arg &&& H.AUDIO_MN_CLONE_MASK ≠ 0 →
      (audio_getinfo_dip H E arg σ).1 =
        match auclnt_hold_by_devt E σ arg with
        | some (_, client) => E.d_dip client.c_dev
        | none => 0) ∧
    (E.getminor arg &&& H.AUDIO_MN_CLONE_MASK = 0 →
      (audio_getinfo_dip H E arg σ).1 =
        match E.dev_hold_by_devt arg with
        | some adev => E.d_dip adev
        | none => 0) ∧
    ((audio_getinfo_dip H E arg σ).1 = 0 →
      (audio_getinfo K H E cmd arg σ).1 = K.DDI_FAILURE ∧
      (audio_getinfo K H E cmd arg σ).2.1 = getinfo_resp.untouched) ∧
    ((audio_getinfo_dip H E arg σ).1 ≠ 0 →
      (cmd = H.DDI_INFO_DEVT2DEVINFO →
        (audio_getinfo K H E cmd arg σ).1 = K.DDI_SUCCESS ∧
        (audio_getinfo K H E cmd arg σ).2.1
          = getinfo_resp.devinfo (audio_getinfo_dip H E arg σ).1) ∧
      (cmd = H.DDI_INFO_DEVT2INSTANCE →
        (audio_getinfo K H E cmd arg σ).1 = K.DDI_SUCCESS ∧
        (audio_getinfo K H E cmd arg σ).2.1
          = getinfo_resp.instance_no (E.get_instance (audio_getinfo_dip H E arg σ).1)) ∧
      (cmd ≠ H.DDI_INFO_DEVT2DEVINFO → cmd ≠ H.DDI_INFO_DEVT2INSTANCE →
        (audio_getinfo K H E cmd arg σ).1 = K.DDI_FAILURE ∧
        (audio_getinfo K H E cmd arg σ).2.1 = getinfo_resp.null)) ∧
    ((audio_getinfo K H E cmd arg σ).2.2.clients = σ.clients ∧
      ((audio_getinfo K H E cmd arg σ).2.2.trace = σ.trace ∨
        (∃ c, (audio_getinfo K H E cmd arg σ).2.2.trace = σ.trace ++
          [audio_ev.client_hold c, audio_ev.client_release c]) ∨
        (∃ d, (audio_getinfo K H E cmd arg σ).2.2.trace = σ.trace ++
          [audio_ev.dev_hold d, audio_ev.dev_release d]))) := by
  have hstate : (audio_getinfo K H E cmd arg σ).2.2 = (audio_getinfo_dip H E arg σ).2 := by
    unfold audio_getinfo
    simp only
    split_ifs <;> rfl
  refine ⟨?_, ?_, ?_, ?_, ?_⟩
  · intro hm
    unfold audio_getinfo_dip
    rw [if_pos hm]
    cases auclnt_hold_by_devt E σ arg with
    | none => rfl
    | some p => rfl
  · intro hm
    unfold audio_getinfo_dip
    rw [if_neg (not_not.mpr hm)]
    cases E.dev_hold_by_devt arg with
    | none => rfl
    | some p => rfl
  · intro h0
    unfold audio_getinfo
    simp only
    rw [if_pos h0]
    exact ⟨rfl, rfl⟩
  · intro h0
    unfold audio_getinfo
    simp only
    rw [if_neg h0]
    refine ⟨?_, ?_, ?_⟩
    · intro hc
      rw [if_pos hc]
      exact ⟨rfl, rfl⟩
    · intro hc
      have : ¬ cmd = H.DDI_INFO_DEVT2DEVINFO := by
        rw [hc]; exact fun e => hlabels e.symm
      rw [if_neg this, if_pos hc]
      exact ⟨rfl, rfl⟩
    · intro h1 h2
      rw [if_neg h1, if_neg h2]
      exact ⟨rfl, rfl⟩
  · rw [hstate]
    unfold audio_getinfo_dip
    by_cases hm : E.getminor arg &&& H.AUDIO_MN_CLONE_MASK ≠ 0
    · rw [if_pos hm]
      cases auclnt_hold_by_devt E σ arg with
      | none => exact ⟨rfl, Or.inl rfl⟩
      | some p => exact ⟨rfl, Or.inr (Or.inl ⟨p.1, rfl⟩)⟩
    · rw [if_neg hm]
      cases E.dev_hold_by_devt arg with
      | none => exact ⟨rfl, Or.inl rfl⟩
      | some d => exact ⟨rfl, Or.inr (Or.inr ⟨d, rfl⟩)⟩

/-- Witness of C14: the device number (5, 3) of the sample client, whose minor
has the clone bit set, asked for its devinfo node. -/
theorem audio_getinfo_contract_witness :
    (audio_getinfo ddi_hdr_sample cb_hdr_sample audio_env_sample
        cb_hdr_sample.DDI_INFO_DEVT2DEVINFO 1283 audio_state_sample).1
      = ddi_hdr_sample.DDI_SUCCESS ∧
    (audio_getinfo ddi_hdr_sample cb_hdr_sample audio_env_sample
        cb_hdr_sample.DDI_INFO_DEVT2DEVINFO 1283 audio_state_sample).2.1
      = getinfo_resp.devinfo
          (audio_getinfo_dip cb_hdr_sample audio_env_sample 1283 audio_state_sample).1 :=
  ((audio_getinfo_contract ddi_hdr_sample cb_hdr_sample audio_env_sample
      cb_hdr_sample.DDI_INFO_DEVT2DEVINFO 1283 audio_state_sample (by decide)).2.2.2.1
    (by decide)).1 rfl

/-- C15.  `_init` returns the result of `mod_install`; when that is non-zero it
has called `auimpl_dev_fini` and `auimpl_client_fini` after `mod_install`,
and when it is zero it has torn nothing down.  `_fini` returns the result of
`mod_remove`; when that is non-zero nothing is torn down, and when it is zero
`auimpl_dev_fini` and `auimpl_client_fini` are called after `mod_remove`. -/
theorem audio_mod_init_fini (E : audio_env) (σ : audio_state) :
    (_init E σ).1 = E.mod_install_rv ∧
    (E.mod_install_rv ≠ 0 →
      (_init E σ).2.trace = σ.trace ++
        [audio_ev.client_init, audio_ev.dev_init, audio_ev.sun_init, audio_ev.oss_init,
         audio_ev.mod_install, audio_ev.dev_fini, audio_ev.client_fini]) ∧
    (E.mod_install_rv = 0 →
      (_init E σ).2.trace = σ.trace ++
        [audio_ev.client_init, audio_ev.dev_init, audio_ev.sun_init, audio_ev.oss_init,
         audio_ev.mod_install]) ∧
    (_fini E σ).1 = E.mod_remove_rv ∧
    (E.mod_remove_rv ≠ 0 → (_fini E σ).2.trace = σ.trace ++ [audio_ev.mod_remove]) ∧
    (E.mod_remove_rv = 0 →
      (_fini E σ).2.trace = σ.trace ++
        [audio_ev.mod_remove, audio_ev.dev_fini, audio_ev.client_fini]) := by
  unfold _init _fini
  simp only
  refine ⟨?_, ?_, ?_, ?_, ?_, ?_⟩
  · split_ifs <;> rfl
  · intro h
    rw [if_pos h]
    simp [audio_log]
  · intro h
    rw [if_neg (not_not.mpr h)]
    simp [audio_log]
  · split_ifs <;> rfl
  · intro h
    rw [if_pos h]
    simp [audio_log]
  · intro h
    rw [if_neg (not_not.mpr h)]
    simp [audio_log]

/-- A call that is no destroy call keeps the lifecycle rule. -/
theorem destroy_follows_delete_cons (c : ptree_call) (r : ptree_resp) (tr : ptree_history)
    (hp : ∀ h, c ≠ ptree_call.destroy_prop h) (hn : ∀ h, c ≠ ptree_call.destroy_node h)
    (htr : destroy_follows_delete tr = true) :
    destroy_follows_delete ((c, r) :: tr) = true := by
  cases c <;> first
    | exact absurd rfl (hp _)
    | exact absurd rfl (hn _)
    | simpa [destroy_follows_delete] using htr

/-- A `ptree_destroy_prop` right after the successful `ptree_delete_prop` of
the same handle keeps the lifecycle rule. -/
theorem destroy_follows_delete_prop (h : Nat) (r r1 : ptree_resp) (tr : ptree_history)
    (hok : r.ok = true) (htr : destroy_follows_delete tr = true) :
    destroy_follows_delete
      ((ptree_call.destroy_prop h, r1) :: (ptree_call.delete_prop h, r) :: tr) = true := by
  simp [destroy_follows_delete, hok, htr]

/-- A `ptree_destroy_node` right after the successful `ptree_delete_node` of
the same handle keeps the lifecycle rule. -/
theorem destroy_follows_delete_node (h : Nat) (r r1 : ptree_resp) (tr : ptree_history)
    (hok : r.ok = true) (htr : destroy_follows_delete tr = true) :
    destroy_follows_delete
      ((ptree_call.destroy_node h, r1) :: (ptree_call.delete_node h, r) :: tr) = true := by
  simp [destroy_follows_delete, hok, htr]

/-- The function `add_op_status_to_node` keeps the lifecycle rule. -/
theorem add_op_status_to_node_lifecycle (P : picl_hdr) (O : ptree_oracle) (nodeh : Nat)
    (tr : ptree_history) (htr : destroy_follows_delete tr = true) :
    destroy_follows_delete (add_op_status_to_node P O nodeh tr) = true := by
  unfold add_op_status_to_node
  simp only [ptree_do]
  split_ifs <;> simp_all [destroy_follows_delete]

/-- The body of the loop of `remove_fru_parents` keeps the lifecycle rule. -/
theorem remove_fru_parents_body_lifecycle (P : picl_hdr) (O : ptree_oracle) (tblh : Nat)
    (tr : ptree_history) (htr : destroy_follows_delete tr = true) :
    destroy_follows_delete (remove_fru_parents_body P O tblh tr) = true := by
  unfold remove_fru_parents_body
  simp only [ptree_do]
  split_ifs <;> simp_all [destroy_follows_delete]

/-- The loop of `remove_fru_parents` keeps the lifecycle rule. -/
theorem remove_fru_parents_loop_lifecycle (P : picl_hdr) (O : ptree_oracle) (fuel : Nat) :
    ∀ (tblh : Nat) (tr : ptree_history), destroy_follows_delete tr = true →
      destroy_follows_delete (remove_fru_parents_loop P O fuel tblh tr) = true := by
  induction fuel with
  | zero => intro tblh tr htr; simpa [remove_fru_parents_loop] using htr
  | succ n ih =>
    intro tblh tr htr
    have hb := remove_fru_parents_body_lifecycle P O tblh tr htr
    have hc : destroy_follows_delete
        (ptree_do O (remove_fru_parents_body P O tblh tr)
          (ptree_call.get_next_by_col tblh)).2 = true := by
      simpa [ptree_do, destroy_follows_delete] using hb
    simp only [remove_fru_parents_loop]
    split_ifs
    · exact ih _ _ hc
    · exact hc

/-- The function `remove_fru_parents` keeps the lifecycle rule. -/
theorem remove_fru_parents_lifecycle (P : picl_hdr) (O : ptree_oracle) (fuel fruh : Nat)
    (tr : ptree_history) (htr : destroy_follows_delete tr = true) :
    destroy_follows_delete (remove_fru_parents P O fuel fruh tr) = true := by
  unfold remove_fru_parents
  dsimp only
  split_ifs
  · apply remove_fru_parents_loop_lifecycle
    simpa [ptree_do, destroy_follows_delete] using htr
  all_goals simpa [ptree_do, destroy_follows_delete] using htr

/-- The first part of `remove_tables` keeps the lifecycle rule. -/
theorem remove_tables_devices_lifecycle (P : picl_hdr) (O : ptree_oracle) (rootnd : Nat)
    (tr : ptree_history) (htr : destroy_follows_delete tr = true) :
    destroy_follows_delete (remove_tables_devices P O rootnd tr) = true := by
  unfold remove_tables_devices
  simp only [ptree_do]
  split_ifs <;> simp_all [destroy_follows_delete]

/-- The function `remove_tables` and its loop keep the lifecycle rule. -/
theorem remove_tables_fuel_lifecycle (P : picl_hdr) (O : ptree_oracle) (fuel : Nat) :
    ∀ (b : Bool) (rootnd : Nat) (tr : ptree_history), destroy_follows_delete tr = true →
      destroy_follows_delete (remove_tables_fuel P O fuel b rootnd tr) = true := by
  induction fuel with
  | zero => intro b rootnd tr htr; simpa [remove_tables_fuel] using htr
  | succ n ih =>
    intro b rootnd tr htr
    cases b with
    | false =>
      have hb := remove_tables_devices_lifecycle P O rootnd tr htr
      have hc : destroy_follows_delete
          (ptree_do O (remove_tables_devices P O rootnd tr)
            (ptree_call.get_propval_by_name rootnd P.PICL_PROP_CHILD)).2 = true := by
        simpa [ptree_do, destroy_follows_delete] using hb
      simp only [remove_tables_fuel]
      split_ifs
      · exact ih _ _ _ hc
      · exact hc
    | true =>
      have hb := ih false rootnd tr htr
      have hc : destroy_follows_delete
          (ptree_do O (remove_tables_fuel P O n false rootnd tr)
            (ptree_call.get_propval_by_name rootnd P.PICL_PROP_PEER)).2 = true := by
        simpa [ptree_do, destroy_follows_delete] using hb
      simp only [remove_tables_fuel]
      split_ifs
      · exact ih _ _ _ hc
      · exact hc

/-- The loop of `find_child_by_name` makes no destroy call. -/
theorem find_child_by_name_calls_loop_lifecycle (P : picl_hdr) (O : ptree_oracle)
    (name : cstr) (fuel : Nat) :
    ∀ (nodeh : Nat) (tr : ptree_history), destroy_follows_delete tr = true →
      destroy_follows_delete (find_child_by_name_calls_loop P O name fuel nodeh tr).2 = true := by
  induction fuel with
  | zero => intro nodeh tr htr; simpa [find_child_by_name_calls_loop] using htr
  | succ n ih =>
    intro nodeh tr htr
    simp only [find_child_by_name_calls_loop]
    split_ifs
    · simpa [ptree_do, destroy_follows_delete] using htr
    · apply ih
      simpa [ptree_do, destroy_follows_delete] using htr
    · simpa [ptree_do, destroy_follows_delete] using htr
    · simpa [ptree_do, destroy_follows_delete] using htr

/-- The function `find_child_by_name` makes no destroy call. -/
theorem find_child_by_name_calls_lifecycle (P : picl_hdr) (O : ptree_oracle)
    (fuel parh : Nat) (name : cstr) (tr : ptree_history)
    (htr : destroy_follows_delete tr = true) :
    destroy_follows_delete (find_child_by_name_calls P O fuel parh name tr).2 = true := by
  unfold find_child_by_name_calls
  dsimp only
  split_ifs
  · apply find_child_by_name_calls_loop_lifecycle
    simpa [ptree_do, destroy_follows_delete] using htr
  · simpa [ptree_do, destroy_follows_delete] using htr

/-- The function `create_table_entry` makes no destroy call. -/
theorem create_table_entry_lifecycle (P : picl_hdr) (O : ptree_oracle) (tblhdl : Nat)
    (classname : cstr) (tr : ptree_history) (htr : destroy_follows_delete tr = true) :
    destroy_follows_delete (create_table_entry P O tblhdl classname tr).2 = true := by
  unfold create_table_entry
  simp only [ptree_do]
  split_ifs <;> simp_all [destroy_follows_delete]

/-- The function `add_prop_ref` makes no destroy call. -/
theorem add_prop_ref_lifecycle (O : ptree_oracle) (nodeh : Nat) (name : cstr)
    (tr : ptree_history) (htr : destroy_follows_delete tr = true) :
    destroy_follows_delete (add_prop_ref O nodeh name tr).2 = true := by
  unfold add_prop_ref
  simp only [ptree_do]
  split_ifs <;> simp_all [destroy_follows_delete]

/-- The function `create_table` makes no destroy call. -/
theorem create_table_lifecycle (P : picl_hdr) (O : ptree_oracle) (fruhdl : Nat)
    (tbl_name : cstr) (tr : ptree_history) (htr : destroy_follows_delete tr = true) :
    destroy_follows_delete (create_table P O fruhdl tbl_name tr).2 = true := by
  unfold create_table
  simp only [ptree_do]
  split_ifs <;> simp_all [destroy_follows_delete]

/-- A call that is no destroy call, made through `ptree_do`, keeps the
lifecycle rule. -/
theorem ptree_do_lifecycle (O : ptree_oracle) (c : ptree_call) (tr : ptree_history)
    (hp : ∀ h, c ≠ ptree_call.destroy_prop h) (hn : ∀ h, c ≠ ptree_call.destroy_node h)
    (htr : destroy_follows_delete tr = true) :
    destroy_follows_delete (ptree_do O tr c).2 = true :=
  destroy_follows_delete_cons c _ tr hp hn htr

/-- A `ptree_destroy_prop` made right after the successful `ptree_delete_prop`
of the same handle keeps the lifecycle rule. -/
theorem ptree_do_destroy_prop_lifecycle (O : ptree_oracle) (h : Nat) (tr : ptree_history)
    (hok : (ptree_do O tr (ptree_call.delete_prop h)).1.ok = true)
    (htr : destroy_follows_delete tr = true) :
    destroy_follows_delete
      (ptree_do O (ptree_do O tr (ptree_call.delete_prop h)).2
        (ptree_call.destroy_prop h)).2 = true :=
  destroy_follows_delete_prop h _ _ tr hok htr

/-- A `ptree_destroy_node` made right after the successful `ptree_delete_node`
of the same handle keeps the lifecycle rule. -/
theorem ptree_do_destroy_node_lifecycle (O : ptree_oracle) (h : Nat) (tr : ptree_history)
    (hok : (ptree_do O tr (ptree_call.delete_node h)).1.ok = true)
    (htr : destroy_follows_delete tr = true) :
    destroy_follows_delete
      (ptree_do O (ptree_do O tr (ptree_call.delete_node h)).2
        (ptree_call.destroy_node h)).2 = true :=
  destroy_follows_delete_node h _ _ tr hok htr

/-- The function `update_disk_node` keeps the lifecycle rule. -/
theorem update_disk_node_lifecycle (K : hdr) (P : picl_hdr) (O : ptree_oracle) (fuel : Nat)
    (fruname devpath : cstr) (tr : ptree_history) (htr : destroy_follows_delete tr = true) :
    destroy_follows_delete (update_disk_node K P O fuel fruname devpath tr) = true := by
  unfold update_disk_node
  dsimp only
  split_ifs
  all_goals
    repeat' first
      | exact htr
      | apply find_child_by_name_calls_lifecycle
      | apply create_table_entry_lifecycle
      | apply add_prop_ref_lifecycle
      | apply create_table_lifecycle
      | apply ptree_do_destroy_prop_lifecycle _ _ _ (by assumption)

/-- The function `frudr_completion_handler` keeps the lifecycle rule. -/
theorem frudr_completion_handler_calls_lifecycle (K : hdr) (P : picl_hdr) (O : ptree_oracle)
    (fuel : Nat) (ename : cstr) (earg : nvlist_t) (tr : ptree_history)
    (htr : destroy_follows_delete tr = true) :
    destroy_follows_delete (frudr_completion_handler_calls K P O fuel ename earg tr) = true := by
  unfold frudr_completion_handler_calls
  dsimp only
  split_ifs
  all_goals
    repeat' first
      | exact htr
      | apply remove_fru_parents_lifecycle
      | apply ptree_do_destroy_node_lifecycle _ _ _ (by assumption)

/-- C18.  The handle lifecycle rule of the plugin. In each of
`add_op_status_to_node`, `remove_fru_parents`, `remove_tables`,
`update_disk_node` and `frudr_completion_handler`, whatever the ptree calls
answer and however long the loops run, every `ptree_destroy_prop` or
`ptree_destroy_node` call the function makes stands right after a
`ptree_delete_prop` (resp. `ptree_delete_node`) call on the same handle that
returned PICL_SUCCESS: a history that obeys the rule is extended to one that
obeys it. On a daemon that answers every call with success the first function
does make the pair of calls, the deletion just before the destruction. -/
theorem destroy_only_after_delete (K : hdr) (P : picl_hdr) (O : ptree_oracle) (fuel : Nat) :
    (∀ nodeh tr, destroy_follows_delete tr = true →
      destroy_follows_delete (add_op_status_to_node P O nodeh tr) = true) ∧
    (∀ fruh tr, destroy_follows_delete tr = true →
      destroy_follows_delete (remove_fru_parents P O fuel fruh tr) = true) ∧
    (∀ rootnd tr, destroy_follows_delete tr = true →
      destroy_follows_delete (remove_tables P O fuel rootnd tr) = true) ∧
    (∀ fruname devpath tr, destroy_follows_delete tr = true →
      destroy_follows_delete (update_disk_node K P O fuel fruname devpath tr) = true) ∧
    (∀ ename earg tr, destroy_follows_delete tr = true →
      destroy_follows_delete
        (frudr_completion_handler_calls K P O fuel ename earg tr) = true) ∧
    (add_op_status_to_node picl_hdr_sample ptree_oracle_sample 4 []).map Prod.fst =
      [ptree_call.create_and_add_prop 4 picl_hdr_sample.PICL_PROP_OPERATIONAL_STATUS,
       ptree_call.destroy_prop 9, ptree_call.delete_prop 9,
       ptree_call.get_prop_by_name 4 picl_hdr_sample.PICL_PROP_OPERATIONAL_STATUS,
       ptree_call.init_propinfo picl_hdr_sample.PICL_PROP_OPERATIONAL_STATUS] :=
  ⟨fun nodeh tr h => add_op_status_to_node_lifecycle P O nodeh tr h,
   fun fruh tr h => remove_fru_parents_lifecycle P O fuel fruh tr h,
   fun rootnd tr h => remove_tables_fuel_lifecycle P O fuel false rootnd tr h,
   fun fruname devpath tr h => update_disk_node_lifecycle K P O fuel fruname devpath tr h,
   fun ename earg tr h => frudr_completion_handler_calls_lifecycle K P O fuel ename earg tr h,
   by decide⟩

/-! ## find_child_by_name -/

/-- In a tree with distinct handles the node found under a handle is the node
that carries it. -/
theorem ptree_find_hdl (A B : List picl_node) (n : picl_node)
    (hA : ∀ a ∈ A, a.hdl ≠ n.hdl) :
    (A ++ n :: B).find? (fun m => decide (m.hdl = n.hdl)) = some n := by
  induction A with
  | nil => simp
  | cons a A ih =>
    have h1 : a.hdl ≠ n.hdl := hA a (List.mem_cons_self _ _)
    have h2 := ih (fun x hx => hA x (List.mem_cons_of_mem _ hx))
    simp [List.find?, h1, h2]

/-- Dropping the nodes in front of the one that carries the handle. -/
theorem ptree_dropWhile_hdl (A B : List picl_node) (n : picl_node)
    (hA : ∀ a ∈ A, a.hdl ≠ n.hdl) :
    (A ++ n :: B).dropWhile (fun m => decide (m.hdl ≠ n.hdl)) = n :: B := by
  induction A with
  | nil => simp [List.dropWhile]
  | cons a A ih =>
    have h1 : a.hdl ≠ n.hdl := hA a (List.mem_cons_self _ _)
    have h2 := ih (fun x hx => hA x (List.mem_cons_of_mem _ hx))
    show List.dropWhile _ (a :: (A ++ n :: B)) = _
    rw [List.dropWhile_cons_of_pos (by simpa using h1)]
    exact h2

/-- The nodes in front of a node of a tree with distinct handles carry other
handles. -/
theorem ptree_front_ne (A B : List picl_node) (n : picl_node)
    (hnd : ((A ++ n :: B).map (fun m => m.hdl)).Nodup) :
    ∀ a ∈ A, a.hdl ≠ n.hdl := by
  intro a ha heq
  rw [List.map_append, List.map_cons] at hnd
  have hdis := (List.nodup_append.mp hnd).2.2
  exact hdis (List.mem_map_of_mem (fun m => m.hdl) ha) (by rw [heq]; exact List.mem_cons_self _ _)

/-- The first node of a list that has a given parent splits the list. -/
theorem ptree_find_parent_split (parh : Nat) :
    ∀ B : List picl_node,
      (B.find? (fun m => decide (m.parent = parh)) = none ∧
        B.filter (fun m => decide (m.parent = parh)) = []) ∨
      (∃ B1 m B2, B = B1 ++ m :: B2 ∧ m.parent = parh ∧
        B.find? (fun m => decide (m.parent = parh)) = some m ∧
        B.filter (fun m => decide (m.parent = parh)) =
          m :: B2.filter (fun m => decide (m.parent = parh))) := by
  intro B
  induction B with
  | nil => left; simp
  | cons b B ih =>
    by_cases hb : b.parent = parh
    · right
      exact ⟨[], b, B, rfl, hb, by simp [List.find?, hb], by simp [List.filter, hb]⟩
    · rcases ih with ⟨h1, h2⟩ | ⟨B1, m, B2, h1, h2, h3, h4⟩
      · left
        exact ⟨by simp [List.find?, hb, h1], by simp [List.filter, hb, h2]⟩
      · right
        refine ⟨b :: B1, m, B2, by rw [h1]; rfl, h2, ?_, ?_⟩
        · simp only [List.find?, hb, decide_False]; exact h3
        · simp only [List.filter, hb, decide_False]; exact h4

/-- The walk along the PEER links from a child of `parh` agrees with the loop
over the sibling list that starts at this child. -/
theorem find_child_by_name_walk_loop_eq (T : ptree) (parh : Nat) (name : cstr)
    (hnd : (T.map (fun m => m.hdl)).Nodup) :
    ∀ (fuel : Nat) (A B : List picl_node) (n : picl_node),
      T = A ++ n :: B → n.parent = parh → B.length < fuel →
      find_child_by_name_walk_loop T name fuel n.hdl =
        some (find_child_by_name_loop name
          (n :: B.filter (fun m => decide (m.parent = parh)))) := by
  intro fuel
  induction fuel with
  | zero => intro A B n _ _ h; exact absurd h (Nat.not_lt_zero _)
  | succ k ih =>
    intro A B n hT hp hlen
    have hA : ∀ a ∈ A, a.hdl ≠ n.hdl := ptree_front_ne A B n (hT ▸ hnd)
    have hname : ptree_get_name T n.hdl = some n.name := by
      unfold ptree_get_name
      rw [hT, ptree_find_hdl A B n hA]; rfl
    have hpeer : ptree_get_peer T n.hdl =
        (B.find? (fun m => decide (m.parent = parh))).map (fun m => m.hdl) := by
      unfold ptree_get_peer
      rw [hT, ptree_dropWhile_hdl A B n hA]
      dsimp only
      rw [hp]
    simp only [find_child_by_name_walk_loop, hname, find_child_by_name_loop]
    by_cases hs : strcmp_eq name n.name = true
    · rw [if_pos hs, if_pos hs]
    · rw [if_neg hs, if_neg hs, hpeer]
      rcases ptree_find_parent_split parh B with ⟨h1, h2⟩ | ⟨B1, m, B2, h1, h2, h3, h4⟩
      · rw [h1, h2]; rfl
      · rw [h3, h4]
        have hT2 : T = (A ++ n :: B1) ++ m :: B2 := by
          rw [hT, h1]; simp
        have hl : B2.length < k := by
          have : B.length = B1.length + (B2.length + 1) := by rw [h1]; simp
          omega
        exact ih (A ++ n :: B1) B2 m hT2 h2 hl

/-- The walk of `find_child_by_name` returns, with fuel for every node of the
tree, what the loop over the child list returns. -/
theorem find_child_by_name_walk_eq (T : ptree) (parh : Nat) (name : cstr) (fuel : Nat)
    (hnd : (T.map (fun m => m.hdl)).Nodup) (hfuel : T.length ≤ fuel) :
    find_child_by_name_walk T fuel parh name = some (find_child_by_name T parh name) := by
  unfold find_child_by_name_walk ptree_get_child find_child_by_name ptree_children
  rcases ptree_find_parent_split parh T with ⟨_, h2⟩ | ⟨B1, m, B2, h1, h2, _, h4⟩
  · rw [h2]; rfl
  · rw [h4]
    have hl : B2.length < fuel := by
      have : T.length = B1.length + (B2.length + 1) := by rw [h1]; simp
      omega
    exact find_child_by_name_walk_loop_eq T parh name hnd fuel B1 B2 m h1 h2 hl

/-- The loop over a sibling list returns the first node with the name. -/
theorem find_child_by_name_loop_first (name : cstr) :
    ∀ l : List picl_node,
      (∃ pre n post, l = pre ++ n :: post ∧ n.name = name ∧
        (∀ m ∈ pre, m.name ≠ name) ∧ find_child_by_name_loop name l = n.hdl) ∨
      ((∀ n ∈ l, n.name ≠ name) ∧ find_child_by_name_loop name l = 0) := by
  intro l
  induction l with
  | nil => right; simp [find_child_by_name_loop]
  | cons a rest ih =>
    by_cases h : name = a.name
    · left
      refine ⟨[], a, rest, rfl, h.symm, by simp, ?_⟩
      simp [find_child_by_name_loop, strcmp_eq, h]
    · have hs : strcmp_eq name a.name = false := by simp [strcmp_eq, h]
      have hl : find_child_by_name_loop name (a :: rest) = find_child_by_name_loop name rest := by
        simp [find_child_by_name_loop, hs]
      rcases ih with ⟨pre, n, post, h1, h2, h3, h4⟩ | ⟨h1, h2⟩
      · left
        refine ⟨a :: pre, n, post, by rw [h1]; rfl, h2, ?_, by rw [hl, h4]⟩
        intro m hm
        rcases List.mem_cons.mp hm with rfl | hm
        · exact fun e => h e.symm
        · exact h3 m hm
      · right
        refine ⟨?_, by rw [hl, h2]⟩
        intro n hn
        rcases List.mem_cons.mp hn with rfl | hn
        · exact fun e => h e.symm
        · exact h1 n hn

/-- C19.  `find_child_by_name(parh, name)` on a tree with distinct node
handles, walked along the CHILD and PEER links, returns (with fuel for every
node of the tree) what the loop over the child list of `parh` returns: the
handle of the first immediate child, in child/peer order, whose name equals
`name`, and NULL (0) when no immediate child has that name; a result that is
not NULL is the handle of an immediate child of `parh` with that name. -/
theorem find_child_by_name_first_child (T : ptree) (parh : Nat) (name : cstr) (fuel : Nat)
    (hnd : (T.map (fun m => m.hdl)).Nodup) (hfuel : T.length ≤ fuel) :
    find_child_by_name_walk T fuel parh name = some (find_child_by_name T parh name) ∧
    ((∃ pre n post, ptree_children T parh = pre ++ n :: post ∧ n.name = name ∧
        (∀ m ∈ pre, m.name ≠ name) ∧ find_child_by_name T parh name = n.hdl) ∨
      ((∀ n ∈ ptree_children T parh, n.name ≠ name) ∧
        find_child_by_name T parh name = 0)) ∧
    (find_child_by_name T parh name ≠ 0 →
      ∃ n ∈ T, n.parent = parh ∧ n.name = name ∧ n.hdl = find_child_by_name T parh name) := by
  have hfirst := find_child_by_name_loop_first name (ptree_children T parh)
  refine ⟨find_child_by_name_walk_eq T parh name fuel hnd hfuel, hfirst, ?_⟩
  intro hne
  rcases hfirst with ⟨pre, n, post, h1, h2, _, h4⟩ | ⟨_, h2⟩
  · have hmem : n ∈ ptree_children T parh := by rw [h1]; simp
    have hmem2 := List.mem_filter.mp hmem
    exact ⟨n, hmem2.1, by simpa using hmem2.2, h2, h4.symm⟩
  · exact absurd h2 hne

/-- Witness of C19: the walk on a slot with the children 2, 3 and 4, of which 3
and 4 are named "disk", returns 3. -/
theorem find_child_by_name_first_child_witness :
    (tree_three_children_sample.map (fun m => m.hdl)).Nodup ∧
    tree_three_children_sample.length ≤ 5 ∧
    find_child_by_name_walk tree_three_children_sample 5 1 DISK_FRU_NAME = some 3 ∧
    find_child_by_name tree_three_children_sample 1 DISK_FRU_NAME = 3 ∧
    find_child_by_name_walk tree_three_children_sample 5 1 DISK_FRU_NAME =
      some (find_child_by_name tree_three_children_sample 1 DISK_FRU_NAME) :=
  ⟨by decide, by decide, by decide, by decide,
   (find_child_by_name_first_child tree_three_children_sample 1 DISK_FRU_NAME 5
      (by decide) (by decide)).1⟩

/-! ## set_led -/

end Illumos
